import Mathlib

/-!
# CHIP-8 interpreter (`main.c`): shallow embedding and verified properties

The machine record `CHIP8_t` of `main.c` is embedded as a Lean structure whose C arrays
are total functions on `Nat`; every array access goes through a bounds-checked accessor
that returns `Except.error` when the index lies outside the declared C array (undefined
behaviour in C).  Machine integers are `Nat`, truncated to the width of the C type at
every assignment (`% 256` for `uint8_t`, `% 65536` for `uint16_t`); C expressions are
evaluated without wrap-around, as C does after integer promotion to `int`.

The SDL window, renderer, colours and ROM name of the C record carry no machine state and
are left out; `printf` diagnostics do not change the record and are kept as comments.
-/

namespace CHIP8

/-! ## Data model -/

/-- Width of the display in cells (`#define DISPLAY_WIDTH 64`). -/
abbrev DISPLAY_WIDTH : Nat := 64

/-- Height of the display in cells (`#define DISPLAY_HEIGHT 32`). -/
abbrev DISPLAY_HEIGHT : Nat := 32

/-- Run state of the emulator (`e_state_t`). -/
inductive e_state_t where
  | QUIT
  | RUNNING
  | STOPPED
  deriving DecidableEq, Repr

/-- Decoded view of the current instruction (`CHIP8_instruction_t`). -/
structure CHIP8_instruction_t where
  /-- Raw opcode, `uint16_t`. -/
  opcode : Nat
  /-- Address or 12-bit constant, `uint16_t`. -/
  NNN : Nat
  /-- Constant byte, `uint8_t`. -/
  NN : Nat
  /-- Constant nibble, `uint8_t`. -/
  N : Nat
  /-- First register operand, `uint8_t`. -/
  X : Nat
  /-- Second register operand, `uint8_t`. -/
  Y : Nat
  deriving DecidableEq, Repr

/-- Machine record (`struct CHIP8_s`), restricted to the fields that hold machine state. -/
structure CHIP8_t where
  /-- Target instructions per second, `uint32_t`. -/
  clock_rate : Nat
  /-- Run state of the scheduler. -/
  run_state : e_state_t
  /-- Main memory `uint8_t MM[0x1000]`. -/
  MM : Nat → Nat
  /-- General purpose registers `uint8_t V[0x10]`. -/
  V : Nat → Nat
  /-- Program counter, `uint16_t`. -/
  PC : Nat
  /-- Index register, `uint16_t`. -/
  I : Nat
  /-- Sound timer, `uint8_t`. -/
  S : Nat
  /-- Delay timer, `uint8_t`. -/
  D : Nat
  /-- Display cells `bool display[64*32]`, row-major. -/
  display : Nat → Bool
  /-- Return-address stack `uint16_t stack[12]`. -/
  stack : Nat → Nat
  /-- Stack pointer, `uint8_t`. -/
  SP : Nat
  /-- Key states `bool keypad[0x10]`. -/
  keypad : Nat → Bool
  /-- Current instruction. -/
  instruction : CHIP8_instruction_t

/-- An access to a C array at an index outside its declared bounds. -/
inductive OutOfBounds where
  | MM (index : Nat)
  | V (index : Nat)
  | display (index : Nat)
  | stack (index : Nat)
  | keypad (index : Nat)
  deriving DecidableEq, Repr

/-- Result of running C code on the record: the new record, or the first out-of-bounds access. -/
abbrev Exec (α : Type) : Type := Except OutOfBounds α

/-- Truncation of `a - b` to a `w`-bit unsigned integer (C assignment of an `int` difference). -/
def wrapSub (w a b : Nat) : Nat := (((a : Int) - (b : Int)) % (2 ^ w : Int)).toNat

/-- The C types bound every field of the record and every in-bounds array element. -/
structure CHIP8_t.wf (s : CHIP8_t) : Prop where
  clock_rate_lt : s.clock_rate < 2 ^ 32
  MM_lt : ∀ a, a < 0x1000 → s.MM a < 256
  V_lt : ∀ i, i < 0x10 → s.V i < 256
  PC_lt : s.PC < 65536
  I_lt : s.I < 65536
  S_lt : s.S < 256
  D_lt : s.D < 256
  stack_lt : ∀ i, i < 12 → s.stack i < 65536
  SP_lt : s.SP < 256
  opcode_lt : s.instruction.opcode < 65536
  NNN_lt : s.instruction.NNN < 65536
  NN_lt : s.instruction.NN < 256
  N_lt : s.instruction.N < 256
  X_lt : s.instruction.X < 256
  Y_lt : s.instruction.Y < 256

/-! ## Bounds-checked array accessors -/

/-- Read `MM[a]`. -/
def readMM (s : CHIP8_t) (a : Nat) : Exec Nat :=
  if a < 0x1000 then .ok (s.MM a) else .error (.MM a)

/-- Assign `MM[a] = v` (truncated to `uint8_t`). -/
def writeMM (s : CHIP8_t) (a v : Nat) : Exec CHIP8_t :=
  if a < 0x1000 then .ok { s with MM := Function.update s.MM a (v % 256) } else .error (.MM a)

/-- Read `V[i]`. -/
def readV (s : CHIP8_t) (i : Nat) : Exec Nat :=
  if i < 0x10 then .ok (s.V i) else .error (.V i)

/-- Assign `V[i] = v` (truncated to `uint8_t`). -/
def writeV (s : CHIP8_t) (i v : Nat) : Exec CHIP8_t :=
  if i < 0x10 then .ok { s with V := Function.update s.V i (v % 256) } else .error (.V i)

/-- Read `display[i]`. -/
def readDisplay (s : CHIP8_t) (i : Nat) : Exec Bool :=
  if i < DISPLAY_WIDTH * DISPLAY_HEIGHT then .ok (s.display i) else .error (.display i)

/-- Assign `display[i] = b`. -/
def writeDisplay (s : CHIP8_t) (i : Nat) (b : Bool) : Exec CHIP8_t :=
  if i < DISPLAY_WIDTH * DISPLAY_HEIGHT then
    .ok { s with display := Function.update s.display i b }
  else .error (.display i)

/-- Read `stack[i]`. -/
def readStack (s : CHIP8_t) (i : Nat) : Exec Nat :=
  if i < 12 then .ok (s.stack i) else .error (.stack i)

/-- Assign `stack[i] = v` (truncated to `uint16_t`). -/
def writeStack (s : CHIP8_t) (i v : Nat) : Exec CHIP8_t :=
  if i < 12 then .ok { s with stack := Function.update s.stack i (v % 65536) }
  else .error (.stack i)

/-- Read `keypad[i]`. -/
def readKeypad (s : CHIP8_t) (i : Nat) : Exec Bool :=
  if i < 0x10 then .ok (s.keypad i) else .error (.keypad i)

/-! ## Decoder -/

/-- Decode stage of `CHIP8_emulate_instruction`: the operand fields of an opcode. -/
def CHIP8_decode (opcode : Nat) : CHIP8_instruction_t :=
  { opcode := opcode
    NNN := (opcode &&& 0xFFF) % 65536
    NN := (opcode &&& 0xFF) % 256
    N := (opcode &&& 0xF) % 256
    X := ((opcode &&& 0x0F00) >>> 8) % 256
    Y := ((opcode &&& 0x00F0) >>> 4) % 256 }

/-! ## Instruction table -/

/-- Operation `CHIP8_I_0NNN`: jump to machine instruction at `NNN`. -/
def CHIP8_I_0NNN (s : CHIP8_t) : Exec CHIP8_t :=
  .ok { s with PC := s.instruction.NNN % 65536 }

/-- Operation `CHIP8_I_00E0`: clear the screen (`memset` over the whole display array). -/
def CHIP8_I_00E0 (s : CHIP8_t) : Exec CHIP8_t :=
  .ok { s with display := fun i => if i < DISPLAY_WIDTH * DISPLAY_HEIGHT then false else s.display i }

/-- Operation `CHIP8_I_00EE`: return from the last call. -/
def CHIP8_I_00EE (s : CHIP8_t) : Exec CHIP8_t := do
  -- if (SP < 1) printf("ERROR: stack overflow");  -- diagnostic only, execution goes on
  let s1 := { s with SP := wrapSub 8 s.SP 1 }
  let ret ← readStack s1 s1.SP
  .ok { s1 with PC := ret % 65536 }

/-- Operation `CHIP8_I_1NNN`: jump to address `NNN`. -/
def CHIP8_I_1NNN (s : CHIP8_t) : Exec CHIP8_t :=
  .ok { s with PC := s.instruction.NNN % 65536 }

/-- Operation `CHIP8_I_2NNN`: call the subroutine at address `NNN`. -/
def CHIP8_I_2NNN (s : CHIP8_t) : Exec CHIP8_t := do
  -- if (SP > 11) printf("ERROR: Too many nested subroutine calls...segfault inbound");
  -- diagnostic only, execution goes on
  let s1 ← writeStack s s.SP s.PC
  let s2 := { s1 with SP := (s1.SP + 1) % 256 }
  .ok { s2 with PC := s2.instruction.NNN % 65536 }

/-- Operation `CHIP8_I_3XNN`: skip the next instruction if `V[X] == NN`. -/
def CHIP8_I_3XNN (s : CHIP8_t) : Exec CHIP8_t := do
  let vx ← readV s s.instruction.X
  if vx = s.instruction.NN then .ok { s with PC := (s.PC + 2) % 65536 } else .ok s

/-- Operation `CHIP8_I_4XNN`: skip the next instruction if `V[X] != NN`. -/
def CHIP8_I_4XNN (s : CHIP8_t) : Exec CHIP8_t := do
  let vx ← readV s s.instruction.X
  if vx ≠ s.instruction.NN then .ok { s with PC := (s.PC + 2) % 65536 } else .ok s

/-- Operation `CHIP8_I_5XY0`: skip the next instruction if `V[X] == V[Y]`. -/
def CHIP8_I_5XY0 (s : CHIP8_t) : Exec CHIP8_t := do
  let vx ← readV s s.instruction.X
  let vy ← readV s s.instruction.Y
  if vx = vy then .ok { s with PC := (s.PC + 2) % 65536 } else .ok s

/-- Operation `CHIP8_I_6XNN`: `V[X] = NN`. -/
def CHIP8_I_6XNN (s : CHIP8_t) : Exec CHIP8_t :=
  writeV s s.instruction.X s.instruction.NN

/-- Operation `CHIP8_I_7XNN`: `V[X] += NN`. -/
def CHIP8_I_7XNN (s : CHIP8_t) : Exec CHIP8_t := do
  let vx ← readV s s.instruction.X
  writeV s s.instruction.X (vx + s.instruction.NN)

/-- Operation `CHIP8_I_8XY0`: `V[X] = V[Y]`. -/
def CHIP8_I_8XY0 (s : CHIP8_t) : Exec CHIP8_t := do
  let vy ← readV s s.instruction.Y
  writeV s s.instruction.X vy

/-- Operation `CHIP8_I_8XY1`: `V[X] |= V[Y]`. -/
def CHIP8_I_8XY1 (s : CHIP8_t) : Exec CHIP8_t := do
  let vx ← readV s s.instruction.X
  let vy ← readV s s.instruction.Y
  writeV s s.instruction.X (vx ||| vy)

/-- Operation `CHIP8_I_8XY2`: `V[X] &= V[Y]`. -/
def CHIP8_I_8XY2 (s : CHIP8_t) : Exec CHIP8_t := do
  let vx ← readV s s.instruction.X
  let vy ← readV s s.instruction.Y
  writeV s s.instruction.X (vx &&& vy)

/-- Operation `CHIP8_I_8XY3`: `V[X] ^= V[Y]`. -/
def CHIP8_I_8XY3 (s : CHIP8_t) : Exec CHIP8_t := do
  let vx ← readV s s.instruction.X
  let vy ← readV s s.instruction.Y
  writeV s s.instruction.X (vx ^^^ vy)

/-- Operation `CHIP8_I_8XY4`: add `V[Y]` to `V[X]`, carry in `V[0xF]`. -/
def CHIP8_I_8XY4 (s : CHIP8_t) : Exec CHIP8_t := do
  let vx ← readV s s.instruction.X
  let vy ← readV s s.instruction.Y
  let sum := (vx + vy) % 65536                       -- uint16_t sum = V[X] + V[Y];
  let s1 ← writeV s s.instruction.X sum              -- V[X] = (uint8_t)(sum);
  writeV s1 0xF (if sum > 0xFF then 0x1 else 0x0)    -- V[0xF] = sum > 0xFF ? 0x1 : 0x0;

/-- Operation `CHIP8_I_8XY5`: subtract `V[Y]` from `V[X]`, flag in `V[0xF]`. -/
def CHIP8_I_8XY5 (s : CHIP8_t) : Exec CHIP8_t := do
  -- TODO what if VX or VY = VF?
  let vx ← readV s s.instruction.X
  let vy ← readV s s.instruction.Y
  let s1 ← writeV s 0xF (if vx > vy then 0x1 else 0x0)   -- V[0xF] = V[X] > V[Y] ? 0x1 : 0x0;
  let vx1 ← readV s1 s1.instruction.X
  let vy1 ← readV s1 s1.instruction.Y
  writeV s1 s1.instruction.X (wrapSub 8 vx1 vy1)           -- V[X] -= V[Y];

/-- Operation `CHIP8_I_8XY6`: shift `V[X]` right by one, shifted-out bit in `V[0xF]`. -/
def CHIP8_I_8XY6 (s : CHIP8_t) : Exec CHIP8_t := do
  let vx ← readV s s.instruction.X
  let s1 ← writeV s 0xF (vx &&& 0x1)                       -- V[0xF] = V[X] & 0x1;
  let vx1 ← readV s1 s1.instruction.X
  writeV s1 s1.instruction.X (vx1 >>> 1)                   -- V[X] >>= 1;

/-- Operation `CHIP8_I_8XY7`: `V[X] = V[Y] - V[X]`, flag in `V[0xF]`. -/
def CHIP8_I_8XY7 (s : CHIP8_t) : Exec CHIP8_t := do
  let vx ← readV s s.instruction.X
  let vy ← readV s s.instruction.Y
  let s1 ← writeV s 0xF (if vy > vx then 0x1 else 0x0)   -- V[0xF] = V[Y] > V[X] ? 0x1 : 0x0;
  let vy1 ← readV s1 s1.instruction.Y
  let vx1 ← readV s1 s1.instruction.X
  writeV s1 s1.instruction.X (wrapSub 8 vy1 vx1)           -- V[X] = V[Y] - V[X];

/-- Operation `CHIP8_I_8XYE`: shift `V[X]` left by one, shifted-out bit in `V[0xF]`. -/
def CHIP8_I_8XYE (s : CHIP8_t) : Exec CHIP8_t := do
  let vx ← readV s s.instruction.X
  let s1 ← writeV s 0xF ((vx &&& 0x80) >>> 7)              -- V[0xF] = (V[X] & 0x80) >> 7;
  let vx1 ← readV s1 s1.instruction.X
  writeV s1 s1.instruction.X (vx1 <<< 1)                   -- V[X] <<= 1;

/-- Operation `CHIP8_I_9XY0`: skip the next instruction if `V[X] != V[Y]`. -/
def CHIP8_I_9XY0 (s : CHIP8_t) : Exec CHIP8_t := do
  let vx ← readV s s.instruction.X
  let vy ← readV s s.instruction.Y
  if vx ≠ vy then .ok { s with PC := (s.PC + 2) % 65536 } else .ok s

/-- Operation `CHIP8_I_ANNN`: `I = NNN`. -/
def CHIP8_I_ANNN (s : CHIP8_t) : Exec CHIP8_t :=
  .ok { s with I := s.instruction.NNN % 65536 }

/-- Operation `CHIP8_I_BNNN`: `PC = V[0] + NNN`. -/
def CHIP8_I_BNNN (s : CHIP8_t) : Exec CHIP8_t := do
  let v0 ← readV s 0x0
  .ok { s with PC := (v0 + s.instruction.NNN) % 65536 }

/-- Operation `CHIP8_I_CXNN`: `V[X] = ((uint8_t)rand()) & NN`; `rnd` is the value returned by `rand()`. -/
def CHIP8_I_CXNN (rnd : Nat) (s : CHIP8_t) : Exec CHIP8_t :=
  writeV s s.instruction.X ((rnd % 256) &&& s.instruction.NN)

/-- Inner loop of `CHIP8_I_DXYN`: `for (int x = ...; x < 8; x++)` with `k` iterations left. -/
def CHIP8_I_DXYN_cols (X Y y : Nat) : Nat → Nat → CHIP8_t → Exec CHIP8_t
  | 0, _, s => .ok s
  | k + 1, x, s =>
    if X + x ≥ DISPLAY_WIDTH then .ok s                    -- don't wrap sprite: break
    else do
      let b ← readMM s (s.I + y)
      let sprite_pixel := (b &&& (0x80 >>> x)) % 256
      let d ← readDisplay s ((X + x) + (Y + y) * DISPLAY_WIDTH)
      let screen_pixel : Nat := if d then 1 else 0
      let (s1, screen_pixel1) ←
        (if sprite_pixel ≠ 0 then
          if screen_pixel ≠ 0 then do
            let s1 ← writeV s 0xF 0x1
            pure (s1, 0x0)
          else pure (s, 0x1)
        else pure (s, screen_pixel) : Exec (CHIP8_t × Nat))
      let s2 ← writeDisplay s1 ((X + x) + (Y + y) * DISPLAY_WIDTH) (screen_pixel1 != 0)
      CHIP8_I_DXYN_cols X Y y k (x + 1) s2

/-- Outer loop of `CHIP8_I_DXYN`: `for (int y = ...; y < N; y++)` with `k` iterations left. -/
def CHIP8_I_DXYN_rows (X Y : Nat) : Nat → Nat → CHIP8_t → Exec CHIP8_t
  | 0, _, s => .ok s
  | k + 1, y, s =>
    if Y + y ≥ DISPLAY_HEIGHT then .ok s                   -- don't wrap sprite: break
    else do
      let s1 ← CHIP8_I_DXYN_cols X Y y 8 0 s
      CHIP8_I_DXYN_rows X Y k (y + 1) s1

/-- Operation `CHIP8_I_DXYN`: draw the `N`-byte sprite at `MM[I]` at (`V[X]`, `V[Y]`), collision in `V[0xF]`. -/
def CHIP8_I_DXYN (s : CHIP8_t) : Exec CHIP8_t := do
  let vx ← readV s s.instruction.X
  let vy ← readV s s.instruction.Y
  let X := (vx % DISPLAY_WIDTH) % 256
  let Y := (vy % DISPLAY_HEIGHT) % 256
  let N := s.instruction.N % 256
  let s1 ← writeV s 0xF 0x0
  CHIP8_I_DXYN_rows X Y N 0 s1

/-- Operation `CHIP8_I_EX9E`: skip the next instruction if key `V[X]` is pressed. -/
def CHIP8_I_EX9E (s : CHIP8_t) : Exec CHIP8_t := do
  let vx ← readV s s.instruction.X
  let key ← readKeypad s vx
  if key then .ok { s with PC := (s.PC + 2) % 65536 } else .ok s

/-- Operation `CHIP8_I_EXA1`: skip the next instruction if key `V[X]` is not pressed. -/
def CHIP8_I_EXA1 (s : CHIP8_t) : Exec CHIP8_t := do
  let vx ← readV s s.instruction.X
  let key ← readKeypad s vx
  if !key then .ok { s with PC := (s.PC + 2) % 65536 } else .ok s

/-- Operation `CHIP8_I_FX07`: `V[X] = D`. -/
def CHIP8_I_FX07 (s : CHIP8_t) : Exec CHIP8_t :=
  writeV s s.instruction.X s.D

/-- Key scan of `CHIP8_I_FX0A`: `for (uint8_t i = ...; i <= 0xF; i++)` with `k` iterations left. -/
def CHIP8_I_FX0A_scan : Nat → Nat → CHIP8_t → Exec CHIP8_t
  | 0, _, s => .ok s
  | k + 1, i, s => do
    let key ← readKeypad s i
    if key then
      let key1 ← readKeypad s i
      let s1 ← writeV s s.instruction.X (if key1 then 1 else 0)   -- V[X] = keypad[i];
      .ok { s1 with PC := (s1.PC + 2) % 65536 }                    -- PC += 2; break;
    else CHIP8_I_FX0A_scan k (i + 1) s

/-- Operation `CHIP8_I_FX0A`: wait for a key. -/
def CHIP8_I_FX0A (s : CHIP8_t) : Exec CHIP8_t :=
  CHIP8_I_FX0A_scan 16 0x0 { s with PC := wrapSub 16 s.PC 2 }

/-- Operation `CHIP8_I_FX15`: `D = V[X]`. -/
def CHIP8_I_FX15 (s : CHIP8_t) : Exec CHIP8_t := do
  let vx ← readV s s.instruction.X
  .ok { s with D := vx % 256 }

/-- Operation `CHIP8_I_FX18`: `S = V[X]`. -/
def CHIP8_I_FX18 (s : CHIP8_t) : Exec CHIP8_t := do
  let vx ← readV s s.instruction.X
  .ok { s with S := vx % 256 }

/-- Operation `CHIP8_I_FX1E`: `I += V[X]`. -/
def CHIP8_I_FX1E (s : CHIP8_t) : Exec CHIP8_t := do
  let vx ← readV s s.instruction.X
  .ok { s with I := (s.I + vx) % 65536 }

/-- Operation `CHIP8_I_FX29`: `I = V[X] * 5`, the address of the glyph of digit `V[X]`. -/
def CHIP8_I_FX29 (s : CHIP8_t) : Exec CHIP8_t := do
  let vx ← readV s s.instruction.X
  .ok { s with I := (vx * 5) % 65536 }

/-- Operation `CHIP8_I_FX33`: store the three decimal digits of `V[X]` at `MM[I..I+2]`. -/
def CHIP8_I_FX33 (s : CHIP8_t) : Exec CHIP8_t := do
  let vx ← readV s s.instruction.X
  let s1 ← writeMM s s.I (vx / 100)                        -- MM[I] = V[X] / 100;
  let vx1 ← readV s1 s1.instruction.X
  let s2 ← writeMM s1 (s1.I + 1) ((vx1 % 100) / 10)        -- MM[I+1] = (V[X] % 100) / 10;
  let vx2 ← readV s2 s2.instruction.X
  writeMM s2 (s2.I + 2) (vx2 % 10)                         -- MM[I+2] = V[X] % 10;

/-- Loop of `CHIP8_I_FX55`: `for (int i = ...; i <= X; i++)` with `k` iterations left. -/
def CHIP8_I_FX55_loop : Nat → Nat → CHIP8_t → Exec CHIP8_t
  | 0, _, s => .ok s
  | k + 1, i, s => do
    let vi ← readV s i
    let s1 ← writeMM s (s.I + i) vi                        -- MM[I + i] = V[i];
    CHIP8_I_FX55_loop k (i + 1) s1

/-- Operation `CHIP8_I_FX55`: store `V[0..X]` at `MM[I..I+X]`. -/
def CHIP8_I_FX55 (s : CHIP8_t) : Exec CHIP8_t :=
  CHIP8_I_FX55_loop (s.instruction.X + 1) 0 s

/-- Loop of `CHIP8_I_FX65`: `for (int i = ...; i <= X; i++)` with `k` iterations left. -/
def CHIP8_I_FX65_loop : Nat → Nat → CHIP8_t → Exec CHIP8_t
  | 0, _, s => .ok s
  | k + 1, i, s => do
    let b ← readMM s (s.I + i)
    let s1 ← writeV s i b                                  -- V[i] = MM[I + i];
    CHIP8_I_FX65_loop k (i + 1) s1

/-- Operation `CHIP8_I_FX65`: load `V[0..X]` from `MM[I..I+X]`. -/
def CHIP8_I_FX65 (s : CHIP8_t) : Exec CHIP8_t :=
  CHIP8_I_FX65_loop (s.instruction.X + 1) 0 s

/-! ## Fetch, decode, dispatch -/

/-- Fetch stage of `CHIP8_emulate_instruction`: read the big-endian opcode at `PC`. -/
def CHIP8_fetch (s : CHIP8_t) : Exec Nat := do
  let hi ← readMM s s.PC
  let lo ← readMM s (s.PC + 1)
  .ok (((hi <<< 8) ||| lo) % 65536)

/-- Execute stage of `CHIP8_emulate_instruction`: the nested `switch` over the opcode. -/
def CHIP8_dispatch (rnd : Nat) (s : CHIP8_t) : Exec CHIP8_t :=
  let c := (s.instruction.opcode &&& 0xF000) >>> 12
  if c = 0x0 then
    if s.instruction.NNN = 0x0E0 then CHIP8_I_00E0 s
    else if s.instruction.NNN = 0x0EE then CHIP8_I_00EE s
    else CHIP8_I_0NNN s
  else if c = 0x1 then CHIP8_I_1NNN s
  else if c = 0x2 then CHIP8_I_2NNN s
  else if c = 0x3 then CHIP8_I_3XNN s
  else if c = 0x4 then CHIP8_I_4XNN s
  else if c = 0x5 then
    if s.instruction.N ≠ 0x0 then .ok s
    else CHIP8_I_5XY0 s
  else if c = 0x6 then CHIP8_I_6XNN s
  else if c = 0x7 then CHIP8_I_7XNN s
  else if c = 0x8 then
    if s.instruction.N = 0x0 then CHIP8_I_8XY0 s
    else if s.instruction.N = 0x1 then CHIP8_I_8XY1 s
    else if s.instruction.N = 0x2 then CHIP8_I_8XY2 s
    else if s.instruction.N = 0x3 then CHIP8_I_8XY3 s
    else if s.instruction.N = 0x4 then CHIP8_I_8XY4 s
    else if s.instruction.N = 0x5 then CHIP8_I_8XY5 s
    else if s.instruction.N = 0x6 then CHIP8_I_8XY6 s
    else if s.instruction.N = 0x7 then CHIP8_I_8XY7 s
    else if s.instruction.N = 0xE then CHIP8_I_8XYE s
    else .ok s                                            -- printf("Invalid instruction or WIP")
  else if c = 0x9 then CHIP8_I_9XY0 s
  else if c = 0xA then CHIP8_I_ANNN s
  else if c = 0xB then CHIP8_I_BNNN s
  else if c = 0xC then CHIP8_I_CXNN rnd s
  else if c = 0xD then CHIP8_I_DXYN s
  else if c = 0xE then
    if s.instruction.NN = 0x9E then CHIP8_I_EX9E s
    else if s.instruction.NN = 0xA1 then CHIP8_I_EXA1 s
    else .ok s                                            -- printf("Invalid instruction or WIP")
  else if c = 0xF then
    if s.instruction.NN = 0x07 then CHIP8_I_FX07 s
    else if s.instruction.NN = 0x0A then CHIP8_I_FX0A s
    else if s.instruction.NN = 0x15 then CHIP8_I_FX15 s
    else if s.instruction.NN = 0x18 then CHIP8_I_FX18 s
    else if s.instruction.NN = 0x1E then CHIP8_I_FX1E s
    else if s.instruction.NN = 0x29 then CHIP8_I_FX29 s
    else if s.instruction.NN = 0x33 then CHIP8_I_FX33 s
    else if s.instruction.NN = 0x55 then CHIP8_I_FX55 s
    else if s.instruction.NN = 0x65 then CHIP8_I_FX65 s
    else .ok s                                            -- printf("Invalid instruction or WIP")
  else .ok s                                              -- printf("Invalid instruction or WIP")

/-- The part of `CHIP8_emulate_instruction` after the fetch: advance `PC`, decode the fetched
opcode, execute. -/
def CHIP8_execute_opcode (rnd opcode : Nat) (s : CHIP8_t) : Exec CHIP8_t :=
  let s1 := { s with PC := (s.PC + 2) % 65536 }
  let s2 := { s1 with instruction := CHIP8_decode opcode }
  CHIP8_dispatch rnd s2

/-- Function `CHIP8_emulate_instruction`: fetch, advance `PC`, decode, execute. -/
def CHIP8_emulate_instruction (rnd : Nat) (s : CHIP8_t) : Exec CHIP8_t := do
  let opcode ← CHIP8_fetch s
  CHIP8_execute_opcode rnd opcode s

/-- Successive instruction steps in which the fetches return the listed opcodes in order. -/
def run_opcodes (rnd : Nat) : List Nat → CHIP8_t → Exec CHIP8_t
  | [], s => .ok s
  | opcode :: rest, s => do
    let s1 ← CHIP8_execute_opcode rnd opcode s
    run_opcodes rnd rest s1

/-! ## Font and initial record -/

/-- Font table `font[]`: 16 glyphs of 5 bytes each. -/
def font : List Nat :=
  [ 0xF0, 0x90, 0x90, 0x90, 0xF0,   -- 0
    0x20, 0x60, 0x20, 0x20, 0x70,   -- 1
    0xF0, 0x10, 0xF0, 0x80, 0xF0,   -- 2
    0xF0, 0x10, 0xF0, 0x10, 0xF0,   -- 3
    0x90, 0x90, 0xF0, 0x10, 0x10,   -- 4
    0xF0, 0x80, 0xF0, 0x10, 0xF0,   -- 5
    0xF0, 0x80, 0xF0, 0x90, 0xF0,   -- 6
    0xF0, 0x10, 0x20, 0x40, 0x40,   -- 7
    0xF0, 0x90, 0xF0, 0x90, 0xF0,   -- 8
    0xF0, 0x90, 0xF0, 0x10, 0xF0,   -- 9
    0xF0, 0x90, 0xF0, 0x90, 0x90,   -- A
    0xE0, 0x90, 0xE0, 0x90, 0xE0,   -- B
    0xF0, 0x80, 0x80, 0x80, 0xF0,   -- C
    0xE0, 0x90, 0x90, 0x90, 0xE0,   -- D
    0xF0, 0x80, 0xF0, 0x80, 0xF0,   -- E
    0xF0, 0x80, 0xF0, 0x80, 0x80 ]  -- F

/-- First statement of `CHIP8_init`: `memcpy(chip8_i->MM, font, sizeof(font))`. -/
def CHIP8_init_font (s : CHIP8_t) : CHIP8_t :=
  { s with MM := fun a => if a < font.length then font.getD a 0 else s.MM a }

/-- The record `CHIP8_default` that `CHIP8_create` copies: clock rate 700, stopped, all else zero. -/
def CHIP8_default : CHIP8_t :=
  { clock_rate := 700
    run_state := e_state_t.STOPPED
    MM := fun _ => 0
    V := fun _ => 0
    PC := 0
    I := 0
    S := 0
    D := 0
    display := fun _ => false
    stack := fun _ => 0
    SP := 0
    keypad := fun _ => false
    instruction := { opcode := 0, NNN := 0, NN := 0, N := 0, X := 0, Y := 0 } }

/-! ## Cycle scheduler -/

/-- Key symbols that `CHIP8_handle_input` distinguishes (`event.key.keysym.sym`); `other`
stands for every key without a `case`. -/
inductive SDL_Keycode where
  | SDLK_SPACE
  | SDLK_1 | SDLK_2 | SDLK_3 | SDLK_4
  | SDLK_q | SDLK_w | SDLK_e | SDLK_r
  | SDLK_a | SDLK_s | SDLK_d | SDLK_f
  | SDLK_z | SDLK_x | SDLK_c | SDLK_v
  | other
  deriving DecidableEq, Repr

/-- Events that `CHIP8_handle_input` distinguishes (`event.type`); `other` stands for every
event type handled by `default: break`. -/
inductive SDL_Event where
  | SDL_QUIT
  | SDL_KEYDOWN (sym : SDL_Keycode)
  | SDL_KEYUP (sym : SDL_Keycode)
  | other
  deriving DecidableEq, Repr

/-- Body of the `while (SDL_PollEvent(&event))` loop of `CHIP8_handle_input`: the `switch` over
one event. -/
def CHIP8_handle_event (s : CHIP8_t) : SDL_Event → CHIP8_t
  | .SDL_QUIT => { s with run_state := e_state_t.QUIT }
  | .SDL_KEYDOWN sym =>
    match sym with
    | .SDLK_SPACE =>                                       -- use as pause
      if s.run_state = e_state_t.RUNNING then { s with run_state := e_state_t.STOPPED }
      else { s with run_state := e_state_t.RUNNING }
    | .SDLK_1 => { s with keypad := Function.update s.keypad 0x1 true }
    | .SDLK_2 => { s with keypad := Function.update s.keypad 0x2 true }
    | .SDLK_3 => { s with keypad := Function.update s.keypad 0x3 true }
    | .SDLK_4 => { s with keypad := Function.update s.keypad 0xC true }
    | .SDLK_q => { s with keypad := Function.update s.keypad 0x4 true }
    | .SDLK_w => { s with keypad := Function.update s.keypad 0x5 true }
    | .SDLK_e => { s with keypad := Function.update s.keypad 0x6 true }
    | .SDLK_r => { s with keypad := Function.update s.keypad 0xD true }
    | .SDLK_a => { s with keypad := Function.update s.keypad 0x7 true }
    | .SDLK_s => { s with keypad := Function.update s.keypad 0x8 true }
    | .SDLK_d => { s with keypad := Function.update s.keypad 0x9 true }
    | .SDLK_f => { s with keypad := Function.update s.keypad 0xE true }
    | .SDLK_z => { s with keypad := Function.update s.keypad 0xA true }
    | .SDLK_x => { s with keypad := Function.update s.keypad 0x0 true }
    | .SDLK_c => { s with keypad := Function.update s.keypad 0xB true }
    | .SDLK_v => { s with keypad := Function.update s.keypad 0xF true }
    | .other => s
  | .SDL_KEYUP sym =>
    match sym with
    | .SDLK_1 => { s with keypad := Function.update s.keypad 0x1 false }
    | .SDLK_2 => { s with keypad := Function.update s.keypad 0x2 false }
    | .SDLK_3 => { s with keypad := Function.update s.keypad 0x3 false }
    | .SDLK_4 => { s with keypad := Function.update s.keypad 0xC false }
    | .SDLK_q => { s with keypad := Function.update s.keypad 0x4 false }
    | .SDLK_w => { s with keypad := Function.update s.keypad 0x5 false }
    | .SDLK_e => { s with keypad := Function.update s.keypad 0x6 false }
    | .SDLK_r => { s with keypad := Function.update s.keypad 0xD false }
    | .SDLK_a => { s with keypad := Function.update s.keypad 0x7 false }
    | .SDLK_s => { s with keypad := Function.update s.keypad 0x8 false }
    | .SDLK_d => { s with keypad := Function.update s.keypad 0x9 false }
    | .SDLK_f => { s with keypad := Function.update s.keypad 0xE false }
    | .SDLK_z => { s with keypad := Function.update s.keypad 0xA false }
    | .SDLK_x => { s with keypad := Function.update s.keypad 0x0 false }
    | .SDLK_c => { s with keypad := Function.update s.keypad 0xB false }
    | .SDLK_v => { s with keypad := Function.update s.keypad 0xF false }
    | .SDLK_SPACE => s
    | .other => s
  | .other => s

/-- Function `CHIP8_handle_input`: handle every event that is queued at this poll, in order. -/
def CHIP8_handle_input (events : List SDL_Event) (s : CHIP8_t) : CHIP8_t :=
  events.foldl CHIP8_handle_event s

/-- The instruction loop of `CHIP8_main_loop`,
`for (uint32_t i = ...; i < chip8_i->clock_rate / 60; i++) CHIP8_emulate_instruction(chip8_i)`,
at counter value `i`; the loop test is evaluated on the current record before every pass, and
`fuel` bounds the number of passes. -/
def CHIP8_main_loop_batch (rnd : Nat → Nat) : Nat → Nat → CHIP8_t → Exec CHIP8_t
  | 0, _, s => .ok s
  | fuel + 1, i, s =>
    if i < s.clock_rate / 60 then do
      let s1 ← CHIP8_emulate_instruction (rnd i) s
      CHIP8_main_loop_batch rnd fuel (i + 1) s1
    else .ok s

/-- Timer update of `CHIP8_main_loop`: `if (D > 0) D -= 1; if (S > 0) S -= 1;`. -/
def CHIP8_update_timers (s : CHIP8_t) : CHIP8_t :=
  let s1 := if s.D > 0 then { s with D := wrapSub 8 s.D 1 } else s
  if s1.S > 0 then { s1 with S := wrapSub 8 s1.S 1 } else s1

/-- How one pass through the body of the `while` loop of `CHIP8_main_loop` ends. -/
inductive loop_pass where
  /-- The pass reached the end of the body or a `continue`: the loop test comes next. -/
  | again (s : CHIP8_t)
  /-- The pass executed `break` after `printf("FATAL ERROR: PC went out of bounds")`. -/
  | fatal (s : CHIP8_t)

/-- One pass through the body of the `while` loop of `CHIP8_main_loop`, with the events queued
at this poll. Drawing the display and pacing the loop read the record without changing it. -/
def CHIP8_main_loop_pass (events : List SDL_Event) (rnd : Nat → Nat) (s : CHIP8_t) :
    Exec loop_pass :=
  let s1 := CHIP8_handle_input events s
  if s1.run_state = e_state_t.STOPPED then .ok (.again s1)              -- continue
  else do
    let s2 ← CHIP8_main_loop_batch rnd (s1.clock_rate / 60) 0 s1
    if s2.PC > 0x1000 then .ok (.fatal s2)                              -- break
    else .ok (.again (CHIP8_update_timers s2))

/-- How far `CHIP8_main_loop` got on a finite list of polls. -/
inductive loop_result where
  /-- The loop was left, by its test `run_state != QUIT` or by `break`. -/
  | exited (s : CHIP8_t)
  /-- The loop is still running after the last poll of the list. -/
  | polling (s : CHIP8_t)

/-- Function `CHIP8_main_loop` on the polls listed in `polls`; `rnd t` gives the values of
`rand()` during pass number `t`. -/
def CHIP8_main_loop (rnd : Nat → Nat → Nat) : List (List SDL_Event) → Nat → CHIP8_t →
    Exec loop_result
  | [], _, s =>
    if s.run_state = e_state_t.QUIT then .ok (.exited s) else .ok (.polling s)
  | events :: polls, t, s =>
    if s.run_state = e_state_t.QUIT then .ok (.exited s)                -- while (run_state != QUIT)
    else do
      let r ← CHIP8_main_loop_pass events (rnd t) s
      match r with
      | .fatal s1 => .ok (.exited s1)
      | .again s1 => CHIP8_main_loop rnd polls (t + 1) s1

/-- Function `CHIP8_create`, restricted to the fields of the model: copy `CHIP8_default` and
take over a non-zero `clock_rate`. The parameter is declared `uint8_t clock_rate`, so the
argument is converted to 8 bits on entry. -/
def CHIP8_create (clock_rate : Nat) : CHIP8_t :=
  let clock_rate8 := clock_rate % 256
  if clock_rate8 ≠ 0 then { CHIP8_default with clock_rate := clock_rate8 }
  else CHIP8_default

/-- Function `CHIP8_start`: set the run state to `RUNNING`; the call of `CHIP8_main_loop`
follows. -/
def CHIP8_start (s : CHIP8_t) : CHIP8_t :=
  { s with run_state := e_state_t.RUNNING }

/-! ## Records used in worked instances -/

/-- The default record with `PC = 0x200`, the two bytes of `opcode` stored big-endian at
`0x200` and `0x201`, and registers `V0, V1, ...` preset to the values listed in `regs`. -/
def with_opcode (opcode : Nat) (regs : List Nat) : CHIP8_t :=
  { CHIP8_default with
    PC := 0x200
    MM := Function.update (Function.update CHIP8_default.MM 0x200 (opcode / 256)) 0x201
      (opcode % 256)
    V := fun i => regs.getD i 0 }

/-- The record `with_opcode opcode regs` as the operation body sees it: `PC` advanced past the
opcode and the instruction fields decoded. -/
def with_instruction (opcode : Nat) (regs : List Nat) : CHIP8_t :=
  { with_opcode opcode regs with PC := 0x202, instruction := CHIP8_decode opcode }

/-- The default record with `PC = 0x300`, the opcode `2500` (CALL 0x500) at `0x300` and the
opcode `00EE` (RET) at `0x500`. -/
def call_ret_example : CHIP8_t :=
  { CHIP8_default with
    PC := 0x300
    MM := Function.update (Function.update (Function.update (Function.update CHIP8_default.MM
      0x300 0x25) 0x301 0x00) 0x500 0x00) 0x501 0xEE }

/-- Record about to draw the 5-row glyph of digit 0 (`I = 0`, font preloaded) with opcode `D015`
at `V0 = 62`, `V1 = 30`, two cells from the right edge and two rows from the bottom edge, on a
display whose only lit cell is `(62, 30)`. -/
def draw_example : CHIP8_t :=
  { CHIP8_init_font (with_instruction 0xD015 [62, 30]) with
    display := Function.update (fun _ => false) (62 + 30 * 64) true }

/-- Successive calls of `CHIP8_emulate_instruction`, `n` of them; `rnd i` is the value that
`rand()` returns in call number `i`, and the first call has number `i`. -/
def CHIP8_emulate_instructions (rnd : Nat → Nat) : Nat → Nat → CHIP8_t → Exec CHIP8_t
  | 0, _, s => .ok s
  | n + 1, i, s => do
    let s1 ← CHIP8_emulate_instruction (rnd i) s
    CHIP8_emulate_instructions rnd n (i + 1) s1

/-- The default record with `PC = 0x200`, the opcode `F20A` at `0x200` and exactly the keys
listed in `keys` pressed. -/
def key_wait_example (keys : List Nat) : CHIP8_t :=
  { with_opcode 0xF20A [] with keypad := fun i => decide (i ∈ keys) }

/-- The default record with `PC = 0x200` and the program bytes `60 05 70 03` (LD V0,5; ADD V0,3)
at `0x200..0x203`. -/
def load_add_example : CHIP8_t :=
  { CHIP8_default with
    PC := 0x200
    MM := Function.update (Function.update (Function.update (Function.update CHIP8_default.MM
      0x200 0x60) 0x201 0x05) 0x202 0x70) 0x203 0x03 }

/-- Record created with clock rate 60 (one instruction per pass) and started, with `PC = 0xFFE`
and the opcode `6000` (LD V0,0) in the last two bytes of memory. -/
def pc_edge_example : CHIP8_t :=
  { CHIP8_start (CHIP8_create 60) with
    PC := 0xFFE
    MM := Function.update (Function.update CHIP8_default.MM 0xFFE 0x60) 0xFFF 0x00 }

/-- The record `with_opcode 0xF229 [0, 0, d]` after the font copy of `CHIP8_init`: font at
`MM[0..79]`, blank display, `V0 = V1 = 0` and `V2 = d`. -/
def font_example (d : Nat) : CHIP8_t := CHIP8_init_font (with_opcode 0xF229 [0, 0, d])

/-! ## Auxiliary definitions for the sprite proofs -/

/-- Sprite pixel of column `c` in row `r` of the sprite at `MM[I]`: bit `7 - c` of `MM[I + r]`. -/
def sprite_bit (s : CHIP8_t) (r c : Nat) : Bool := (s.MM (s.I + r)).testBit (7 - c)

/-- Effect of one pass through the body of the inner loop of `CHIP8_I_DXYN` on display index
`idx` with sprite pixel `b`: the cell is flipped when `b` is set, and `V[0xF]` is set to 1 when
`b` is set and the cell was on. -/
def CHIP8_I_DXYN_pixel (s : CHIP8_t) (idx : Nat) (b : Bool) : CHIP8_t :=
  { s with
    V := if (b && s.display idx) = true then Function.update s.V 0xF 1 else s.V
    display := Function.update s.display idx (xor (s.display idx) b) }

/-! ## Basic facts about the accessors -/

theorem CHIP8_default_wf : CHIP8_default.wf := by
  constructor <;> simp [CHIP8_default]

theorem readV_ok (s : CHIP8_t) (i : Nat) (h : i < 16) : readV s i = .ok (s.V i) := by
  simp [readV, h]

theorem writeV_ok (s : CHIP8_t) (i v : Nat) (h : i < 16) :
    writeV s i v = .ok { s with V := Function.update s.V i (v % 256) } := by
  simp [writeV, h]

theorem readMM_ok (s : CHIP8_t) (a : Nat) (h : a < 4096) : readMM s a = .ok (s.MM a) := by
  simp [readMM, h]

theorem writeMM_ok (s : CHIP8_t) (a v : Nat) (h : a < 4096) :
    writeMM s a v = .ok { s with MM := Function.update s.MM a (v % 256) } := by
  simp [writeMM, h]

theorem ok_bind {α β : Type} (a : α) (f : α → Exec β) : (Except.ok a >>= f) = f a := rfl

theorem error_bind {α β : Type} (e : OutOfBounds) (f : α → Exec β) :
    ((Except.error e : Exec α) >>= f) = Except.error e := rfl

/-- A sequenced computation completes exactly when both parts do. -/
theorem bind_eq_ok_iff {α β : Type} (x : Exec α) (f : α → Exec β) (b : β) :
    (x >>= f) = .ok b ↔ ∃ a, x = .ok a ∧ f a = .ok b := by
  cases x with
  | error e =>
    constructor
    · intro h
      cases h
    · rintro ⟨a, h, -⟩
      cases h
  | ok a =>
    constructor
    · intro h
      exact ⟨a, rfl, h⟩
    · rintro ⟨a', h, h'⟩
      cases h
      exact h'

theorem readV_eq_ok_iff (s : CHIP8_t) (i v : Nat) :
    readV s i = .ok v ↔ i < 16 ∧ s.V i = v := by
  unfold readV; split_ifs with h <;> simp [h]

theorem writeV_eq_ok_iff (s s' : CHIP8_t) (i v : Nat) :
    writeV s i v = .ok s' ↔ i < 16 ∧ { s with V := Function.update s.V i (v % 256) } = s' := by
  unfold writeV; split_ifs with h <;> simp [h]

theorem readMM_eq_ok_iff (s : CHIP8_t) (i v : Nat) :
    readMM s i = .ok v ↔ i < 4096 ∧ s.MM i = v := by
  unfold readMM; split_ifs with h <;> simp [h]

theorem writeMM_eq_ok_iff (s s' : CHIP8_t) (i v : Nat) :
    writeMM s i v = .ok s' ↔ i < 4096 ∧ { s with MM := Function.update s.MM i (v % 256) } = s' := by
  unfold writeMM; split_ifs with h <;> simp [h]

theorem readDisplay_eq_ok_iff (s : CHIP8_t) (i : Nat) (b : Bool) :
    readDisplay s i = .ok b ↔ i < 2048 ∧ s.display i = b := by
  have h2048 : DISPLAY_WIDTH * DISPLAY_HEIGHT = 2048 := rfl
  unfold readDisplay
  rw [h2048]
  split_ifs with h <;> simp [h]

theorem writeDisplay_eq_ok_iff (s s' : CHIP8_t) (i : Nat) (b : Bool) :
    writeDisplay s i b = .ok s' ↔
      i < 2048 ∧ { s with display := Function.update s.display i b } = s' := by
  have h2048 : DISPLAY_WIDTH * DISPLAY_HEIGHT = 2048 := rfl
  unfold writeDisplay
  rw [h2048]
  split_ifs with h <;> simp [h]

theorem readStack_eq_ok_iff (s : CHIP8_t) (i v : Nat) :
    readStack s i = .ok v ↔ i < 12 ∧ s.stack i = v := by
  unfold readStack; split_ifs with h <;> simp [h]

theorem writeStack_eq_ok_iff (s s' : CHIP8_t) (i v : Nat) :
    writeStack s i v = .ok s' ↔
      i < 12 ∧ { s with stack := Function.update s.stack i (v % 65536) } = s' := by
  unfold writeStack; split_ifs with h <;> simp [h]

theorem readKeypad_eq_ok_iff (s : CHIP8_t) (i : Nat) (b : Bool) :
    readKeypad s i = .ok b ↔ i < 16 ∧ s.keypad i = b := by
  unfold readKeypad; split_ifs with h <;> simp [h]

/-! ## Decoder -/

theorem and_shiftLeft_shiftRight (n m k : Nat) : (n &&& (m <<< k)) >>> k = (n >>> k) &&& m := by
  apply Nat.eq_of_testBit_eq
  intro i
  simp [Nat.testBit_shiftRight, Nat.testBit_and, Nat.testBit_shiftLeft]

theorem CHIP8_decode_bounds (opcode : Nat) :
    (CHIP8_decode opcode).NNN < 4096 ∧ (CHIP8_decode opcode).NN < 256 ∧
    (CHIP8_decode opcode).N < 16 ∧ (CHIP8_decode opcode).X < 16 ∧
    (CHIP8_decode opcode).Y < 16 := by
  have hNNN : opcode &&& 0xFFF ≤ 0xFFF := Nat.and_le_right
  have hN : opcode &&& 0xF ≤ 0xF := Nat.and_le_right
  have hX : (opcode &&& 0x0F00) >>> 8 = (opcode >>> 8) &&& 0xF :=
    and_shiftLeft_shiftRight opcode 0xF 8
  have hY : (opcode &&& 0x00F0) >>> 4 = (opcode >>> 4) &&& 0xF :=
    and_shiftLeft_shiftRight opcode 0xF 4
  have hX1 : (opcode >>> 8) &&& 0xF ≤ 0xF := Nat.and_le_right
  have hY1 : (opcode >>> 4) &&& 0xF ≤ 0xF := Nat.and_le_right
  simp only [CHIP8_decode, hX, hY]
  refine ⟨?_, ?_, ?_, ?_, ?_⟩ <;> omega

/-- C1: the decode stage yields `NNN = opcode & 0xFFF`, `NN = opcode & 0xFF`, `N = opcode & 0xF`,
`X = (opcode >> 8) & 0xF` and `Y = (opcode >> 4) & 0xF` for every opcode, so `X`, `Y`, `N` are
below 16 and `NNN` is below 4096; the decoder is a total function, it has no failure case. -/
theorem CHIP8_decode_fields (opcode : Nat) :
    (CHIP8_decode opcode).opcode = opcode ∧
    (CHIP8_decode opcode).NNN = opcode &&& 0xFFF ∧
    (CHIP8_decode opcode).NN = opcode &&& 0xFF ∧
    (CHIP8_decode opcode).N = opcode &&& 0xF ∧
    (CHIP8_decode opcode).X = (opcode >>> 8) &&& 0xF ∧
    (CHIP8_decode opcode).Y = (opcode >>> 4) &&& 0xF ∧
    (CHIP8_decode opcode).X < 16 ∧ (CHIP8_decode opcode).Y < 16 ∧
    (CHIP8_decode opcode).N < 16 ∧ (CHIP8_decode opcode).NNN < 4096 := by
  have hNNN : opcode &&& 0xFFF ≤ 0xFFF := Nat.and_le_right
  have hNN : opcode &&& 0xFF ≤ 0xFF := Nat.and_le_right
  have hN : opcode &&& 0xF ≤ 0xF := Nat.and_le_right
  have hX : (opcode &&& 0x0F00) >>> 8 = (opcode >>> 8) &&& 0xF :=
    and_shiftLeft_shiftRight opcode 0xF 8
  have hY : (opcode &&& 0x00F0) >>> 4 = (opcode >>> 4) &&& 0xF :=
    and_shiftLeft_shiftRight opcode 0xF 4
  have hX1 : (opcode >>> 8) &&& 0xF ≤ 0xF := Nat.and_le_right
  have hY1 : (opcode >>> 4) &&& 0xF ≤ 0xF := Nat.and_le_right
  simp only [CHIP8_decode, hX, hY]
  refine ⟨trivial, ?_, ?_, ?_, ?_, ?_, ?_, ?_, ?_, ?_⟩ <;> omega

/-! ## Arithmetic instructions -/

theorem getD_lt_256 (regs : List Nat) (hregs : ∀ v ∈ regs, v < 256) (i : Nat) :
    regs.getD i 0 < 256 := by
  rcases Nat.lt_or_ge i regs.length with hi | hi
  · rw [List.getD_eq_getElem _ _ hi]
    exact hregs _ (List.getElem_mem _)
  · rw [List.getD_eq_default _ _ hi]
    norm_num

theorem with_opcode_wf (opcode : Nat) (regs : List Nat) (h : opcode < 65536)
    (hregs : ∀ v ∈ regs, v < 256) : (with_opcode opcode regs).wf := by
  constructor <;> simp only [with_opcode, CHIP8_default, Function.update] <;> try norm_num
  · intro a _
    split_ifs <;> omega
  · intro i _
    simpa using getD_lt_256 regs hregs i

theorem with_instruction_wf (opcode : Nat) (regs : List Nat) (h : opcode < 65536)
    (hregs : ∀ v ∈ regs, v < 256) : (with_instruction opcode regs).wf := by
  obtain ⟨h1, h2, h3, h4, h5⟩ := CHIP8_decode_bounds opcode
  have hw := with_opcode_wf opcode regs h hregs
  exact
    { clock_rate_lt := hw.clock_rate_lt
      MM_lt := hw.MM_lt
      V_lt := hw.V_lt
      PC_lt := by simp [with_instruction]
      I_lt := hw.I_lt
      S_lt := hw.S_lt
      D_lt := hw.D_lt
      stack_lt := hw.stack_lt
      SP_lt := hw.SP_lt
      opcode_lt := h
      NNN_lt := by simp only [with_instruction]; omega
      NN_lt := h2
      N_lt := by simp only [with_instruction]; omega
      X_lt := by simp only [with_instruction]; omega
      Y_lt := by simp only [with_instruction]; omega }

/-- C2: for every register pair and all 8-bit register contents, `8XY4` leaves `VF = 1` when the
unwrapped sum of the old `V[X]` and `V[Y]` exceeds 255 and `VF = 0` otherwise, and for `X ≠ 0xF`
leaves `V[X]` equal to that sum modulo 256; the step on opcode `8014` with `V0 = 0xFF`,
`V1 = 0x01` gives `V0 = 0x00` and `VF = 1`. -/
theorem CHIP8_I_8XY4_sum_carry (s : CHIP8_t)
    (hX : s.instruction.X < 16) (hY : s.instruction.Y < 16)
    (hx : s.V s.instruction.X < 256) (hy : s.V s.instruction.Y < 256) :
    (∃ s', CHIP8_I_8XY4 s = .ok s' ∧
      s'.V 0xF = (if s.V s.instruction.X + s.V s.instruction.Y > 255 then 1 else 0) ∧
      (s.instruction.X ≠ 0xF →
        s'.V s.instruction.X = (s.V s.instruction.X + s.V s.instruction.Y) % 256)) ∧
    (∃ s', CHIP8_emulate_instruction 0 (with_opcode 0x8014 [0xFF, 0x01]) = .ok s' ∧
      s'.V 0 = 0x00 ∧ s'.V 0xF = 1) := by
  constructor
  · simp only [CHIP8_I_8XY4, readV_ok _ _ hX, readV_ok _ _ hY, writeV_ok _ _ _ hX,
      writeV_ok _ 0xF _ (by norm_num), ok_bind]
    refine ⟨_, rfl, ?_, ?_⟩
    · simp only [Function.update_same]
      rw [Nat.mod_eq_of_lt (by omega : s.V s.instruction.X + s.V s.instruction.Y < 65536)]
      split_ifs <;> rfl
    · intro hne
      simp only [Function.update_noteq hne, Function.update_same]
      omega
  · refine ⟨_, rfl, ?_, ?_⟩ <;> decide

/-- Instance of the carry property of `8XY4`: `V0 = 0xFF`, `V1 = 0x01` give `V0 = 0`, `VF = 1`. -/
theorem CHIP8_I_8XY4_sum_carry_witness :
    (with_instruction 0x8014 [0xFF, 0x01]).wf ∧
    ∃ s', CHIP8_I_8XY4 (with_instruction 0x8014 [0xFF, 0x01]) = .ok s' ∧
      s'.V 0xF = 1 ∧ s'.V 0 = 0 := by
  obtain ⟨s', h, hF, h0⟩ :=
    (CHIP8_I_8XY4_sum_carry (with_instruction 0x8014 [0xFF, 0x01])
      (by decide) (by decide) (by decide) (by decide)).1
  exact ⟨with_instruction_wf _ _ (by norm_num) (by decide), s', h, hF, h0 (by decide)⟩

theorem wrapSub_8 (a b : Nat) :
    ((wrapSub 8 a b % 256 : Nat) : Int) = ((a : Int) - (b : Int)) % 256 := by
  unfold wrapSub
  have h : ((2 : Int) ^ 8) = 256 := by norm_num
  rw [h]
  omega

theorem CHIP8_I_8XY5_ok (s : CHIP8_t) (hX : s.instruction.X < 16) (hY : s.instruction.Y < 16) :
    CHIP8_I_8XY5 s = .ok { s with
      V := Function.update
        (Function.update s.V 0xF
          ((if s.V s.instruction.X > s.V s.instruction.Y then 0x1 else 0x0) % 256))
        s.instruction.X
        (wrapSub 8
          (Function.update s.V 0xF
            ((if s.V s.instruction.X > s.V s.instruction.Y then 0x1 else 0x0) % 256)
            s.instruction.X)
          (Function.update s.V 0xF
            ((if s.V s.instruction.X > s.V s.instruction.Y then 0x1 else 0x0) % 256)
            s.instruction.Y) % 256) } := by
  simp only [CHIP8_I_8XY5, readV_ok _ _ hX, readV_ok _ _ hY, writeV_ok _ _ _ hX,
    writeV_ok _ 0xF _ (by norm_num), ok_bind]

theorem CHIP8_I_8XY7_ok (s : CHIP8_t) (hX : s.instruction.X < 16) (hY : s.instruction.Y < 16) :
    CHIP8_I_8XY7 s = .ok { s with
      V := Function.update
        (Function.update s.V 0xF
          ((if s.V s.instruction.Y > s.V s.instruction.X then 0x1 else 0x0) % 256))
        s.instruction.X
        (wrapSub 8
          (Function.update s.V 0xF
            ((if s.V s.instruction.Y > s.V s.instruction.X then 0x1 else 0x0) % 256)
            s.instruction.Y)
          (Function.update s.V 0xF
            ((if s.V s.instruction.Y > s.V s.instruction.X then 0x1 else 0x0) % 256)
            s.instruction.X) % 256) } := by
  simp only [CHIP8_I_8XY7, readV_ok _ _ hX, readV_ok _ _ hY, writeV_ok _ _ _ hX,
    writeV_ok _ 0xF _ (by norm_num), ok_bind]

/-- C3: the borrow flag of `8XY5` and `8XY7` survives only when `X` is not `0xF`. For `X` in
0..14 and every `Y`, `VF` ends as 1 if the old `V[X] > V[Y]` (`8XY5`) or the old `V[Y] > V[X]`
(`8XY7`) and as 0 otherwise. With `X = 0xF` the flag is overwritten by the difference: the step
on `8F05` with `VF = 5`, `V0 = 3` leaves `VF = 254`, not 1, and the step on `8F07` with `VF = 3`,
`V0 = 5` leaves `VF = 4`, not 1. -/
theorem CHIP8_I_8XY5_8XY7_flag_overwritten (s : CHIP8_t) (hX : s.instruction.X < 0xF)
    (hY : s.instruction.Y < 16) :
    (∃ s5, CHIP8_I_8XY5 s = .ok s5 ∧
      s5.V 0xF = if s.V s.instruction.X > s.V s.instruction.Y then 1 else 0) ∧
    (∃ s7, CHIP8_I_8XY7 s = .ok s7 ∧
      s7.V 0xF = if s.V s.instruction.Y > s.V s.instruction.X then 1 else 0) ∧
    (∃ s', CHIP8_emulate_instruction 0
        (with_opcode 0x8F05 [3, 0, 0, 0, 0, 0, 0, 0, 0, 0, 0, 0, 0, 0, 0, 5]) = .ok s' ∧
      s'.instruction.X = 0xF ∧ s'.instruction.Y = 0 ∧ s'.V 0xF = 254) ∧
    (∃ s', CHIP8_emulate_instruction 0
        (with_opcode 0x8F07 [5, 0, 0, 0, 0, 0, 0, 0, 0, 0, 0, 0, 0, 0, 0, 3]) = .ok s' ∧
      s'.instruction.X = 0xF ∧ s'.instruction.Y = 0 ∧ s'.V 0xF = 4) := by
  have hXF : (0xF : Nat) ≠ s.instruction.X := by omega
  refine ⟨⟨_, CHIP8_I_8XY5_ok s (by omega) hY, ?_⟩, ⟨_, CHIP8_I_8XY7_ok s (by omega) hY, ?_⟩,
    ⟨_, rfl, by decide, by decide, by decide⟩, ⟨_, rfl, by decide, by decide, by decide⟩⟩
  · simp only [Function.update_noteq hXF, Function.update_same]
    split_ifs <;> rfl
  · simp only [Function.update_noteq hXF, Function.update_same]
    split_ifs <;> rfl

/-- Instance of the flag of `8XY5` and `8XY7` at `X = 0`, `Y = 1`, `V0 = 7`, `V1 = 9`. -/
theorem CHIP8_I_8XY5_8XY7_flag_overwritten_witness :
    (∃ s5, CHIP8_I_8XY5 (with_instruction 0x8015 [7, 9]) = .ok s5 ∧ s5.V 0xF = 0) ∧
    (∃ s7, CHIP8_I_8XY7 (with_instruction 0x8015 [7, 9]) = .ok s7 ∧ s7.V 0xF = 1) := by
  obtain ⟨h5, h7, -⟩ :=
    CHIP8_I_8XY5_8XY7_flag_overwritten (with_instruction 0x8015 [7, 9]) (by decide) (by decide)
  exact ⟨h5, h7⟩

/-- C4: the difference of `8XY5` and `8XY7` is computed from the old operands only when `Y` is
not `0xF`. For `X` and `Y` in 0..14, `V[X]` ends as (old `V[X]` − old `V[Y]`) mod 256 (`8XY5`)
or (old `V[Y]` − old `V[X]`) mod 256 (`8XY7`). With `Y = 0xF` the subtraction reads the flag
just written to `VF`: the step on `80F5` with `V0 = 10`, `VF = 3` leaves `V0 = 9 = 10 - 1`, not
7, and the step on `80F7` with `V0 = 10`, `VF = 30` leaves `V0 = 247 = (1 - 10) mod 256`, not
20. -/
theorem CHIP8_I_8XY5_8XY7_operand_overwritten (s : CHIP8_t) (hX : s.instruction.X < 0xF)
    (hY : s.instruction.Y < 0xF) :
    (∃ s5, CHIP8_I_8XY5 s = .ok s5 ∧
      (s5.V s.instruction.X : Int) =
        ((s.V s.instruction.X : Int) - (s.V s.instruction.Y : Int)) % 256) ∧
    (∃ s7, CHIP8_I_8XY7 s = .ok s7 ∧
      (s7.V s.instruction.X : Int) =
        ((s.V s.instruction.Y : Int) - (s.V s.instruction.X : Int)) % 256) ∧
    (∃ s', CHIP8_emulate_instruction 0
        (with_opcode 0x80F5 [10, 0, 0, 0, 0, 0, 0, 0, 0, 0, 0, 0, 0, 0, 0, 3]) = .ok s' ∧
      s'.instruction.X = 0 ∧ s'.instruction.Y = 0xF ∧ s'.V 0 = 9) ∧
    (∃ s', CHIP8_emulate_instruction 0
        (with_opcode 0x80F7 [10, 0, 0, 0, 0, 0, 0, 0, 0, 0, 0, 0, 0, 0, 0, 30]) = .ok s' ∧
      s'.instruction.X = 0 ∧ s'.instruction.Y = 0xF ∧ s'.V 0 = 247) := by
  have hXF : s.instruction.X ≠ 0xF := by omega
  have hYF : s.instruction.Y ≠ 0xF := by omega
  refine ⟨⟨_, CHIP8_I_8XY5_ok s (by omega) (by omega), ?_⟩,
    ⟨_, CHIP8_I_8XY7_ok s (by omega) (by omega), ?_⟩,
    ⟨_, rfl, by decide, by decide, by decide⟩, ⟨_, rfl, by decide, by decide, by decide⟩⟩
  · simp only [Function.update_noteq hXF, Function.update_noteq hYF, Function.update_same]
    exact wrapSub_8 _ _
  · simp only [Function.update_noteq hXF, Function.update_noteq hYF, Function.update_same]
    exact wrapSub_8 _ _

/-- Instance of the difference of `8XY5` and `8XY7` at `X = 0`, `Y = 1`, `V0 = 7`, `V1 = 9`. -/
theorem CHIP8_I_8XY5_8XY7_operand_overwritten_witness :
    (∃ s5, CHIP8_I_8XY5 (with_instruction 0x8015 [7, 9]) = .ok s5 ∧ (s5.V 0 : Int) = 254) ∧
    (∃ s7, CHIP8_I_8XY7 (with_instruction 0x8015 [7, 9]) = .ok s7 ∧ (s7.V 0 : Int) = 2) := by
  obtain ⟨h5, h7, -⟩ :=
    CHIP8_I_8XY5_8XY7_operand_overwritten (with_instruction 0x8015 [7, 9])
      (by decide) (by decide)
  exact ⟨h5, h7⟩

theorem CHIP8_I_8XY6_ok (s : CHIP8_t) (hX : s.instruction.X < 16) :
    CHIP8_I_8XY6 s = .ok { s with
      V := Function.update (Function.update s.V 0xF ((s.V s.instruction.X &&& 0x1) % 256))
        s.instruction.X
        ((Function.update s.V 0xF ((s.V s.instruction.X &&& 0x1) % 256) s.instruction.X >>> 1)
          % 256) } := by
  simp only [CHIP8_I_8XY6, readV_ok _ _ hX, writeV_ok _ _ _ hX,
    writeV_ok _ 0xF _ (by norm_num), ok_bind]

theorem CHIP8_I_8XYE_ok (s : CHIP8_t) (hX : s.instruction.X < 16) :
    CHIP8_I_8XYE s = .ok { s with
      V := Function.update (Function.update s.V 0xF (((s.V s.instruction.X &&& 0x80) >>> 7) % 256))
        s.instruction.X
        ((Function.update s.V 0xF (((s.V s.instruction.X &&& 0x80) >>> 7) % 256)
          s.instruction.X <<< 1) % 256) } := by
  simp only [CHIP8_I_8XYE, readV_ok _ _ hX, writeV_ok _ _ _ hX,
    writeV_ok _ 0xF _ (by norm_num), ok_bind]

theorem and_0x80_shiftRight (v : Nat) : (v &&& 0x80) >>> 7 = (v / 128) % 2 := by
  have h := and_shiftLeft_shiftRight v 1 7
  have h1 : (1 : Nat) <<< 7 = 0x80 := by decide
  rw [h1] at h
  rw [h, Nat.and_one_is_mod, Nat.shiftRight_eq_div_pow]

/-- C5, as stated, fails where `Y = 0xF` and where `Y = X`: `V[Y]` does change. `8XY6` with
`X = 0`, `Y = 0xF`, `V0 = 1`, `VF = 0` leaves `VF = 1`; `8XYE` with `X = 0`, `Y = 0xF`,
`V0 = 0x80`, `VF = 0` leaves `VF = 1`; `8XY6` with `X = Y = 0`, `V0 = 2` leaves `V0 = 1`. -/
theorem CHIP8_I_8XY6_8XYE_VY_changes :
    (∃ s', CHIP8_I_8XY6 (with_instruction 0x80F6 [1]) = .ok s' ∧
      (with_instruction 0x80F6 [1]).instruction.X = 0 ∧
      (with_instruction 0x80F6 [1]).instruction.Y = 0xF ∧
      (with_instruction 0x80F6 [1]).V 0xF = 0 ∧ s'.V 0xF = 1) ∧
    (∃ s', CHIP8_I_8XYE (with_instruction 0x80FE [0x80]) = .ok s' ∧
      (with_instruction 0x80FE [0x80]).instruction.X = 0 ∧
      (with_instruction 0x80FE [0x80]).instruction.Y = 0xF ∧
      (with_instruction 0x80FE [0x80]).V 0xF = 0 ∧ s'.V 0xF = 1) ∧
    (∃ s', CHIP8_I_8XY6 (with_instruction 0x8006 [2]) = .ok s' ∧
      (with_instruction 0x8006 [2]).instruction.X = 0 ∧
      (with_instruction 0x8006 [2]).instruction.Y = 0 ∧
      (with_instruction 0x8006 [2]).V 0 = 2 ∧ s'.V 0 = 1) := by
  refine ⟨⟨_, rfl, ?_, ?_, ?_, ?_⟩, ⟨_, rfl, ?_, ?_, ?_, ?_⟩, ⟨_, rfl, ?_, ?_, ?_, ?_⟩⟩ <;> decide

/-- C5 (amended): for `X` in 0..14, every `Y` and every 8-bit `V[X]`, `8XY6` leaves `VF` = bit 0 of the old `V[X]`
and `V[X]` = old `V[X]` shifted right by one; `8XYE` leaves `VF` = bit 7 of the old `V[X]` and
`V[X]` = (old `V[X]` × 2) mod 256. Changing `V[Y]` beforehand (`Y ≠ X`) changes neither result,
and `V[Y]` keeps its value when `Y` is neither `X` nor `0xF`. -/
theorem CHIP8_I_8XY6_8XYE_shift (s : CHIP8_t) (hX : s.instruction.X ≤ 14)
    (hx : s.V s.instruction.X < 256) :
    (∃ s6, CHIP8_I_8XY6 s = .ok s6 ∧
      s6.V 0xF = s.V s.instruction.X % 2 ∧
      s6.V s.instruction.X = s.V s.instruction.X / 2 ∧
      (s.instruction.Y ≠ s.instruction.X → s.instruction.Y ≠ 0xF →
        s6.V s.instruction.Y = s.V s.instruction.Y) ∧
      (s.instruction.Y ≠ s.instruction.X → ∀ v,
        ∃ t6, CHIP8_I_8XY6 { s with V := Function.update s.V s.instruction.Y v } = .ok t6 ∧
          t6.V s.instruction.X = s6.V s.instruction.X ∧ t6.V 0xF = s6.V 0xF)) ∧
    (∃ sE, CHIP8_I_8XYE s = .ok sE ∧
      sE.V 0xF = (s.V s.instruction.X / 128) % 2 ∧
      sE.V s.instruction.X = (s.V s.instruction.X * 2) % 256 ∧
      (s.instruction.Y ≠ s.instruction.X → s.instruction.Y ≠ 0xF →
        sE.V s.instruction.Y = s.V s.instruction.Y) ∧
      (s.instruction.Y ≠ s.instruction.X → ∀ v,
        ∃ tE, CHIP8_I_8XYE { s with V := Function.update s.V s.instruction.Y v } = .ok tE ∧
          tE.V s.instruction.X = sE.V s.instruction.X ∧ tE.V 0xF = sE.V 0xF)) := by
  have hX16 : s.instruction.X < 16 := by omega
  have hXF : s.instruction.X ≠ 0xF := by omega
  constructor
  · refine ⟨_, CHIP8_I_8XY6_ok s hX16, ?_, ?_, ?_, ?_⟩
    · simp only [Function.update_noteq (Ne.symm hXF), Function.update_same, Nat.and_one_is_mod]
      omega
    · simp only [Function.update_noteq hXF, Function.update_same, Nat.shiftRight_eq_div_pow]
      omega
    · intro h1 h2
      simp only [Function.update_noteq h1, Function.update_noteq h2]
    · intro h1 v
      refine ⟨_, CHIP8_I_8XY6_ok _ hX16, ?_, ?_⟩
      · simp only [Function.update_noteq hXF, Function.update_noteq (Ne.symm h1),
          Function.update_same]
      · simp only [Function.update_noteq (Ne.symm hXF), Function.update_noteq (Ne.symm h1),
          Function.update_same]
  · refine ⟨_, CHIP8_I_8XYE_ok s hX16, ?_, ?_, ?_, ?_⟩
    · simp only [Function.update_noteq (Ne.symm hXF), Function.update_same, and_0x80_shiftRight]
      omega
    · simp only [Function.update_noteq hXF, Function.update_same, Nat.shiftLeft_eq, pow_one]
    · intro h1 h2
      simp only [Function.update_noteq h1, Function.update_noteq h2]
    · intro h1 v
      refine ⟨_, CHIP8_I_8XYE_ok _ hX16, ?_, ?_⟩
      · simp only [Function.update_noteq hXF, Function.update_noteq (Ne.symm h1),
          Function.update_same]
      · simp only [Function.update_noteq (Ne.symm hXF), Function.update_noteq (Ne.symm h1),
          Function.update_same]

/-- Instance of the shift properties at `X = 0`, `Y = 1`, `V0 = 5`, `V1 = 9`. -/
theorem CHIP8_I_8XY6_8XYE_shift_witness :
    (with_instruction 0x8016 [5, 9]).wf ∧
    (∃ s6, CHIP8_I_8XY6 (with_instruction 0x8016 [5, 9]) = .ok s6 ∧
      s6.V 0xF = 1 ∧ s6.V 0 = 2 ∧ s6.V 1 = 9) ∧
    (∃ sE, CHIP8_I_8XYE (with_instruction 0x8016 [5, 9]) = .ok sE ∧
      sE.V 0xF = 0 ∧ sE.V 0 = 10 ∧ sE.V 1 = 9) := by
  obtain ⟨⟨s6, h6, a6, b6, c6, -⟩, ⟨sE, hE, aE, bE, cE, -⟩⟩ :=
    CHIP8_I_8XY6_8XYE_shift (with_instruction 0x8016 [5, 9]) (by decide) (by decide)
  exact ⟨with_instruction_wf _ _ (by norm_num) (by decide), ⟨s6, h6, a6, b6, c6 (by decide) (by decide)⟩,
    ⟨sE, hE, aE, bE, cE (by decide) (by decide)⟩⟩

/-! ## Sprite drawing -/

theorem and_two_pow_eq (n i : Nat) : n &&& 2 ^ i = if n.testBit i then 2 ^ i else 0 := by
  apply Nat.eq_of_testBit_eq
  intro j
  rw [Nat.testBit_and, Nat.testBit_two_pow]
  by_cases h : i = j
  · subst h
    cases hb : n.testBit i <;> simp [Nat.testBit_two_pow_self]
  · cases hb : n.testBit i <;> simp [h, Nat.testBit_two_pow]

theorem sprite_pixel_ne_zero (b c : Nat) (hc : c < 8) :
    ((b &&& (0x80 >>> c)) % 256 ≠ 0) ↔ b.testBit (7 - c) = true := by
  have h1 : (0x80 : Nat) >>> c = 2 ^ (7 - c) := by
    interval_cases c <;> rfl
  have h2 : 2 ^ (7 - c) % 256 ≠ 0 := by
    interval_cases c <;> norm_num
  rw [h1, and_two_pow_eq]
  cases hb : b.testBit (7 - c) <;> simp [h2]

/-- One pass through the inner loop body of `CHIP8_I_DXYN` is `CHIP8_I_DXYN_pixel`. -/
theorem CHIP8_I_DXYN_cols_succ (X Y y k x : Nat) (s : CHIP8_t)
    (hx : X + x < 64) (hy : Y + y < 32) (hI : s.I + y < 4096) (hc : x < 8) :
    CHIP8_I_DXYN_cols X Y y (k + 1) x s =
      CHIP8_I_DXYN_cols X Y y k (x + 1)
        (CHIP8_I_DXYN_pixel s (X + x + (Y + y) * 64) (sprite_bit s y x)) := by
  have hidx : X + x + (Y + y) * 64 < 64 * 32 := by omega
  have hnx : ¬ (X + x ≥ 64) := by omega
  have hsp := sprite_pixel_ne_zero (s.MM (s.I + y)) x hc
  rw [CHIP8_I_DXYN_cols]
  simp only [DISPLAY_WIDTH, DISPLAY_HEIGHT, hnx, if_false, readMM_ok _ _ hI, readDisplay, hidx,
    if_true, ok_bind]
  unfold CHIP8_I_DXYN_pixel sprite_bit
  cases hb : (s.MM (s.I + y)).testBit (7 - x) <;> cases hd : s.display (X + x + (Y + y) * 64)
  all_goals simp [hb, hd, hsp, writeDisplay, writeV, hidx, ok_bind]

theorem CHIP8_I_DXYN_pixel_V_ne (s : CHIP8_t) (idx : Nat) (b : Bool) (i : Nat) (h : i ≠ 0xF) :
    (CHIP8_I_DXYN_pixel s idx b).V i = s.V i := by
  unfold CHIP8_I_DXYN_pixel
  dsimp only
  split_ifs
  · exact Function.update_noteq h _ _
  · rfl

theorem CHIP8_I_DXYN_pixel_V_F (s : CHIP8_t) (idx : Nat) (b : Bool) :
    (CHIP8_I_DXYN_pixel s idx b).V 0xF = if (b && s.display idx) = true then 1 else s.V 0xF := by
  unfold CHIP8_I_DXYN_pixel
  dsimp only
  split_ifs
  · exact Function.update_same _ _ _
  · rfl

theorem CHIP8_I_DXYN_pixel_display_same (s : CHIP8_t) (idx : Nat) (b : Bool) :
    (CHIP8_I_DXYN_pixel s idx b).display idx = xor (s.display idx) b :=
  Function.update_same _ _ _

theorem CHIP8_I_DXYN_pixel_display_ne (s : CHIP8_t) (idx : Nat) (b : Bool) (j : Nat)
    (h : j ≠ idx) : (CHIP8_I_DXYN_pixel s idx b).display j = s.display j :=
  Function.update_noteq h _ _

/-- Effect of the inner loop of `CHIP8_I_DXYN` on row `y`, columns `x .. x+k-1`, when the sprite
byte of the row lies in memory. -/
theorem CHIP8_I_DXYN_cols_spec (X Y y : Nat) (hy : Y + y < 32) :
    ∀ (k x : Nat) (s : CHIP8_t), x + k ≤ 8 → s.I + y < 4096 →
      ∃ s', CHIP8_I_DXYN_cols X Y y k x s = .ok s' ∧
        s' = { s with V := s'.V, display := s'.display } ∧
        (∀ i, i ≠ 0xF → s'.V i = s.V i) ∧
        (∀ c, x ≤ c → c < x + k → X + c < 64 →
          s'.display (X + c + (Y + y) * 64) =
            xor (s.display (X + c + (Y + y) * 64)) (sprite_bit s y c)) ∧
        (∀ idx, (∀ c, x ≤ c → c < x + k → X + c < 64 → idx ≠ X + c + (Y + y) * 64) →
          s'.display idx = s.display idx) ∧
        ((∃ c, x ≤ c ∧ c < x + k ∧ X + c < 64 ∧
            s.display (X + c + (Y + y) * 64) = true ∧ sprite_bit s y c = true) →
          s'.V 0xF = 1) ∧
        ((¬ ∃ c, x ≤ c ∧ c < x + k ∧ X + c < 64 ∧
            s.display (X + c + (Y + y) * 64) = true ∧ sprite_bit s y c = true) →
          s'.V 0xF = s.V 0xF) := by
  intro k
  induction k with
  | zero =>
    intro x s _ _
    refine ⟨s, rfl, rfl, fun _ _ => rfl, ?_, fun _ _ => rfl, ?_, fun _ => rfl⟩
    · intro c h1 h2
      omega
    · rintro ⟨c, h1, h2, -⟩
      omega
  | succ k ih =>
    intro x s hxk hI
    by_cases hx : X + x < 64
    · rw [CHIP8_I_DXYN_cols_succ X Y y k x s hx hy hI (by omega)]
      obtain ⟨s', hrun, hframe, hV, hdisp, hrest, hc1, hc0⟩ :=
        ih (x + 1) (CHIP8_I_DXYN_pixel s (X + x + (Y + y) * 64) (sprite_bit s y x))
          (by omega) hI
      refine ⟨s', hrun, hframe, ?_, ?_, ?_, ?_, ?_⟩
      · intro i hi
        rw [hV i hi, CHIP8_I_DXYN_pixel_V_ne _ _ _ _ hi]
      · intro c h1 h2 h3
        rcases Nat.eq_or_lt_of_le h1 with heq | hlt
        · subst heq
          rw [hrest _ (by intro c' a _ _; omega), CHIP8_I_DXYN_pixel_display_same]
        · rw [hdisp c (by omega) (by omega) h3,
            CHIP8_I_DXYN_pixel_display_ne _ _ _ _ (by omega)]
          rfl
      · intro idx h
        rw [hrest idx (fun c a b d => h c (by omega) (by omega) d),
          CHIP8_I_DXYN_pixel_display_ne _ _ _ _ (h x (le_refl x) (by omega) hx)]
      · rintro ⟨c, h1, h2, h3, hd, hb⟩
        by_cases hlater : ∃ c', x + 1 ≤ c' ∧ c' < x + 1 + k ∧ X + c' < 64 ∧
            (CHIP8_I_DXYN_pixel s (X + x + (Y + y) * 64) (sprite_bit s y x)).display
              (X + c' + (Y + y) * 64) = true ∧
            sprite_bit (CHIP8_I_DXYN_pixel s (X + x + (Y + y) * 64) (sprite_bit s y x)) y c'
              = true
        · exact hc1 hlater
        · have hcx : c = x := by
            by_contra hne
            apply hlater
            refine ⟨c, by omega, by omega, h3, ?_, hb⟩
            rw [CHIP8_I_DXYN_pixel_display_ne _ _ _ _ (by omega)]
            exact hd
          subst hcx
          rw [hc0 hlater, CHIP8_I_DXYN_pixel_V_F, hb, hd]
          rfl
      · intro hno
        have hlater : ¬ ∃ c', x + 1 ≤ c' ∧ c' < x + 1 + k ∧ X + c' < 64 ∧
            (CHIP8_I_DXYN_pixel s (X + x + (Y + y) * 64) (sprite_bit s y x)).display
              (X + c' + (Y + y) * 64) = true ∧
            sprite_bit (CHIP8_I_DXYN_pixel s (X + x + (Y + y) * 64) (sprite_bit s y x)) y c'
              = true := by
          rintro ⟨c', a, b, d, e, f⟩
          apply hno
          refine ⟨c', by omega, by omega, d, ?_, f⟩
          rw [CHIP8_I_DXYN_pixel_display_ne _ _ _ _ (by omega)] at e
          exact e
        have hx0 : ¬ ((sprite_bit s y x && s.display (X + x + (Y + y) * 64)) = true) := by
          intro h
          rw [Bool.and_eq_true] at h
          exact hno ⟨x, le_refl x, by omega, hx, h.2, h.1⟩
        rw [hc0 hlater, CHIP8_I_DXYN_pixel_V_F, if_neg hx0]
    · have hge : X + x ≥ DISPLAY_WIDTH := by
        simp only [DISPLAY_WIDTH]
        omega
      refine ⟨s, ?_, rfl, fun _ _ => rfl, ?_, fun _ _ => rfl, ?_, fun _ => rfl⟩
      · rw [CHIP8_I_DXYN_cols, if_pos hge]
      · intro c h1 _ h3
        omega
      · rintro ⟨c, h1, -, h3, -⟩
        omega

theorem CHIP8_I_DXYN_cols_error (X Y y : Nat) (s : CHIP8_t) (hX : X < 64)
    (hI : 4096 ≤ s.I + y) :
    CHIP8_I_DXYN_cols X Y y 8 0 s = .error (OutOfBounds.MM (s.I + y)) := by
  have hnx : ¬ (X + 0 ≥ 64) := by omega
  have hnI : ¬ (s.I + y < 4096) := by omega
  rw [CHIP8_I_DXYN_cols]
  simp only [DISPLAY_WIDTH, hnx, if_false, readMM, hnI, error_bind]

theorem frame_V_display_trans (s s1 s2 : CHIP8_t)
    (h1 : s1 = { s with V := s1.V, display := s1.display })
    (h2 : s2 = { s1 with V := s2.V, display := s2.display }) :
    s2 = { s with V := s2.V, display := s2.display } := by
  cases s
  cases s1
  cases s2
  simp only [CHIP8_t.mk.injEq] at h1 h2 ⊢
  obtain ⟨a1, a2, a3, -, a5, a6, a7, a8, -, a10, a11, a12, a13⟩ := h1
  obtain ⟨b1, b2, b3, -, b5, b6, b7, b8, -, b10, b11, b12, b13⟩ := h2
  exact ⟨b1.trans a1, b2.trans a2, b3.trans a3, trivial, b5.trans a5, b6.trans a6, b7.trans a7,
    b8.trans a8, trivial, b10.trans a10, b11.trans a11, b12.trans a12, b13.trans a13⟩

/-- Effect of the outer loop of `CHIP8_I_DXYN` on rows `y .. y+k-1`: either a sprite byte of a
row on the screen lies outside memory, or the loop completes with the stated display. -/
theorem CHIP8_I_DXYN_rows_spec (X Y : Nat) (hX : X < 64) :
    ∀ (k y : Nat) (s : CHIP8_t),
      (∃ r, y ≤ r ∧ r < y + k ∧ Y + r < 32 ∧ 4096 ≤ s.I + r ∧
        CHIP8_I_DXYN_rows X Y k y s = .error (OutOfBounds.MM (s.I + r))) ∨
      (∃ s', CHIP8_I_DXYN_rows X Y k y s = .ok s' ∧
        s' = { s with V := s'.V, display := s'.display } ∧
        (∀ i, i ≠ 0xF → s'.V i = s.V i) ∧
        (∀ r c, y ≤ r → r < y + k → Y + r < 32 → c < 8 → X + c < 64 →
          s'.display (X + c + (Y + r) * 64) =
            xor (s.display (X + c + (Y + r) * 64)) (sprite_bit s r c)) ∧
        (∀ idx, (∀ r c, y ≤ r → r < y + k → Y + r < 32 → c < 8 → X + c < 64 →
            idx ≠ X + c + (Y + r) * 64) → s'.display idx = s.display idx) ∧
        ((∃ r c, y ≤ r ∧ r < y + k ∧ Y + r < 32 ∧ c < 8 ∧ X + c < 64 ∧
            s.display (X + c + (Y + r) * 64) = true ∧ sprite_bit s r c = true) →
          s'.V 0xF = 1) ∧
        ((¬ ∃ r c, y ≤ r ∧ r < y + k ∧ Y + r < 32 ∧ c < 8 ∧ X + c < 64 ∧
            s.display (X + c + (Y + r) * 64) = true ∧ sprite_bit s r c = true) →
          s'.V 0xF = s.V 0xF)) := by
  intro k
  induction k with
  | zero =>
    intro y s
    right
    refine ⟨s, rfl, rfl, fun _ _ => rfl, ?_, fun _ _ => rfl, ?_, fun _ => rfl⟩
    · intro r c h1 h2
      omega
    · rintro ⟨r, c, h1, h2, -⟩
      omega
  | succ k ih =>
    intro y s
    by_cases hy : Y + y < 32
    · have hny : ¬ (Y + y ≥ 32) := by omega
      by_cases hI : s.I + y < 4096
      · obtain ⟨s1, hrun1, hframe1, hV1, hdisp1, hrest1, hc1_1, hc0_1⟩ :=
          CHIP8_I_DXYN_cols_spec X Y y hy 8 0 s (by omega) hI
        have hstep : CHIP8_I_DXYN_rows X Y (k + 1) y s = CHIP8_I_DXYN_rows X Y k (y + 1) s1 := by
          rw [CHIP8_I_DXYN_rows]
          simp only [DISPLAY_HEIGHT, hny, if_false, hrun1, ok_bind]
        have hI1 : s1.I = s.I := (congrArg CHIP8_t.I hframe1 : _)
        have hMM1 : s1.MM = s.MM := (congrArg CHIP8_t.MM hframe1 : _)
        have hbit : ∀ r c, sprite_bit s1 r c = sprite_bit s r c := by
          intro r c
          unfold sprite_bit
          rw [hI1, hMM1]
        have hother : ∀ r c, y + 1 ≤ r → X + c < 64 →
            s1.display (X + c + (Y + r) * 64) = s.display (X + c + (Y + r) * 64) := by
          intro r c hr hc
          exact hrest1 _ (by intro c' _ _ _; omega)
        rcases ih (y + 1) s1 with
          ⟨r, h1, h2, h3, h4, herr⟩ | ⟨s', hrun, hframe, hV, hdisp, hrest, hc1, hc0⟩
        · left
          refine ⟨r, by omega, by omega, h3, by omega, ?_⟩
          rw [hstep, herr, hI1]
        · right
          refine ⟨s', by rw [hstep]; exact hrun, frame_V_display_trans s s1 s' hframe1 hframe,
            ?_, ?_, ?_, ?_, ?_⟩
          · intro i hi
            rw [hV i hi, hV1 i hi]
          · intro r c h1 h2 h3 h4 h5
            rcases Nat.eq_or_lt_of_le h1 with heq | hlt
            · subst heq
              rw [hrest _ (by intro r' c' a _ _ _ _; omega),
                hdisp1 c (Nat.zero_le c) (by omega) h5]
            · rw [hdisp r c (by omega) (by omega) h3 h4 h5, hother r c (by omega) h5, hbit]
          · intro idx h
            rw [hrest idx (fun r c a b d e f => h r c (by omega) (by omega) d e f),
              hrest1 idx (fun c _ b d => h y c (le_refl y) (by omega) hy (by omega) d)]
          · rintro ⟨r, c, h1, h2, h3, h4, h5, hd, hb⟩
            by_cases hlater : ∃ r c, y + 1 ≤ r ∧ r < y + 1 + k ∧ Y + r < 32 ∧ c < 8 ∧
                X + c < 64 ∧ s1.display (X + c + (Y + r) * 64) = true ∧
                sprite_bit s1 r c = true
            · exact hc1 hlater
            · have hry : r = y := by
                by_contra hne
                apply hlater
                refine ⟨r, c, by omega, by omega, h3, h4, h5, ?_, ?_⟩
                · rw [hother r c (by omega) h5]
                  exact hd
                · rw [hbit]
                  exact hb
              subst hry
              rw [hc0 hlater]
              exact hc1_1 ⟨c, Nat.zero_le c, by omega, h5, hd, hb⟩
          · intro hno
            have hlater : ¬ ∃ r c, y + 1 ≤ r ∧ r < y + 1 + k ∧ Y + r < 32 ∧ c < 8 ∧
                X + c < 64 ∧ s1.display (X + c + (Y + r) * 64) = true ∧
                sprite_bit s1 r c = true := by
              rintro ⟨r, c, a, b, d, e, f, g, h⟩
              apply hno
              refine ⟨r, c, by omega, by omega, d, e, f, ?_, ?_⟩
              · rw [← hother r c a f]
                exact g
              · rw [← hbit]
                exact h
            have hrow : ¬ ∃ c, 0 ≤ c ∧ c < 0 + 8 ∧ X + c < 64 ∧
                s.display (X + c + (Y + y) * 64) = true ∧ sprite_bit s y c = true := by
              rintro ⟨c, -, b, d, e, f⟩
              exact hno ⟨y, c, le_refl y, by omega, hy, by omega, d, e, f⟩
            rw [hc0 hlater, hc0_1 hrow]
      · left
        refine ⟨y, le_refl y, by omega, hy, by omega, ?_⟩
        rw [CHIP8_I_DXYN_rows]
        simp only [DISPLAY_HEIGHT, hny, if_false,
          CHIP8_I_DXYN_cols_error X Y y s hX (by omega), error_bind]
    · right
      have hge : Y + y ≥ DISPLAY_HEIGHT := by
        simp only [DISPLAY_HEIGHT]
        omega
      refine ⟨s, ?_, rfl, fun _ _ => rfl, ?_, fun _ _ => rfl, ?_, fun _ => rfl⟩
      · rw [CHIP8_I_DXYN_rows, if_pos hge]
      · intro r c h1 _ h3
        omega
      · rintro ⟨r, c, h1, -, h3, -⟩
        omega

/-- Effect of `CHIP8_I_DXYN`: either a sprite byte of a drawn row lies outside memory, or the
draw completes, changes only `V[0xF]` and the display, and XORs the sprite onto the screen. -/
theorem CHIP8_I_DXYN_spec (s : CHIP8_t) (hX : s.instruction.X < 16) (hY : s.instruction.Y < 16)
    (hN : s.instruction.N < 256) :
    (∃ r, r < s.instruction.N ∧ s.V s.instruction.Y % 32 + r < 32 ∧ 4096 ≤ s.I + r ∧
      CHIP8_I_DXYN s = .error (OutOfBounds.MM (s.I + r))) ∨
    (∃ s', CHIP8_I_DXYN s = .ok s' ∧
      s' = { s with V := s'.V, display := s'.display } ∧
      (∀ i, i ≠ 0xF → s'.V i = s.V i) ∧
      (∀ r c, r < s.instruction.N → s.V s.instruction.Y % 32 + r < 32 → c < 8 →
        s.V s.instruction.X % 64 + c < 64 →
        s'.display (s.V s.instruction.X % 64 + c + (s.V s.instruction.Y % 32 + r) * 64) =
          xor (s.display (s.V s.instruction.X % 64 + c + (s.V s.instruction.Y % 32 + r) * 64))
            (sprite_bit s r c)) ∧
      (∀ idx, (∀ r c, r < s.instruction.N → s.V s.instruction.Y % 32 + r < 32 → c < 8 →
          s.V s.instruction.X % 64 + c < 64 →
          idx ≠ s.V s.instruction.X % 64 + c + (s.V s.instruction.Y % 32 + r) * 64) →
        s'.display idx = s.display idx) ∧
      ((∃ r c, r < s.instruction.N ∧ s.V s.instruction.Y % 32 + r < 32 ∧ c < 8 ∧
          s.V s.instruction.X % 64 + c < 64 ∧
          s.display (s.V s.instruction.X % 64 + c + (s.V s.instruction.Y % 32 + r) * 64) = true ∧
          sprite_bit s r c = true) → s'.V 0xF = 1) ∧
      ((¬ ∃ r c, r < s.instruction.N ∧ s.V s.instruction.Y % 32 + r < 32 ∧ c < 8 ∧
          s.V s.instruction.X % 64 + c < 64 ∧
          s.display (s.V s.instruction.X % 64 + c + (s.V s.instruction.Y % 32 + r) * 64) = true ∧
          sprite_bit s r c = true) → s'.V 0xF = 0)) := by
  have hX0 : s.V s.instruction.X % 64 % 256 = s.V s.instruction.X % 64 := by omega
  have hY0 : s.V s.instruction.Y % 32 % 256 = s.V s.instruction.Y % 32 := by omega
  have hN0 : s.instruction.N % 256 = s.instruction.N := by omega
  have hrun : CHIP8_I_DXYN s =
      CHIP8_I_DXYN_rows (s.V s.instruction.X % 64) (s.V s.instruction.Y % 32) s.instruction.N 0
        { s with V := Function.update s.V 0xF 0 } := by
    simp only [CHIP8_I_DXYN, DISPLAY_WIDTH, DISPLAY_HEIGHT, readV_ok _ _ hX, readV_ok _ _ hY,
      writeV_ok _ 0xF _ (by norm_num), ok_bind, hX0, hY0, hN0, Nat.zero_mod]
  rcases CHIP8_I_DXYN_rows_spec (s.V s.instruction.X % 64) (s.V s.instruction.Y % 32)
      (by omega) s.instruction.N 0 { s with V := Function.update s.V 0xF 0 } with
    ⟨r, -, h2, h3, h4, herr⟩ | ⟨s', hok, hframe, hV, hdisp, hrest, hc1, hc0⟩
  · left
    exact ⟨r, by omega, h3, h4, by rw [hrun]; exact herr⟩
  · right
    refine ⟨s', by rw [hrun]; exact hok, ?_, ?_, ?_, ?_, ?_, ?_⟩
    · exact hframe
    · intro i hi
      rw [hV i hi]
      show Function.update s.V 0xF 0 i = s.V i
      exact Function.update_noteq hi _ _
    · intro r c h1 h2 h3 h4
      exact hdisp r c (Nat.zero_le r) (by omega) h2 h3 h4
    · intro idx h
      exact hrest idx (fun r c _ b d e f => h r c (by omega) d e f)
    · rintro ⟨r, c, h1, h2, h3, h4, h5, h6⟩
      exact hc1 ⟨r, c, Nat.zero_le r, by omega, h2, h3, h4, h5, h6⟩
    · intro hno
      have h := hc0 (by
        rintro ⟨r, c, -, h1, h2, h3, h4, h5, h6⟩
        exact hno ⟨r, c, by omega, h2, h3, h4, h5, h6⟩)
      rw [h]
      show Function.update s.V 0xF 0 0xF = 0
      exact Function.update_same _ _ _

/-- C6: for every record with `I + N ≤ 4096`, with `X0 = V[X] mod 64` and `Y0 = V[Y] mod 32`
taken before the instruction, `DXYN` leaves every on-screen cell `(X0+c, Y0+r)` with `r < N`,
`c < 8`, `X0+c ≤ 63`, `Y0+r ≤ 31` equal to its old value XOR bit `7-c` of `MM[I+r]`, and leaves
`VF = 1` if at least one such cell was on under a set sprite bit and `VF = 0` otherwise. -/
theorem CHIP8_I_DXYN_xor_collision (s : CHIP8_t) (hX : s.instruction.X < 16)
    (hY : s.instruction.Y < 16) (hN : s.instruction.N < 16)
    (hI : s.I + s.instruction.N ≤ 4096) :
    ∃ s', CHIP8_I_DXYN s = .ok s' ∧
      (∀ r c, r < s.instruction.N → c < 8 → s.V s.instruction.X % 64 + c ≤ 63 →
        s.V s.instruction.Y % 32 + r ≤ 31 →
        s'.display (s.V s.instruction.X % 64 + c + (s.V s.instruction.Y % 32 + r) * 64) =
          xor (s.display (s.V s.instruction.X % 64 + c + (s.V s.instruction.Y % 32 + r) * 64))
            ((s.MM (s.I + r)).testBit (7 - c))) ∧
      ((∃ r c, r < s.instruction.N ∧ c < 8 ∧ s.V s.instruction.X % 64 + c ≤ 63 ∧
          s.V s.instruction.Y % 32 + r ≤ 31 ∧
          s.display (s.V s.instruction.X % 64 + c + (s.V s.instruction.Y % 32 + r) * 64) = true ∧
          (s.MM (s.I + r)).testBit (7 - c) = true) → s'.V 0xF = 1) ∧
      ((¬ ∃ r c, r < s.instruction.N ∧ c < 8 ∧ s.V s.instruction.X % 64 + c ≤ 63 ∧
          s.V s.instruction.Y % 32 + r ≤ 31 ∧
          s.display (s.V s.instruction.X % 64 + c + (s.V s.instruction.Y % 32 + r) * 64) = true ∧
          (s.MM (s.I + r)).testBit (7 - c) = true) → s'.V 0xF = 0) := by
  rcases CHIP8_I_DXYN_spec s hX hY (by omega) with
    ⟨r, h1, -, h3, -⟩ | ⟨s', hok, -, -, hdisp, -, hc1, hc0⟩
  · omega
  · refine ⟨s', hok, ?_, ?_, ?_⟩
    · intro r c h1 h2 h3 h4
      exact hdisp r c h1 (by omega) h2 (by omega)
    · rintro ⟨r, c, h1, h2, h3, h4, h5, h6⟩
      exact hc1 ⟨r, c, h1, by omega, h2, by omega, h5, h6⟩
    · intro hno
      apply hc0
      rintro ⟨r, c, h1, h2, h3, h4, h5, h6⟩
      exact hno ⟨r, c, h1, h3, by omega, by omega, h5, h6⟩

/-- Instance of the XOR and collision property on `draw_example`: the lit cell `(62, 30)` under
a set sprite bit goes off and raises `VF`, the unlit cells under set bits go on. -/
theorem CHIP8_I_DXYN_xor_collision_witness :
    ∃ s', CHIP8_I_DXYN draw_example = .ok s' ∧
      draw_example.display (62 + 30 * 64) = true ∧ s'.display (62 + 30 * 64) = false ∧
      draw_example.display (63 + 30 * 64) = false ∧ s'.display (63 + 30 * 64) = true ∧
      s'.display (62 + 31 * 64) = true ∧ s'.display (63 + 31 * 64) = false ∧
      s'.V 0xF = 1 := by
  obtain ⟨s', hok, hdisp, hc1, -⟩ :=
    CHIP8_I_DXYN_xor_collision draw_example (by decide) (by decide) (by decide) (by decide)
  refine ⟨s', hok, by decide, ?_, by decide, ?_, ?_, ?_, ?_⟩
  · exact hdisp 0 0 (by decide) (by decide) (by decide) (by decide)
  · exact hdisp 0 1 (by decide) (by decide) (by decide) (by decide)
  · exact hdisp 1 0 (by decide) (by decide) (by decide) (by decide)
  · exact hdisp 1 1 (by decide) (by decide) (by decide) (by decide)
  · exact hc1 ⟨0, 0, by decide, by decide, by decide, by decide, by decide, by decide⟩

/-- C7: `DXYN` clips and never wraps. With `X0 = V[X] mod 64` and `Y0 = V[Y] mod 32`, whenever
the draw completes every display cell `(col, row)` outside columns `X0 .. X0+7` and rows
`Y0 .. Y0+N-1` keeps its value, and nothing at an index of 2048 or more is written; the draw
never indexes the display outside its 2048 cells (the only access that can leave an array is
the read of a sprite byte), and it completes whenever the sprite rows drawn lie in memory. -/
theorem CHIP8_I_DXYN_clips (s : CHIP8_t) (hX : s.instruction.X < 16)
    (hY : s.instruction.Y < 16) (hN : s.instruction.N < 16) :
    (∀ s', CHIP8_I_DXYN s = .ok s' →
      (∀ col row, col < 64 → row < 32 →
        ¬ (s.V s.instruction.X % 64 ≤ col ∧ col < s.V s.instruction.X % 64 + 8 ∧
          s.V s.instruction.Y % 32 ≤ row ∧ row < s.V s.instruction.Y % 32 + s.instruction.N) →
        s'.display (col + row * 64) = s.display (col + row * 64)) ∧
      (∀ idx, 2048 ≤ idx → s'.display idx = s.display idx)) ∧
    (∀ e, CHIP8_I_DXYN s = .error e → ∃ a, 4096 ≤ a ∧ e = OutOfBounds.MM a) ∧
    ((∀ r, r < s.instruction.N → s.V s.instruction.Y % 32 + r < 32 → s.I + r < 4096) →
      ∃ s', CHIP8_I_DXYN s = .ok s') := by
  rcases CHIP8_I_DXYN_spec s hX hY (by omega) with
    ⟨r, h1, h2, h3, herr⟩ | ⟨s', hok, -, -, -, hrest, -, -⟩
  · refine ⟨?_, ?_, ?_⟩
    · intro s' h
      rw [herr] at h
      cases h
    · intro e h
      rw [herr] at h
      cases h
      exact ⟨_, h3, rfl⟩
    · intro hmem
      have := hmem r h1 h2
      omega
  · refine ⟨?_, ?_, fun _ => ⟨s', hok⟩⟩
    · intro t ht
      rw [hok] at ht
      cases ht
      constructor
      · intro col row hcol hrow hout
        apply hrest
        intro r c h1 h2 h3 h4
        omega
      · intro idx hidx
        apply hrest
        intro r c h1 h2 h3 h4
        omega
    · intro e h
      rw [hok] at h
      cases h

/-- Instance of clipping on `draw_example`: cells left of, above and on the far side of the
sprite rectangle keep their values. -/
theorem CHIP8_I_DXYN_clips_witness :
    ∃ s', CHIP8_I_DXYN draw_example = .ok s' ∧
      s'.display (0 + 30 * 64) = draw_example.display (0 + 30 * 64) ∧
      s'.display (62 + 0 * 64) = draw_example.display (62 + 0 * 64) ∧
      s'.display (61 + 30 * 64) = draw_example.display (61 + 30 * 64) ∧
      s'.display (62 + 29 * 64) = draw_example.display (62 + 29 * 64) := by
  have h := CHIP8_I_DXYN_clips draw_example (by decide) (by decide) (by decide)
  obtain ⟨s', hok⟩ := h.2.2 (by decide)
  have hframe := (h.1 s' hok).1
  exact ⟨s', hok, hframe 0 30 (by decide) (by decide) (by decide),
    hframe 62 0 (by decide) (by decide) (by decide),
    hframe 61 30 (by decide) (by decide) (by decide),
    hframe 62 29 (by decide) (by decide) (by decide)⟩

/-! ## Call and return -/

theorem opcode_class (opcode : Nat) : (opcode &&& 0xF000) >>> 12 = (opcode / 4096) % 16 := by
  have h := and_shiftLeft_shiftRight opcode 0xF 12
  have h1 : (0xF : Nat) <<< 12 = 0xF000 := by decide
  have h2 : ∀ n : Nat, n &&& 0xF = n % 16 := fun n => Nat.and_pow_two_sub_one_eq_mod n 4
  rw [h1] at h
  rw [h, h2, Nat.shiftRight_eq_div_pow]

theorem CHIP8_decode_NNN (opcode : Nat) : (CHIP8_decode opcode).NNN = opcode % 4096 := by
  have h : opcode &&& 0xFFF = opcode % 4096 := Nat.and_pow_two_sub_one_eq_mod opcode 12
  simp only [CHIP8_decode, h]
  omega

theorem run_opcodes_append (rnd : Nat) (xs ys : List Nat) (s : CHIP8_t) :
    run_opcodes rnd (xs ++ ys) s = (run_opcodes rnd xs s >>= run_opcodes rnd ys) := by
  induction xs generalizing s with
  | nil => rfl
  | cons x xs ih =>
    simp only [List.cons_append, run_opcodes]
    cases CHIP8_execute_opcode rnd x s with
    | error e => rfl
    | ok s1 => exact ih s1

theorem CHIP8_decode_opcode (opcode : Nat) : (CHIP8_decode opcode).opcode = opcode := rfl

theorem CHIP8_execute_2NNN (rnd nnn : Nat) (s : CHIP8_t) (hn : nnn < 4096) (hSP : s.SP < 12) :
    CHIP8_execute_opcode rnd (0x2000 + nnn) s = .ok { s with
      PC := nnn
      instruction := CHIP8_decode (0x2000 + nnn)
      stack := Function.update s.stack s.SP ((s.PC + 2) % 65536)
      SP := s.SP + 1 } := by
  have hc : ((0x2000 + nnn) &&& 0xF000) >>> 12 = 2 := by rw [opcode_class]; omega
  have hN : (CHIP8_decode (0x2000 + nnn)).NNN = nnn := by rw [CHIP8_decode_NNN]; omega
  have h1 : (s.SP + 1) % 256 = s.SP + 1 := by omega
  have h2 : nnn % 65536 = nnn := by omega
  simp [CHIP8_execute_opcode, CHIP8_dispatch, CHIP8_decode_opcode, hc, CHIP8_I_2NNN, writeStack,
    hSP, ok_bind, hN, h1, h2]

theorem CHIP8_execute_00EE (rnd : Nat) (s : CHIP8_t) (h0 : 0 < s.SP) (hSP : s.SP ≤ 12) :
    CHIP8_execute_opcode rnd 0x00EE s = .ok { s with
      PC := s.stack (s.SP - 1) % 65536
      instruction := CHIP8_decode 0x00EE
      SP := s.SP - 1 } := by
  have hw : wrapSub 8 s.SP 1 = s.SP - 1 := by
    unfold wrapSub
    omega
  have hlt : s.SP - 1 < 12 := by omega
  have hc : ((0x00EE : Nat) &&& 0xF000) >>> 12 = 0 := by decide
  have hN : (CHIP8_decode 0x00EE).NNN = 0x0EE := by decide
  simp [CHIP8_execute_opcode, CHIP8_dispatch, CHIP8_decode_opcode, hc, hN, CHIP8_I_00EE,
    readStack, hw, hlt, ok_bind]

/-- Nested calls followed by as many returns restore `SP`, keep the stack below `SP`, and leave
`PC` after the first CALL opcode. -/
theorem call_ret_nested (rnd : Nat) (targets : List Nat) :
    ∀ s : CHIP8_t, (∀ t ∈ targets, t < 4096) → s.SP + targets.length ≤ 12 →
      ∃ s', run_opcodes rnd
          (targets.map (fun t => 0x2000 + t) ++ List.replicate targets.length 0x00EE) s = .ok s' ∧
        s'.SP = s.SP ∧ (∀ i, i < s.SP → s'.stack i = s.stack i) ∧
        (0 < targets.length → s'.PC = (s.PC + 2) % 65536) := by
  induction targets with
  | nil =>
    intro s _ _
    exact ⟨s, rfl, rfl, fun _ _ => rfl, fun h => absurd h (by simp)⟩
  | cons t rest ih =>
    intro s ht hlen
    simp only [List.length_cons] at hlen
    have hSP : s.SP < 12 := by omega
    have ht0 : t < 4096 := ht t (List.mem_cons_self _ _)
    obtain ⟨s2, hrun, hSP2, hstack2, -⟩ :=
      ih { s with
            PC := t
            instruction := CHIP8_decode (0x2000 + t)
            stack := Function.update s.stack s.SP ((s.PC + 2) % 65536)
            SP := s.SP + 1 }
        (fun u hu => ht u (List.mem_cons_of_mem _ hu)) (by simp only; omega)
    simp only at hSP2 hstack2
    have hret := CHIP8_execute_00EE rnd s2 (by omega) (by omega)
    refine ⟨{ s2 with
        PC := s2.stack (s2.SP - 1) % 65536
        instruction := CHIP8_decode 0x00EE
        SP := s2.SP - 1 }, ?_, ?_, ?_, ?_⟩
    · have hl : (t :: rest).map (fun t => 0x2000 + t) ++
            List.replicate (t :: rest).length 0x00EE =
          (0x2000 + t) :: ((rest.map (fun t => 0x2000 + t) ++
            List.replicate rest.length 0x00EE) ++ [0x00EE]) := by
        simp [List.replicate_succ']
      rw [hl]
      simp only [run_opcodes, CHIP8_execute_2NNN rnd t s ht0 hSP, ok_bind]
      rw [run_opcodes_append, hrun, ok_bind]
      simp only [run_opcodes, hret, ok_bind]
    · simp only [hSP2]
      omega
    · intro i hi
      simp only
      rw [hstack2 i (by omega), Function.update_noteq (by omega)]
    · intro _
      simp only [hSP2, Nat.add_sub_cancel]
      rw [hstack2 s.SP (by omega), Function.update_same]
      omega

/-- C8: for every record and every list of `k` call targets with `SP + k ≤ 12`, `k` steps on
`2NNN` opcodes followed by `k` steps on `00EE` leave `SP` at its old value and (for `k > 0`)
`PC` at the return address of the first call, the address just after the first CALL opcode.
Instance: at `PC = 0x300` the step on `2500` gives `stack[0] = 0x302`, `SP = 1`, `PC = 0x500`,
and the following step on `00EE` gives `PC = 0x302`, `SP = 0`. -/
theorem call_ret_inverse (rnd : Nat) (s : CHIP8_t) (targets : List Nat)
    (ht : ∀ t ∈ targets, t < 4096) (hSP : s.SP + targets.length ≤ 12) :
    (∃ s', run_opcodes rnd
        (targets.map (fun t => 0x2000 + t) ++ List.replicate targets.length 0x00EE) s = .ok s' ∧
      s'.SP = s.SP ∧ (0 < targets.length → s'.PC = (s.PC + 2) % 65536)) ∧
    (∃ s1 s2, CHIP8_emulate_instruction rnd call_ret_example = .ok s1 ∧
      s1.stack 0 = 0x302 ∧ s1.SP = 1 ∧ s1.PC = 0x500 ∧
      CHIP8_emulate_instruction rnd s1 = .ok s2 ∧ s2.PC = 0x302 ∧ s2.SP = 0) := by
  constructor
  · obtain ⟨s', h, h1, -, h2⟩ := call_ret_nested rnd targets s ht hSP
    exact ⟨s', h, h1, h2⟩
  · refine ⟨_, _, rfl, ?_, ?_, ?_, rfl, ?_, ?_⟩ <;> decide

/-- Instance with three nested calls from `call_ret_example`. -/
theorem call_ret_inverse_witness :
    ∃ s', run_opcodes 0 [0x2500, 0x2600, 0x2700, 0x00EE, 0x00EE, 0x00EE] call_ret_example
        = .ok s' ∧ s'.SP = 0 ∧ s'.PC = 0x302 := by
  obtain ⟨s', h, h1, h2⟩ :=
    (call_ret_inverse 0 call_ret_example [0x500, 0x600, 0x700] (by decide) (by decide)).1
  exact ⟨s', h, h1, h2 (by decide)⟩

/-! ## Stack pointer -/

theorem CHIP8_I_DXYN_cols_SP (X Y y : Nat) :
    ∀ (k x : Nat) (s s' : CHIP8_t), CHIP8_I_DXYN_cols X Y y k x s = .ok s' → s'.SP = s.SP := by
  intro k
  induction k with
  | zero =>
    intro x s s' h
    simp only [CHIP8_I_DXYN_cols, Except.ok.injEq] at h
    rw [← h]
  | succ k ih =>
    intro x s s' h
    rw [CHIP8_I_DXYN_cols] at h
    split_ifs at h with hx
    · simp only [Except.ok.injEq] at h
      rw [← h]
    · simp only [bind_eq_ok_iff, readMM_eq_ok_iff, readDisplay_eq_ok_iff,
        writeDisplay_eq_ok_iff] at h
      obtain ⟨b, -, d, -, ⟨s1, p⟩, hp, s2, ⟨-, hs2⟩, hrec⟩ := h
      have h1 : s1.SP = s.SP := by
        split_ifs at hp
        all_goals first
          | (simp only [pure, Except.pure, Except.ok.injEq, Prod.mk.injEq] at hp
             rw [← hp.1])
          | (simp only [bind_eq_ok_iff, writeV_eq_ok_iff] at hp
             obtain ⟨t, ⟨-, ht⟩, hp⟩ := hp
             simp only [pure, Except.pure, Except.ok.injEq, Prod.mk.injEq] at hp
             rw [← hp.1, ← ht])
      rw [ih _ _ _ hrec, ← hs2]
      exact h1

theorem CHIP8_I_DXYN_rows_SP (X Y : Nat) :
    ∀ (k y : Nat) (s s' : CHIP8_t), CHIP8_I_DXYN_rows X Y k y s = .ok s' → s'.SP = s.SP := by
  intro k
  induction k with
  | zero =>
    intro y s s' h
    simp only [CHIP8_I_DXYN_rows, Except.ok.injEq] at h
    rw [← h]
  | succ k ih =>
    intro y s s' h
    rw [CHIP8_I_DXYN_rows] at h
    split_ifs at h with hy
    · simp only [Except.ok.injEq] at h
      rw [← h]
    · simp only [bind_eq_ok_iff] at h
      obtain ⟨s1, h1, hrec⟩ := h
      rw [ih _ _ _ hrec, CHIP8_I_DXYN_cols_SP X Y y _ _ _ _ h1]

theorem CHIP8_I_FX0A_scan_SP :
    ∀ (k i : Nat) (s s' : CHIP8_t), CHIP8_I_FX0A_scan k i s = .ok s' → s'.SP = s.SP := by
  intro k
  induction k with
  | zero =>
    intro i s s' h
    simp only [CHIP8_I_FX0A_scan, Except.ok.injEq] at h
    rw [← h]
  | succ k ih =>
    intro i s s' h
    rw [CHIP8_I_FX0A_scan] at h
    simp only [bind_eq_ok_iff, readKeypad_eq_ok_iff] at h
    obtain ⟨key, -, h⟩ := h
    split_ifs at h
    · simp only [bind_eq_ok_iff, readKeypad_eq_ok_iff, writeV_eq_ok_iff, Except.ok.injEq] at h
      obtain ⟨key1, -, s1, ⟨-, hs1⟩, h⟩ := h
      rw [← h, ← hs1]
    · exact ih _ _ _ h

theorem CHIP8_I_FX55_loop_SP :
    ∀ (k i : Nat) (s s' : CHIP8_t), CHIP8_I_FX55_loop k i s = .ok s' → s'.SP = s.SP := by
  intro k
  induction k with
  | zero =>
    intro i s s' h
    simp only [CHIP8_I_FX55_loop, Except.ok.injEq] at h
    rw [← h]
  | succ k ih =>
    intro i s s' h
    rw [CHIP8_I_FX55_loop] at h
    simp only [bind_eq_ok_iff, readV_eq_ok_iff, writeMM_eq_ok_iff] at h
    obtain ⟨vi, -, s1, ⟨-, hs1⟩, h⟩ := h
    rw [ih _ _ _ h, ← hs1]

theorem CHIP8_I_FX65_loop_SP :
    ∀ (k i : Nat) (s s' : CHIP8_t), CHIP8_I_FX65_loop k i s = .ok s' → s'.SP = s.SP := by
  intro k
  induction k with
  | zero =>
    intro i s s' h
    simp only [CHIP8_I_FX65_loop, Except.ok.injEq] at h
    rw [← h]
  | succ k ih =>
    intro i s s' h
    rw [CHIP8_I_FX65_loop] at h
    simp only [bind_eq_ok_iff, readMM_eq_ok_iff, writeV_eq_ok_iff] at h
    obtain ⟨b, -, s1, ⟨-, hs1⟩, h⟩ := h
    rw [ih _ _ _ h, ← hs1]

theorem CHIP8_I_DXYN_SP (s s' : CHIP8_t) (h : CHIP8_I_DXYN s = .ok s') : s'.SP = s.SP := by
  simp only [CHIP8_I_DXYN, bind_eq_ok_iff, readV_eq_ok_iff, writeV_eq_ok_iff] at h
  obtain ⟨vx, -, vy, -, s1, ⟨-, hs1⟩, h⟩ := h
  rw [CHIP8_I_DXYN_rows_SP _ _ _ _ _ _ h, ← hs1]

theorem CHIP8_I_0NNN_SP (s s' : CHIP8_t) (h : CHIP8_I_0NNN s = .ok s') :
    s'.SP = s.SP := by
  simp only [CHIP8_I_0NNN, bind_eq_ok_iff, readV_eq_ok_iff, writeV_eq_ok_iff, writeMM_eq_ok_iff,
    readKeypad_eq_ok_iff] at h
  aesop

theorem CHIP8_I_00E0_SP (s s' : CHIP8_t) (h : CHIP8_I_00E0 s = .ok s') :
    s'.SP = s.SP := by
  simp only [CHIP8_I_00E0, bind_eq_ok_iff, readV_eq_ok_iff, writeV_eq_ok_iff, writeMM_eq_ok_iff,
    readKeypad_eq_ok_iff] at h
  aesop

theorem CHIP8_I_1NNN_SP (s s' : CHIP8_t) (h : CHIP8_I_1NNN s = .ok s') :
    s'.SP = s.SP := by
  simp only [CHIP8_I_1NNN, bind_eq_ok_iff, readV_eq_ok_iff, writeV_eq_ok_iff, writeMM_eq_ok_iff,
    readKeypad_eq_ok_iff] at h
  aesop

theorem CHIP8_I_3XNN_SP (s s' : CHIP8_t) (h : CHIP8_I_3XNN s = .ok s') :
    s'.SP = s.SP := by
  simp only [CHIP8_I_3XNN, bind_eq_ok_iff, readV_eq_ok_iff, writeV_eq_ok_iff, writeMM_eq_ok_iff,
    readKeypad_eq_ok_iff] at h
  aesop

theorem CHIP8_I_4XNN_SP (s s' : CHIP8_t) (h : CHIP8_I_4XNN s = .ok s') :
    s'.SP = s.SP := by
  simp only [CHIP8_I_4XNN, bind_eq_ok_iff, readV_eq_ok_iff, writeV_eq_ok_iff, writeMM_eq_ok_iff,
    readKeypad_eq_ok_iff] at h
  aesop

theorem CHIP8_I_5XY0_SP (s s' : CHIP8_t) (h : CHIP8_I_5XY0 s = .ok s') :
    s'.SP = s.SP := by
  simp only [CHIP8_I_5XY0, bind_eq_ok_iff, readV_eq_ok_iff, writeV_eq_ok_iff, writeMM_eq_ok_iff,
    readKeypad_eq_ok_iff] at h
  aesop

theorem CHIP8_I_6XNN_SP (s s' : CHIP8_t) (h : CHIP8_I_6XNN s = .ok s') :
    s'.SP = s.SP := by
  simp only [CHIP8_I_6XNN, bind_eq_ok_iff, readV_eq_ok_iff, writeV_eq_ok_iff, writeMM_eq_ok_iff,
    readKeypad_eq_ok_iff] at h
  aesop

theorem CHIP8_I_7XNN_SP (s s' : CHIP8_t) (h : CHIP8_I_7XNN s = .ok s') :
    s'.SP = s.SP := by
  simp only [CHIP8_I_7XNN, bind_eq_ok_iff, readV_eq_ok_iff, writeV_eq_ok_iff, writeMM_eq_ok_iff,
    readKeypad_eq_ok_iff] at h
  aesop

theorem CHIP8_I_8XY0_SP (s s' : CHIP8_t) (h : CHIP8_I_8XY0 s = .ok s') :
    s'.SP = s.SP := by
  simp only [CHIP8_I_8XY0, bind_eq_ok_iff, readV_eq_ok_iff, writeV_eq_ok_iff, writeMM_eq_ok_iff,
    readKeypad_eq_ok_iff] at h
  aesop

theorem CHIP8_I_8XY1_SP (s s' : CHIP8_t) (h : CHIP8_I_8XY1 s = .ok s') :
    s'.SP = s.SP := by
  simp only [CHIP8_I_8XY1, bind_eq_ok_iff, readV_eq_ok_iff, writeV_eq_ok_iff, writeMM_eq_ok_iff,
    readKeypad_eq_ok_iff] at h
  aesop

theorem CHIP8_I_8XY2_SP (s s' : CHIP8_t) (h : CHIP8_I_8XY2 s = .ok s') :
    s'.SP = s.SP := by
  simp only [CHIP8_I_8XY2, bind_eq_ok_iff, readV_eq_ok_iff, writeV_eq_ok_iff, writeMM_eq_ok_iff,
    readKeypad_eq_ok_iff] at h
  aesop

theorem CHIP8_I_8XY3_SP (s s' : CHIP8_t) (h : CHIP8_I_8XY3 s = .ok s') :
    s'.SP = s.SP := by
  simp only [CHIP8_I_8XY3, bind_eq_ok_iff, readV_eq_ok_iff, writeV_eq_ok_iff, writeMM_eq_ok_iff,
    readKeypad_eq_ok_iff] at h
  aesop

theorem CHIP8_I_8XY4_SP (s s' : CHIP8_t) (h : CHIP8_I_8XY4 s = .ok s') :
    s'.SP = s.SP := by
  simp only [CHIP8_I_8XY4, bind_eq_ok_iff, readV_eq_ok_iff, writeV_eq_ok_iff, writeMM_eq_ok_iff,
    readKeypad_eq_ok_iff] at h
  aesop

theorem CHIP8_I_8XY5_SP (s s' : CHIP8_t) (h : CHIP8_I_8XY5 s = .ok s') :
    s'.SP = s.SP := by
  simp only [CHIP8_I_8XY5, bind_eq_ok_iff, readV_eq_ok_iff, writeV_eq_ok_iff, writeMM_eq_ok_iff,
    readKeypad_eq_ok_iff] at h
  aesop

theorem CHIP8_I_8XY6_SP (s s' : CHIP8_t) (h : CHIP8_I_8XY6 s = .ok s') :
    s'.SP = s.SP := by
  simp only [CHIP8_I_8XY6, bind_eq_ok_iff, readV_eq_ok_iff, writeV_eq_ok_iff, writeMM_eq_ok_iff,
    readKeypad_eq_ok_iff] at h
  aesop

theorem CHIP8_I_8XY7_SP (s s' : CHIP8_t) (h : CHIP8_I_8XY7 s = .ok s') :
    s'.SP = s.SP := by
  simp only [CHIP8_I_8XY7, bind_eq_ok_iff, readV_eq_ok_iff, writeV_eq_ok_iff, writeMM_eq_ok_iff,
    readKeypad_eq_ok_iff] at h
  aesop

theorem CHIP8_I_8XYE_SP (s s' : CHIP8_t) (h : CHIP8_I_8XYE s = .ok s') :
    s'.SP = s.SP := by
  simp only [CHIP8_I_8XYE, bind_eq_ok_iff, readV_eq_ok_iff, writeV_eq_ok_iff, writeMM_eq_ok_iff,
    readKeypad_eq_ok_iff] at h
  aesop

theorem CHIP8_I_9XY0_SP (s s' : CHIP8_t) (h : CHIP8_I_9XY0 s = .ok s') :
    s'.SP = s.SP := by
  simp only [CHIP8_I_9XY0, bind_eq_ok_iff, readV_eq_ok_iff, writeV_eq_ok_iff, writeMM_eq_ok_iff,
    readKeypad_eq_ok_iff] at h
  aesop

theorem CHIP8_I_ANNN_SP (s s' : CHIP8_t) (h : CHIP8_I_ANNN s = .ok s') :
    s'.SP = s.SP := by
  simp only [CHIP8_I_ANNN, bind_eq_ok_iff, readV_eq_ok_iff, writeV_eq_ok_iff, writeMM_eq_ok_iff,
    readKeypad_eq_ok_iff] at h
  aesop

theorem CHIP8_I_BNNN_SP (s s' : CHIP8_t) (h : CHIP8_I_BNNN s = .ok s') :
    s'.SP = s.SP := by
  simp only [CHIP8_I_BNNN, bind_eq_ok_iff, readV_eq_ok_iff, writeV_eq_ok_iff, writeMM_eq_ok_iff,
    readKeypad_eq_ok_iff] at h
  aesop

theorem CHIP8_I_CXNN_SP (rnd : Nat) (s s' : CHIP8_t) (h : CHIP8_I_CXNN rnd s = .ok s') :
    s'.SP = s.SP := by
  simp only [CHIP8_I_CXNN, bind_eq_ok_iff, readV_eq_ok_iff, writeV_eq_ok_iff, writeMM_eq_ok_iff,
    readKeypad_eq_ok_iff] at h
  aesop

theorem CHIP8_I_EX9E_SP (s s' : CHIP8_t) (h : CHIP8_I_EX9E s = .ok s') :
    s'.SP = s.SP := by
  simp only [CHIP8_I_EX9E, bind_eq_ok_iff, readV_eq_ok_iff, writeV_eq_ok_iff, writeMM_eq_ok_iff,
    readKeypad_eq_ok_iff] at h
  aesop

theorem CHIP8_I_EXA1_SP (s s' : CHIP8_t) (h : CHIP8_I_EXA1 s = .ok s') :
    s'.SP = s.SP := by
  simp only [CHIP8_I_EXA1, bind_eq_ok_iff, readV_eq_ok_iff, writeV_eq_ok_iff, writeMM_eq_ok_iff,
    readKeypad_eq_ok_iff] at h
  aesop

theorem CHIP8_I_FX07_SP (s s' : CHIP8_t) (h : CHIP8_I_FX07 s = .ok s') :
    s'.SP = s.SP := by
  simp only [CHIP8_I_FX07, bind_eq_ok_iff, readV_eq_ok_iff, writeV_eq_ok_iff, writeMM_eq_ok_iff,
    readKeypad_eq_ok_iff] at h
  aesop

theorem CHIP8_I_FX15_SP (s s' : CHIP8_t) (h : CHIP8_I_FX15 s = .ok s') :
    s'.SP = s.SP := by
  simp only [CHIP8_I_FX15, bind_eq_ok_iff, readV_eq_ok_iff, writeV_eq_ok_iff, writeMM_eq_ok_iff,
    readKeypad_eq_ok_iff] at h
  aesop

theorem CHIP8_I_FX18_SP (s s' : CHIP8_t) (h : CHIP8_I_FX18 s = .ok s') :
    s'.SP = s.SP := by
  simp only [CHIP8_I_FX18, bind_eq_ok_iff, readV_eq_ok_iff, writeV_eq_ok_iff, writeMM_eq_ok_iff,
    readKeypad_eq_ok_iff] at h
  aesop

theorem CHIP8_I_FX1E_SP (s s' : CHIP8_t) (h : CHIP8_I_FX1E s = .ok s') :
    s'.SP = s.SP := by
  simp only [CHIP8_I_FX1E, bind_eq_ok_iff, readV_eq_ok_iff, writeV_eq_ok_iff, writeMM_eq_ok_iff,
    readKeypad_eq_ok_iff] at h
  aesop

theorem CHIP8_I_FX29_SP (s s' : CHIP8_t) (h : CHIP8_I_FX29 s = .ok s') :
    s'.SP = s.SP := by
  simp only [CHIP8_I_FX29, bind_eq_ok_iff, readV_eq_ok_iff, writeV_eq_ok_iff, writeMM_eq_ok_iff,
    readKeypad_eq_ok_iff] at h
  aesop

theorem CHIP8_I_FX33_SP (s s' : CHIP8_t) (h : CHIP8_I_FX33 s = .ok s') :
    s'.SP = s.SP := by
  simp only [CHIP8_I_FX33, bind_eq_ok_iff, readV_eq_ok_iff, writeV_eq_ok_iff, writeMM_eq_ok_iff,
    readKeypad_eq_ok_iff] at h
  aesop

/-- Case analysis over the dispatcher: a property of the result of every operation, and of the
unchanged record, is a property of the result of `CHIP8_dispatch`. -/
theorem CHIP8_dispatch_cases (rnd : Nat) (s : CHIP8_t) (P : Exec CHIP8_t → Prop)
    (h00E0 : P (CHIP8_I_00E0 s)) (h00EE : P (CHIP8_I_00EE s)) (h0NNN : P (CHIP8_I_0NNN s))
    (h1NNN : P (CHIP8_I_1NNN s)) (h2NNN : P (CHIP8_I_2NNN s)) (h3XNN : P (CHIP8_I_3XNN s))
    (h4XNN : P (CHIP8_I_4XNN s)) (h5XY0 : P (CHIP8_I_5XY0 s)) (h6XNN : P (CHIP8_I_6XNN s))
    (h7XNN : P (CHIP8_I_7XNN s)) (h8XY0 : P (CHIP8_I_8XY0 s)) (h8XY1 : P (CHIP8_I_8XY1 s))
    (h8XY2 : P (CHIP8_I_8XY2 s)) (h8XY3 : P (CHIP8_I_8XY3 s)) (h8XY4 : P (CHIP8_I_8XY4 s))
    (h8XY5 : P (CHIP8_I_8XY5 s)) (h8XY6 : P (CHIP8_I_8XY6 s)) (h8XY7 : P (CHIP8_I_8XY7 s))
    (h8XYE : P (CHIP8_I_8XYE s)) (h9XY0 : P (CHIP8_I_9XY0 s)) (hANNN : P (CHIP8_I_ANNN s))
    (hBNNN : P (CHIP8_I_BNNN s)) (hCXNN : P (CHIP8_I_CXNN rnd s)) (hDXYN : P (CHIP8_I_DXYN s))
    (hEX9E : P (CHIP8_I_EX9E s)) (hEXA1 : P (CHIP8_I_EXA1 s)) (hFX07 : P (CHIP8_I_FX07 s))
    (hFX0A : P (CHIP8_I_FX0A s)) (hFX15 : P (CHIP8_I_FX15 s)) (hFX18 : P (CHIP8_I_FX18 s))
    (hFX1E : P (CHIP8_I_FX1E s)) (hFX29 : P (CHIP8_I_FX29 s)) (hFX33 : P (CHIP8_I_FX33 s))
    (hFX55 : P (CHIP8_I_FX55 s)) (hFX65 : P (CHIP8_I_FX65 s)) (hnop : P (.ok s)) :
    P (CHIP8_dispatch rnd s) := by
  unfold CHIP8_dispatch
  generalize (s.instruction.opcode &&& 0xF000) >>> 12 = c
  dsimp only
  by_cases c0 : c = 0x0
  · rw [if_pos c0]
    by_cases a0 : s.instruction.NNN = 0x0E0
    · rw [if_pos a0]
      exact h00E0
    · rw [if_neg a0]
      by_cases a1 : s.instruction.NNN = 0x0EE
      · rw [if_pos a1]
        exact h00EE
      · rw [if_neg a1]
        exact h0NNN
  · rw [if_neg c0]
    by_cases c1 : c = 0x1
    · rw [if_pos c1]
      exact h1NNN
    · rw [if_neg c1]
      by_cases c2 : c = 0x2
      · rw [if_pos c2]
        exact h2NNN
      · rw [if_neg c2]
        by_cases c3 : c = 0x3
        · rw [if_pos c3]
          exact h3XNN
        · rw [if_neg c3]
          by_cases c4 : c = 0x4
          · rw [if_pos c4]
            exact h4XNN
          · rw [if_neg c4]
            by_cases c5 : c = 0x5
            · rw [if_pos c5]
              by_cases a : s.instruction.N ≠ 0x0
              · rw [if_pos a]
                exact hnop
              · rw [if_neg a]
                exact h5XY0
            · rw [if_neg c5]
              by_cases c6 : c = 0x6
              · rw [if_pos c6]
                exact h6XNN
              · rw [if_neg c6]
                by_cases c7 : c = 0x7
                · rw [if_pos c7]
                  exact h7XNN
                · rw [if_neg c7]
                  by_cases c8 : c = 0x8
                  · rw [if_pos c8]
                    by_cases a0 : s.instruction.N = 0x0
                    · rw [if_pos a0]
                      exact h8XY0
                    · rw [if_neg a0]
                      by_cases a1 : s.instruction.N = 0x1
                      · rw [if_pos a1]
                        exact h8XY1
                      · rw [if_neg a1]
                        by_cases a2 : s.instruction.N = 0x2
                        · rw [if_pos a2]
                          exact h8XY2
                        · rw [if_neg a2]
                          by_cases a3 : s.instruction.N = 0x3
                          · rw [if_pos a3]
                            exact h8XY3
                          · rw [if_neg a3]
                            by_cases a4 : s.instruction.N = 0x4
                            · rw [if_pos a4]
                              exact h8XY4
                            · rw [if_neg a4]
                              by_cases a5 : s.instruction.N = 0x5
                              · rw [if_pos a5]
                                exact h8XY5
                              · rw [if_neg a5]
                                by_cases a6 : s.instruction.N = 0x6
                                · rw [if_pos a6]
                                  exact h8XY6
                                · rw [if_neg a6]
                                  by_cases a7 : s.instruction.N = 0x7
                                  · rw [if_pos a7]
                                    exact h8XY7
                                  · rw [if_neg a7]
                                    by_cases a8 : s.instruction.N = 0xE
                                    · rw [if_pos a8]
                                      exact h8XYE
                                    · rw [if_neg a8]
                                      exact hnop
                  · rw [if_neg c8]
                    by_cases c9 : c = 0x9
                    · rw [if_pos c9]
                      exact h9XY0
                    · rw [if_neg c9]
                      by_cases c10 : c = 0xA
                      · rw [if_pos c10]
                        exact hANNN
                      · rw [if_neg c10]
                        by_cases c11 : c = 0xB
                        · rw [if_pos c11]
                          exact hBNNN
                        · rw [if_neg c11]
                          by_cases c12 : c = 0xC
                          · rw [if_pos c12]
                            exact hCXNN
                          · rw [if_neg c12]
                            by_cases c13 : c = 0xD
                            · rw [if_pos c13]
                              exact hDXYN
                            · rw [if_neg c13]
                              by_cases c14 : c = 0xE
                              · rw [if_pos c14]
                                by_cases a0 : s.instruction.NN = 0x9E
                                · rw [if_pos a0]
                                  exact hEX9E
                                · rw [if_neg a0]
                                  by_cases a1 : s.instruction.NN = 0xA1
                                  · rw [if_pos a1]
                                    exact hEXA1
                                  · rw [if_neg a1]
                                    exact hnop
                              · rw [if_neg c14]
                                by_cases c15 : c = 0xF
                                · rw [if_pos c15]
                                  by_cases a0 : s.instruction.NN = 0x07
                                  · rw [if_pos a0]
                                    exact hFX07
                                  · rw [if_neg a0]
                                    by_cases a1 : s.instruction.NN = 0x0A
                                    · rw [if_pos a1]
                                      exact hFX0A
                                    · rw [if_neg a1]
                                      by_cases a2 : s.instruction.NN = 0x15
                                      · rw [if_pos a2]
                                        exact hFX15
                                      · rw [if_neg a2]
                                        by_cases a3 : s.instruction.NN = 0x18
                                        · rw [if_pos a3]
                                          exact hFX18
                                        · rw [if_neg a3]
                                          by_cases a4 : s.instruction.NN = 0x1E
                                          · rw [if_pos a4]
                                            exact hFX1E
                                          · rw [if_neg a4]
                                            by_cases a5 : s.instruction.NN = 0x29
                                            · rw [if_pos a5]
                                              exact hFX29
                                            · rw [if_neg a5]
                                              by_cases a6 : s.instruction.NN = 0x33
                                              · rw [if_pos a6]
                                                exact hFX33
                                              · rw [if_neg a6]
                                                by_cases a7 : s.instruction.NN = 0x55
                                                · rw [if_pos a7]
                                                  exact hFX55
                                                · rw [if_neg a7]
                                                  by_cases a8 : s.instruction.NN = 0x65
                                                  · rw [if_pos a8]
                                                    exact hFX65
                                                  · rw [if_neg a8]
                                                    exact hnop
                                · rw [if_neg c15]
                                  exact hnop

/-- Dispatch keeps `SP ≤ 12` whenever it completes. -/
theorem CHIP8_dispatch_SP (rnd : Nat) (s s' : CHIP8_t) (h : CHIP8_dispatch rnd s = .ok s')
    (hSP : s.SP ≤ 12) : s'.SP ≤ 12 := by
  have e : ∀ {t : CHIP8_t}, t.SP = s.SP → t.SP ≤ 12 := fun ht => by omega
  have key : (fun r : Exec CHIP8_t => ∀ t, r = .ok t → t.SP ≤ 12) (CHIP8_dispatch rnd s) := by
    apply CHIP8_dispatch_cases rnd s (fun r => ∀ t, r = .ok t → t.SP ≤ 12)
    all_goals intro t ht
    · exact e (CHIP8_I_00E0_SP s t ht)
    · simp only [CHIP8_I_00EE, bind_eq_ok_iff, readStack_eq_ok_iff, Except.ok.injEq] at ht
      obtain ⟨ret, ⟨hlt, -⟩, ht⟩ := ht
      rw [← ht]
      exact Nat.le_of_lt hlt
    · exact e (CHIP8_I_0NNN_SP s t ht)
    · exact e (CHIP8_I_1NNN_SP s t ht)
    · simp only [CHIP8_I_2NNN, bind_eq_ok_iff, writeStack_eq_ok_iff, Except.ok.injEq] at ht
      obtain ⟨s1, ⟨hlt, hs1⟩, ht⟩ := ht
      rw [← ht, ← hs1]
      show (s.SP + 1) % 256 ≤ 12
      omega
    · exact e (CHIP8_I_3XNN_SP s t ht)
    · exact e (CHIP8_I_4XNN_SP s t ht)
    · exact e (CHIP8_I_5XY0_SP s t ht)
    · exact e (CHIP8_I_6XNN_SP s t ht)
    · exact e (CHIP8_I_7XNN_SP s t ht)
    · exact e (CHIP8_I_8XY0_SP s t ht)
    · exact e (CHIP8_I_8XY1_SP s t ht)
    · exact e (CHIP8_I_8XY2_SP s t ht)
    · exact e (CHIP8_I_8XY3_SP s t ht)
    · exact e (CHIP8_I_8XY4_SP s t ht)
    · exact e (CHIP8_I_8XY5_SP s t ht)
    · exact e (CHIP8_I_8XY6_SP s t ht)
    · exact e (CHIP8_I_8XY7_SP s t ht)
    · exact e (CHIP8_I_8XYE_SP s t ht)
    · exact e (CHIP8_I_9XY0_SP s t ht)
    · exact e (CHIP8_I_ANNN_SP s t ht)
    · exact e (CHIP8_I_BNNN_SP s t ht)
    · exact e (CHIP8_I_CXNN_SP rnd s t ht)
    · exact e (CHIP8_I_DXYN_SP s t ht)
    · exact e (CHIP8_I_EX9E_SP s t ht)
    · exact e (CHIP8_I_EXA1_SP s t ht)
    · exact e (CHIP8_I_FX07_SP s t ht)
    · exact e (CHIP8_I_FX0A_scan_SP 16 0 { s with PC := wrapSub 16 s.PC 2 } t ht)
    · exact e (CHIP8_I_FX15_SP s t ht)
    · exact e (CHIP8_I_FX18_SP s t ht)
    · exact e (CHIP8_I_FX1E_SP s t ht)
    · exact e (CHIP8_I_FX29_SP s t ht)
    · exact e (CHIP8_I_FX33_SP s t ht)
    · exact e (CHIP8_I_FX55_loop_SP _ _ _ t ht)
    · exact e (CHIP8_I_FX65_loop_SP _ _ _ t ht)
    · simp only [Except.ok.injEq] at ht
      rw [← ht]
      exact hSP
  exact key s' h

/-- The instruction step keeps `SP ≤ 12` whenever it completes. -/
theorem CHIP8_emulate_instruction_SP (rnd : Nat) (s s' : CHIP8_t)
    (h : CHIP8_emulate_instruction rnd s = .ok s') (hSP : s.SP ≤ 12) : s'.SP ≤ 12 := by
  simp only [CHIP8_emulate_instruction, bind_eq_ok_iff] at h
  obtain ⟨opcode, -, h⟩ := h
  exact CHIP8_dispatch_SP rnd _ s' h hSP

/-- C9: the stack bound is not enforced. Every step that completes without leaving an array
keeps `SP ≤ 12`, but the two steps that would break the bound do not fault. With `SP = 12` the
step on `2500` goes on to the assignment `stack[12] = PC`, outside the 12-slot array; with
`SP = 0` the step on `00EE` wraps `SP` to 255 and reads `stack[255]`, outside the array. -/
theorem CHIP8_stack_bound_not_enforced (rnd : Nat) (s s' : CHIP8_t)
    (hstep : CHIP8_emulate_instruction rnd s = .ok s') (hSP : s.SP ≤ 12) :
    s'.SP ≤ 12 ∧
    ({ with_opcode 0x2500 [] with SP := 12 } : CHIP8_t).SP ≤ 12 ∧
    CHIP8_emulate_instruction rnd { with_opcode 0x2500 [] with SP := 12 }
      = .error (OutOfBounds.stack 12) ∧
    (with_opcode 0x00EE []).SP ≤ 12 ∧
    CHIP8_emulate_instruction rnd (with_opcode 0x00EE []) = .error (OutOfBounds.stack 255) :=
  ⟨CHIP8_emulate_instruction_SP rnd s s' hstep hSP, by decide, rfl, by decide, rfl⟩

/-- Instance of a completing step: the CALL of `call_ret_example` raises `SP` from 0 to 1. -/
theorem CHIP8_stack_bound_not_enforced_witness :
    ∃ s1, CHIP8_emulate_instruction 0 call_ret_example = .ok s1 ∧
      call_ret_example.SP ≤ 12 ∧ s1.SP ≤ 12 :=
  ⟨_, rfl, by decide,
    (CHIP8_stack_bound_not_enforced 0 call_ret_example _ rfl (by decide)).1⟩

/-! ## Binary-coded decimal -/

/-- C10: for every `v = V[X]` in 0..255 and every `I` with `I + 2 < 4096`, `FX33` stores
`v / 100`, `(v / 10) mod 10` and `v mod 10` at `MM[I]`, `MM[I+1]`, `MM[I+2]`; each stored byte is
at most 9 and `100·MM[I] + 10·MM[I+1] + MM[I+2] = v`; no other memory byte and no other field
of the record (registers included) changes. -/
theorem CHIP8_I_FX33_digits (s : CHIP8_t) (hX : s.instruction.X < 16)
    (hv : s.V s.instruction.X < 256) (hI : s.I + 2 < 4096) :
    ∃ s', CHIP8_I_FX33 s = .ok s' ∧
      s'.MM s.I = s.V s.instruction.X / 100 ∧
      s'.MM (s.I + 1) = (s.V s.instruction.X / 10) % 10 ∧
      s'.MM (s.I + 2) = s.V s.instruction.X % 10 ∧
      s'.MM s.I ≤ 9 ∧ s'.MM (s.I + 1) ≤ 9 ∧ s'.MM (s.I + 2) ≤ 9 ∧
      100 * s'.MM s.I + 10 * s'.MM (s.I + 1) + s'.MM (s.I + 2) = s.V s.instruction.X ∧
      (∀ a, a ≠ s.I → a ≠ s.I + 1 → a ≠ s.I + 2 → s'.MM a = s.MM a) ∧
      s' = { s with MM := s'.MM } := by
  have e0 : CHIP8_I_FX33 s = .ok { s with
      MM := Function.update (Function.update (Function.update s.MM s.I
        (s.V s.instruction.X / 100 % 256)) (s.I + 1) (s.V s.instruction.X % 100 / 10 % 256))
        (s.I + 2) (s.V s.instruction.X % 10 % 256) } := by
    simp only [CHIP8_I_FX33, readV_ok _ _ hX, writeMM_ok _ s.I _ (by omega),
      writeMM_ok _ (s.I + 1) _ (by omega), writeMM_ok _ (s.I + 2) _ (by omega), ok_bind]
  have m0 : Function.update (Function.update (Function.update s.MM s.I
        (s.V s.instruction.X / 100 % 256)) (s.I + 1) (s.V s.instruction.X % 100 / 10 % 256))
        (s.I + 2) (s.V s.instruction.X % 10 % 256) s.I = s.V s.instruction.X / 100 := by
    rw [Function.update_noteq (by omega), Function.update_noteq (by omega), Function.update_same]
    omega
  have m1 : Function.update (Function.update (Function.update s.MM s.I
        (s.V s.instruction.X / 100 % 256)) (s.I + 1) (s.V s.instruction.X % 100 / 10 % 256))
        (s.I + 2) (s.V s.instruction.X % 10 % 256) (s.I + 1) = (s.V s.instruction.X / 10) % 10 := by
    rw [Function.update_noteq (by omega), Function.update_same]
    omega
  have m2 : Function.update (Function.update (Function.update s.MM s.I
        (s.V s.instruction.X / 100 % 256)) (s.I + 1) (s.V s.instruction.X % 100 / 10 % 256))
        (s.I + 2) (s.V s.instruction.X % 10 % 256) (s.I + 2) = s.V s.instruction.X % 10 := by
    rw [Function.update_same]
    omega
  refine ⟨_, e0, m0, m1, m2, ?_, ?_, ?_, ?_, ?_, rfl⟩
  · dsimp only; rw [m0]; omega
  · dsimp only; rw [m1]; omega
  · dsimp only; rw [m2]; omega
  · dsimp only; rw [m0, m1, m2]; omega
  · intro a h0 h1 h2
    simp only [Function.update_noteq h0, Function.update_noteq h1, Function.update_noteq h2]

/-- Instance of the digit decomposition: `V0 = 254` stores 2, 5, 4 at `0x300..0x302`. -/
theorem CHIP8_I_FX33_digits_witness :
    ({ with_instruction 0xF033 [254] with I := 0x300 } : CHIP8_t).wf ∧
    ∃ s', CHIP8_I_FX33 { with_instruction 0xF033 [254] with I := 0x300 } = .ok s' ∧
      s'.MM 0x300 = 2 ∧ s'.MM 0x301 = 5 ∧ s'.MM 0x302 = 4 := by
  have hw := with_instruction_wf 0xF033 [254] (by norm_num) (by decide)
  obtain ⟨s', h, h0, h1, h2, -⟩ :=
    CHIP8_I_FX33_digits { with_instruction 0xF033 [254] with I := 0x300 }
      (by decide) (by decide) (by decide)
  exact ⟨{ hw with I_lt := by norm_num }, s', h, h0, h1, h2⟩


/-! ## Decoded fields and dispatch of single opcodes -/

theorem CHIP8_decode_X (opcode : Nat) : (CHIP8_decode opcode).X = opcode / 256 % 16 := by
  have h := and_shiftLeft_shiftRight opcode 0xF 8
  have h1 : (0xF : Nat) <<< 8 = 0x0F00 := by decide
  have h2 : ∀ n : Nat, n &&& 0xF = n % 16 := fun n => Nat.and_pow_two_sub_one_eq_mod n 4
  rw [h1] at h
  simp only [CHIP8_decode, h, h2, Nat.shiftRight_eq_div_pow]
  omega

theorem CHIP8_decode_Y (opcode : Nat) : (CHIP8_decode opcode).Y = opcode / 16 % 16 := by
  have h := and_shiftLeft_shiftRight opcode 0xF 4
  have h1 : (0xF : Nat) <<< 4 = 0x00F0 := by decide
  have h2 : ∀ n : Nat, n &&& 0xF = n % 16 := fun n => Nat.and_pow_two_sub_one_eq_mod n 4
  rw [h1] at h
  simp only [CHIP8_decode, h, h2, Nat.shiftRight_eq_div_pow]
  omega

theorem CHIP8_decode_N (opcode : Nat) : (CHIP8_decode opcode).N = opcode % 16 := by
  have h : opcode &&& 0xF = opcode % 16 := Nat.and_pow_two_sub_one_eq_mod opcode 4
  simp only [CHIP8_decode, h]
  omega

theorem CHIP8_decode_NN (opcode : Nat) : (CHIP8_decode opcode).NN = opcode % 256 := by
  have h : opcode &&& 0xFF = opcode % 256 := Nat.and_pow_two_sub_one_eq_mod opcode 8
  simp only [CHIP8_decode, h]
  omega

/-- The record on which the operation body runs: `PC` advanced, instruction decoded. -/
theorem CHIP8_execute_FX55_eq (rnd opcode : Nat) (s : CHIP8_t)
    (hc : opcode / 4096 % 16 = 0xF) (hNN : opcode % 256 = 0x55) :
    CHIP8_execute_opcode rnd opcode s =
      CHIP8_I_FX55 { s with PC := (s.PC + 2) % 65536, instruction := CHIP8_decode opcode } := by
  simp [CHIP8_execute_opcode, CHIP8_dispatch, CHIP8_decode_opcode, opcode_class,
    CHIP8_decode_NN, hc, hNN]

theorem CHIP8_execute_FX65_eq (rnd opcode : Nat) (s : CHIP8_t)
    (hc : opcode / 4096 % 16 = 0xF) (hNN : opcode % 256 = 0x65) :
    CHIP8_execute_opcode rnd opcode s =
      CHIP8_I_FX65 { s with PC := (s.PC + 2) % 65536, instruction := CHIP8_decode opcode } := by
  simp [CHIP8_execute_opcode, CHIP8_dispatch, CHIP8_decode_opcode, opcode_class,
    CHIP8_decode_NN, hc, hNN]

theorem CHIP8_execute_FX0A_eq (rnd opcode : Nat) (s : CHIP8_t)
    (hc : opcode / 4096 % 16 = 0xF) (hNN : opcode % 256 = 0x0A) :
    CHIP8_execute_opcode rnd opcode s =
      CHIP8_I_FX0A { s with PC := (s.PC + 2) % 65536, instruction := CHIP8_decode opcode } := by
  simp [CHIP8_execute_opcode, CHIP8_dispatch, CHIP8_decode_opcode, opcode_class,
    CHIP8_decode_NN, hc, hNN]

theorem CHIP8_execute_6XNN_eq (rnd opcode : Nat) (s : CHIP8_t)
    (hc : opcode / 4096 % 16 = 0x6) :
    CHIP8_execute_opcode rnd opcode s =
      CHIP8_I_6XNN { s with PC := (s.PC + 2) % 65536, instruction := CHIP8_decode opcode } := by
  simp [CHIP8_execute_opcode, CHIP8_dispatch, CHIP8_decode_opcode, opcode_class, hc]

theorem CHIP8_execute_7XNN_eq (rnd opcode : Nat) (s : CHIP8_t)
    (hc : opcode / 4096 % 16 = 0x7) :
    CHIP8_execute_opcode rnd opcode s =
      CHIP8_I_7XNN { s with PC := (s.PC + 2) % 65536, instruction := CHIP8_decode opcode } := by
  simp [CHIP8_execute_opcode, CHIP8_dispatch, CHIP8_decode_opcode, opcode_class, hc]

/-- Effect of the loop of `CHIP8_I_FX55` on registers `i .. i+k-1` when the target bytes lie in
memory. -/
theorem CHIP8_I_FX55_loop_spec :
    ∀ (k i : Nat) (s : CHIP8_t), i + k ≤ 16 → s.I + i + k ≤ 4096 →
      ∃ s', CHIP8_I_FX55_loop k i s = .ok s' ∧
        s' = { s with MM := s'.MM } ∧
        (∀ j, i ≤ j → j < i + k → s'.MM (s.I + j) = s.V j % 256) ∧
        (∀ a, (∀ j, i ≤ j → j < i + k → a ≠ s.I + j) → s'.MM a = s.MM a) := by
  intro k
  induction k with
  | zero =>
    intro i s _ _
    refine ⟨s, rfl, rfl, ?_, fun _ _ => rfl⟩
    intro j h1 h2
    omega
  | succ k ih =>
    intro i s hi hI
    obtain ⟨s', hrun, hframe, hin, hout⟩ :=
      ih (i + 1) { s with MM := Function.update s.MM (s.I + i) (s.V i % 256) }
        (by omega) (by simp only; omega)
    simp only at hframe hin hout
    refine ⟨s', ?_, hframe, ?_, ?_⟩
    · rw [CHIP8_I_FX55_loop]
      simp only [readV_ok _ _ (by omega : i < 16), writeMM_ok _ _ _ (by omega : s.I + i < 4096),
        ok_bind]
      exact hrun
    · intro j h1 h2
      rcases Nat.eq_or_lt_of_le h1 with heq | hlt
      · subst heq
        rw [hout _ (by intro j' a _; omega), Function.update_same]
      · exact hin j (by omega) (by omega)
    · intro a h
      rw [hout a (fun j h1 h2 => h j (by omega) (by omega)),
        Function.update_noteq (h i (le_refl i) (by omega))]

/-- Effect of the loop of `CHIP8_I_FX65` on registers `i .. i+k-1` when the source bytes lie in
memory. -/
theorem CHIP8_I_FX65_loop_spec :
    ∀ (k i : Nat) (s : CHIP8_t), i + k ≤ 16 → s.I + i + k ≤ 4096 →
      ∃ s', CHIP8_I_FX65_loop k i s = .ok s' ∧
        s' = { s with V := s'.V } ∧
        (∀ j, i ≤ j → j < i + k → s'.V j = s.MM (s.I + j) % 256) ∧
        (∀ j, ¬ (i ≤ j ∧ j < i + k) → s'.V j = s.V j) := by
  intro k
  induction k with
  | zero =>
    intro i s _ _
    refine ⟨s, rfl, rfl, ?_, fun _ _ => rfl⟩
    intro j h1 h2
    omega
  | succ k ih =>
    intro i s hi hI
    obtain ⟨s', hrun, hframe, hin, hout⟩ :=
      ih (i + 1) { s with V := Function.update s.V i (s.MM (s.I + i) % 256) }
        (by omega) (by simp only; omega)
    simp only at hframe hin hout
    refine ⟨s', ?_, hframe, ?_, ?_⟩
    · rw [CHIP8_I_FX65_loop]
      simp only [readMM_ok _ _ (by omega : s.I + i < 4096), writeV_ok _ _ _ (by omega : i < 16),
        ok_bind]
      exact hrun
    · intro j h1 h2
      rcases Nat.eq_or_lt_of_le h1 with heq | hlt
      · subst heq
        rw [hout _ (by omega), Function.update_same]
      · exact hin j (by omega) (by omega)
    · intro j h
      rw [hout j (by omega), Function.update_noteq (by omega)]

theorem CHIP8_execute_FX55 (rnd X : Nat) (s : CHIP8_t) (hX : X < 16) :
    CHIP8_execute_opcode rnd (0xF055 + 0x100 * X) s =
      CHIP8_I_FX55_loop (X + 1) 0 { s with
        PC := (s.PC + 2) % 65536
        instruction := CHIP8_decode (0xF055 + 0x100 * X) } := by
  have hx : (CHIP8_decode (0xF055 + 0x100 * X)).X = X := by rw [CHIP8_decode_X]; omega
  rw [CHIP8_execute_FX55_eq rnd _ s (by omega) (by omega), CHIP8_I_FX55]
  simp only [hx]

theorem CHIP8_execute_FX65 (rnd X : Nat) (s : CHIP8_t) (hX : X < 16) :
    CHIP8_execute_opcode rnd (0xF065 + 0x100 * X) s =
      CHIP8_I_FX65_loop (X + 1) 0 { s with
        PC := (s.PC + 2) % 65536
        instruction := CHIP8_decode (0xF065 + 0x100 * X) } := by
  have hx : (CHIP8_decode (0xF065 + 0x100 * X)).X = X := by rw [CHIP8_decode_X]; omega
  rw [CHIP8_execute_FX65_eq rnd _ s (by omega) (by omega), CHIP8_I_FX65]
  simp only [hx]

/-- C11: for every `X` in 0..15 and every record with 8-bit registers and `I + X < 4096`, the
step on `FX55` followed by the step on `FX65` with the same `X` leaves every register equal to
its value before, with `MM[I+i] = V[i]` for all `i ≤ X`, memory outside `I..I+X` unchanged and
`I` unchanged by both steps. -/
theorem CHIP8_FX55_FX65_roundtrip (rnd X : Nat) (s : CHIP8_t) (hX : X < 16)
    (hI : s.I + X < 4096) (hV : ∀ i, i ≤ X → s.V i < 256) :
    ∃ s1 s2, CHIP8_execute_opcode rnd (0xF055 + 0x100 * X) s = .ok s1 ∧
      CHIP8_execute_opcode rnd (0xF065 + 0x100 * X) s1 = .ok s2 ∧
      (∀ i, s2.V i = s.V i) ∧
      (∀ i, i ≤ X → s2.MM (s.I + i) = s.V i) ∧
      (∀ a, (a < s.I ∨ s.I + X < a) → s2.MM a = s.MM a) ∧
      s1.I = s.I ∧ s2.I = s.I := by
  obtain ⟨s1, hrun1, hframe1, hin1, hout1⟩ :=
    CHIP8_I_FX55_loop_spec (X + 1) 0
      { s with PC := (s.PC + 2) % 65536, instruction := CHIP8_decode (0xF055 + 0x100 * X) }
      (by omega) (by simp only; omega)
  simp only at hframe1 hin1 hout1
  have hI1 : s1.I = s.I := (congrArg CHIP8_t.I hframe1 : _)
  have hV1 : s1.V = s.V := (congrArg CHIP8_t.V hframe1 : _)
  obtain ⟨s2, hrun2, hframe2, hin2, hout2⟩ :=
    CHIP8_I_FX65_loop_spec (X + 1) 0
      { s1 with PC := (s1.PC + 2) % 65536, instruction := CHIP8_decode (0xF065 + 0x100 * X) }
      (by omega) (by simp only; omega)
  simp only at hframe2 hin2 hout2
  have hI2 : s2.I = s1.I := (congrArg CHIP8_t.I hframe2 : _)
  have hMM2 : s2.MM = s1.MM := (congrArg CHIP8_t.MM hframe2 : _)
  refine ⟨s1, s2, by rw [CHIP8_execute_FX55 rnd X s hX]; exact hrun1,
    by rw [CHIP8_execute_FX65 rnd X s1 hX]; exact hrun2, ?_, ?_, ?_, hI1, by rw [hI2, hI1]⟩
  · intro i
    by_cases hi : i ≤ X
    · have h256 := hV i hi
      rw [hin2 i (Nat.zero_le i) (by omega), hI1, hin1 i (Nat.zero_le i) (by omega)]
      omega
    · rw [hout2 i (by omega), hV1]
  · intro i hi
    have h256 := hV i hi
    rw [hMM2, hin1 i (Nat.zero_le i) (by omega)]
    omega
  · intro a ha
    rw [hMM2, hout1 a (by intro j _ _; omega)]

/-- Instance of the store/load round trip with `X = 2`, `I = 0x300`, `V0..V2 = 11, 22, 33`. -/
theorem CHIP8_FX55_FX65_roundtrip_witness :
    ∃ s1 s2, CHIP8_execute_opcode 0 0xF255 { with_opcode 0xF255 [11, 22, 33] with I := 0x300 }
        = .ok s1 ∧
      CHIP8_execute_opcode 0 0xF265 s1 = .ok s2 ∧
      s2.V 0 = 11 ∧ s2.V 1 = 22 ∧ s2.V 2 = 33 ∧
      s2.MM 0x300 = 11 ∧ s2.MM 0x301 = 22 ∧ s2.MM 0x302 = 33 ∧ s2.I = 0x300 := by
  obtain ⟨s1, s2, h1, h2, hV, hM, -, -, hI⟩ :=
    CHIP8_FX55_FX65_roundtrip 0 2 { with_opcode 0xF255 [11, 22, 33] with I := 0x300 }
      (by decide) (by decide) (by decide)
  exact ⟨s1, s2, h1, h2, hV 0, hV 1, hV 2, hM 0 (by decide), hM 1 (by decide),
    hM 2 (by decide), hI⟩

/-! ## Fetch -/

theorem shiftLeft_8_or (hi lo : Nat) (hlo : lo < 256) : (hi <<< 8) ||| lo = hi * 256 + lo := by
  have h := Nat.mul_add_lt_is_or (show lo < 2 ^ 8 by omega) hi
  rw [Nat.shiftLeft_eq, Nat.mul_comm hi (2 ^ 8), ← h]

/-- The fetch reads the byte at `PC` as the high byte and the byte at `PC + 1` as the low byte
of the opcode. -/
theorem CHIP8_fetch_bytes (s : CHIP8_t) (hPC : s.PC + 1 < 4096) (hhi : s.MM s.PC < 256)
    (hlo : s.MM (s.PC + 1) < 256) :
    CHIP8_fetch s = .ok (s.MM s.PC * 256 + s.MM (s.PC + 1)) := by
  simp only [CHIP8_fetch, readMM_ok _ _ (by omega : s.PC < 4096), readMM_ok _ _ hPC, ok_bind,
    shiftLeft_8_or _ _ hlo]
  rw [Nat.mod_eq_of_lt (by omega)]

/-! ## Key wait -/

theorem CHIP8_I_FX0A_scan_none :
    ∀ (k i : Nat) (s : CHIP8_t), i + k ≤ 16 → (∀ j, j < 16 → s.keypad j = false) →
      CHIP8_I_FX0A_scan k i s = .ok s := by
  intro k
  induction k with
  | zero =>
    intro i s _ _
    rfl
  | succ k ih =>
    intro i s hi hkeys
    rw [CHIP8_I_FX0A_scan]
    simp only [readKeypad, (by omega : i < 16), if_true, ok_bind, hkeys i (by omega)]
    exact ih (i + 1) s (by omega) hkeys

theorem CHIP8_I_FX0A_scan_some :
    ∀ (k i : Nat) (s : CHIP8_t), i + k ≤ 16 → s.instruction.X < 16 →
      (∃ j, i ≤ j ∧ j < i + k ∧ s.keypad j = true) →
      CHIP8_I_FX0A_scan k i s = .ok { s with
        V := Function.update s.V s.instruction.X 1
        PC := (s.PC + 2) % 65536 } := by
  intro k
  induction k with
  | zero =>
    intro i s _ _ h
    obtain ⟨j, h1, h2, -⟩ := h
    omega
  | succ k ih =>
    intro i s hi hX hkeys
    rw [CHIP8_I_FX0A_scan]
    cases hk : s.keypad i with
    | true =>
      simp only [readKeypad, (by omega : i < 16), if_true, ok_bind, hk, writeV_ok _ _ _ hX]
    | false =>
      simp only [readKeypad, (by omega : i < 16), if_true, ok_bind, hk]
      apply ih (i + 1) s (by omega) hX
      obtain ⟨j, h1, h2, h3⟩ := hkeys
      refine ⟨j, ?_, by omega, h3⟩
      rcases Nat.eq_or_lt_of_le h1 with heq | hlt
      · subst heq
        rw [hk] at h3
        cases h3
      · omega

theorem CHIP8_emulate_FX0A (rnd X : Nat) (s : CHIP8_t) (hX : X < 16) (hPC : s.PC + 1 < 4096)
    (hhi : s.MM s.PC = 0xF0 + X) (hlo : s.MM (s.PC + 1) = 0x0A) :
    CHIP8_emulate_instruction rnd s =
      CHIP8_I_FX0A_scan 16 0 { s with instruction := CHIP8_decode (0xF00A + 0x100 * X) } := by
  have hf : CHIP8_fetch s = .ok (0xF00A + 0x100 * X) := by
    rw [CHIP8_fetch_bytes s hPC (by omega) (by omega), hhi, hlo]
    congr 1
    omega
  have hw : wrapSub 16 ((s.PC + 2) % 65536) 2 = s.PC := by
    unfold wrapSub
    omega
  simp only [CHIP8_emulate_instruction, hf, ok_bind]
  rw [CHIP8_execute_FX0A_eq rnd _ s (by omega) (by omega), CHIP8_I_FX0A]
  simp only [hw]

theorem CHIP8_emulate_FX0A_none (rnd X : Nat) (s : CHIP8_t) (hX : X < 16)
    (hPC : s.PC + 1 < 4096) (hhi : s.MM s.PC = 0xF0 + X) (hlo : s.MM (s.PC + 1) = 0x0A)
    (hkeys : ∀ j, j < 16 → s.keypad j = false) :
    CHIP8_emulate_instruction rnd s =
      .ok { s with instruction := CHIP8_decode (0xF00A + 0x100 * X) } := by
  rw [CHIP8_emulate_FX0A rnd X s hX hPC hhi hlo]
  exact CHIP8_I_FX0A_scan_none 16 0
    { s with instruction := CHIP8_decode (0xF00A + 0x100 * X) } (by omega) hkeys

theorem CHIP8_emulate_FX0A_some (rnd X : Nat) (s : CHIP8_t) (hX : X < 16)
    (hPC : s.PC + 1 < 4096) (hhi : s.MM s.PC = 0xF0 + X) (hlo : s.MM (s.PC + 1) = 0x0A)
    (hkeys : ∃ j, j < 16 ∧ s.keypad j = true) :
    CHIP8_emulate_instruction rnd s = .ok { s with
      instruction := CHIP8_decode (0xF00A + 0x100 * X)
      V := Function.update s.V X 1
      PC := s.PC + 2 } := by
  have hx : (CHIP8_decode (0xF00A + 0x100 * X)).X = X := by rw [CHIP8_decode_X]; omega
  obtain ⟨j, hj, hk⟩ := hkeys
  rw [CHIP8_emulate_FX0A rnd X s hX hPC hhi hlo,
    CHIP8_I_FX0A_scan_some 16 0 { s with instruction := CHIP8_decode (0xF00A + 0x100 * X) }
      (by omega) (by simp only [hx]; exact hX) ⟨j, Nat.zero_le j, by omega, hk⟩]
  simp only [hx]
  rw [Nat.mod_eq_of_lt (by omega)]

theorem CHIP8_emulate_FX0A_waiting (rnd : Nat → Nat) (X : Nat) (s : CHIP8_t) (hX : X < 16)
    (hPC : s.PC + 1 < 4096) (hhi : s.MM s.PC = 0xF0 + X) (hlo : s.MM (s.PC + 1) = 0x0A)
    (hkeys : ∀ j, j < 16 → s.keypad j = false) :
    ∀ n i, CHIP8_emulate_instructions rnd n i
        { s with instruction := CHIP8_decode (0xF00A + 0x100 * X) } =
      .ok { s with instruction := CHIP8_decode (0xF00A + 0x100 * X) } := by
  intro n
  induction n with
  | zero =>
    intro i
    rfl
  | succ n ih =>
    intro i
    have h2 := CHIP8_emulate_FX0A_none (rnd i) X
      { s with instruction := CHIP8_decode (0xF00A + 0x100 * X) } hX hPC hhi hlo hkeys
    simp only at h2
    rw [CHIP8_emulate_instructions]
    simp only [h2, ok_bind]
    exact ih (i + 1)

/-- C12: for every record whose `PC = p` points at an `FX0A` opcode, one full instruction step
gives: with no key pressed, the same record up to the decoded instruction view, so `PC = p`
and registers, `I`, memory, stack, `SP`, timers and display are unchanged, and any number of
repeated steps stay there; with a key pressed, `PC = p + 2` and `V[X] = 1`, the pressed value of
the key found by the ascending scan, with nothing else changed. -/
theorem CHIP8_FX0A_blocks (rnd : Nat → Nat) (X : Nat) (s : CHIP8_t) (hX : X < 16)
    (hPC : s.PC + 1 < 4096) (hhi : s.MM s.PC = 0xF0 + X) (hlo : s.MM (s.PC + 1) = 0x0A) :
    ((∀ j, j < 16 → s.keypad j = false) →
      ∀ n i, CHIP8_emulate_instructions rnd (n + 1) i s =
        .ok { s with instruction := CHIP8_decode (0xF00A + 0x100 * X) }) ∧
    ((∃ j, j < 16 ∧ s.keypad j = true) →
      ∀ i, CHIP8_emulate_instructions rnd 1 i s = .ok { s with
        instruction := CHIP8_decode (0xF00A + 0x100 * X)
        V := Function.update s.V X 1
        PC := s.PC + 2 }) := by
  constructor
  · intro hkeys n i
    rw [CHIP8_emulate_instructions]
    simp only [CHIP8_emulate_FX0A_none (rnd i) X s hX hPC hhi hlo hkeys, ok_bind]
    exact CHIP8_emulate_FX0A_waiting rnd X s hX hPC hhi hlo hkeys n (i + 1)
  · intro hkeys i
    simp only [CHIP8_emulate_instructions,
      CHIP8_emulate_FX0A_some (rnd i) X s hX hPC hhi hlo hkeys, ok_bind]

/-- Instance of the key wait on opcode `F20A`: with no key pressed every number of steps leaves
the record waiting at `0x200`; with key `0x7` pressed one step gives `V2 = 1`, `PC = 0x202`. -/
theorem CHIP8_FX0A_blocks_witness :
    (∀ n, CHIP8_emulate_instructions (fun _ => 0) (n + 1) 0 (key_wait_example []) =
      .ok { key_wait_example [] with instruction := CHIP8_decode 0xF20A }) ∧
    CHIP8_emulate_instructions (fun _ => 0) 1 0 (key_wait_example [7]) =
      .ok { key_wait_example [7] with
        instruction := CHIP8_decode 0xF20A
        V := Function.update (key_wait_example [7]).V 2 1
        PC := 0x202 } := by
  have h0 := CHIP8_FX0A_blocks (fun _ => 0) 2 (key_wait_example []) (by decide) (by decide)
    (by decide) (by decide)
  have h7 := CHIP8_FX0A_blocks (fun _ => 0) 2 (key_wait_example [7]) (by decide) (by decide)
    (by decide) (by decide)
  exact ⟨fun n => h0.1 (by decide) n 0, h7.2 ⟨7, by decide, by decide⟩ 0⟩

/-- C13: `FX0A` stores the pressed value of the key, 1, not its index. With only key `0x7`
pressed the step on `F20A` leaves `V2 = 1`, where the key code would be 7; with only key `0xF`
pressed it leaves `V2 = 1` as well. -/
theorem CHIP8_FX0A_stores_pressed_value :
    (∃ s', CHIP8_emulate_instruction 0 (key_wait_example [7]) = .ok s' ∧
      (∀ j, j < 16 → ((key_wait_example [7]).keypad j = true ↔ j = 7)) ∧
      s'.instruction.X = 2 ∧ s'.V 2 = 1 ∧ s'.PC = 0x202) ∧
    (∃ s', CHIP8_emulate_instruction 0 (key_wait_example [0xF]) = .ok s' ∧
      (∀ j, j < 16 → ((key_wait_example [0xF]).keypad j = true ↔ j = 0xF)) ∧
      s'.instruction.X = 2 ∧ s'.V 2 = 1 ∧ s'.PC = 0x202) := by
  refine ⟨⟨_, rfl, by decide, by decide, by decide, by decide⟩,
    ⟨_, rfl, by decide, by decide, by decide, by decide⟩⟩

/-! ## Unrecognized opcodes -/

theorem CHIP8_fetch_PC (s : CHIP8_t) (opcode : Nat) (hf : CHIP8_fetch s = .ok opcode) :
    s.PC + 1 < 4096 := by
  simp only [CHIP8_fetch, bind_eq_ok_iff, readMM_eq_ok_iff] at hf
  obtain ⟨hi, -, lo, ⟨h, -⟩, -⟩ := hf
  exact h

/-- C15: for every fetched opcode `8XYN` with `N` not in {0,..,7,0xE}, every `EXNN` with `NN`
not in {0x9E, 0xA1} and every `FXNN` with `NN` not in {0x07,0x0A,0x15,0x18,0x1E,0x29,0x33,0x55,
0x65}, one instruction step changes only `PC`, to `PC + 2`, and the decoded instruction view;
registers, `I`, memory, stack, `SP`, timers, display and keypad are unchanged. -/
theorem CHIP8_unrecognized_noop (rnd opcode : Nat) (s : CHIP8_t)
    (hf : CHIP8_fetch s = .ok opcode)
    (hop : (opcode / 4096 % 16 = 0x8 ∧ opcode % 16 ∉ [0x0, 0x1, 0x2, 0x3, 0x4, 0x5, 0x6, 0x7, 0xE]) ∨
      (opcode / 4096 % 16 = 0xE ∧ opcode % 256 ∉ [0x9E, 0xA1]) ∨
      (opcode / 4096 % 16 = 0xF ∧
        opcode % 256 ∉ [0x07, 0x0A, 0x15, 0x18, 0x1E, 0x29, 0x33, 0x55, 0x65])) :
    CHIP8_emulate_instruction rnd s =
      .ok { s with PC := s.PC + 2, instruction := CHIP8_decode opcode } := by
  have hPC := CHIP8_fetch_PC s opcode hf
  have hmod : (s.PC + 2) % 65536 = s.PC + 2 := by omega
  simp only [List.mem_cons, List.mem_singleton, List.not_mem_nil, not_or, or_false] at hop
  rcases hop with ⟨hc, h⟩ | ⟨hc, h⟩ | ⟨hc, h⟩
  · simp [CHIP8_emulate_instruction, hf, ok_bind, CHIP8_execute_opcode, CHIP8_dispatch,
      CHIP8_decode_opcode, opcode_class, CHIP8_decode_N, hc, h, hmod]
  · simp [CHIP8_emulate_instruction, hf, ok_bind, CHIP8_execute_opcode, CHIP8_dispatch,
      CHIP8_decode_opcode, opcode_class, CHIP8_decode_NN, hc, h, hmod]
  · simp [CHIP8_emulate_instruction, hf, ok_bind, CHIP8_execute_opcode, CHIP8_dispatch,
      CHIP8_decode_opcode, opcode_class, CHIP8_decode_NN, hc, h, hmod]

/-- Instance of the no-op on the unrecognized opcode `F2FF`. -/
theorem CHIP8_unrecognized_noop_witness :
    CHIP8_emulate_instruction 0 (with_opcode 0xF2FF [1, 2, 3]) =
      .ok { with_opcode 0xF2FF [1, 2, 3] with PC := 0x202, instruction := CHIP8_decode 0xF2FF } :=
  CHIP8_unrecognized_noop 0 0xF2FF (with_opcode 0xF2FF [1, 2, 3]) rfl
    (Or.inr (Or.inr ⟨by decide, by decide⟩))

/-! ## Fetch order -/

theorem or_0x60 (X : Nat) (hX : X < 16) : 0x60 ||| X = 0x60 + X := by
  have h := Nat.mul_add_lt_is_or (show X < 2 ^ 4 by omega) 6
  exact h.symm

theorem or_0x70 (X : Nat) (hX : X < 16) : 0x70 ||| X = 0x70 + X := by
  have h := Nat.mul_add_lt_is_or (show X < 2 ^ 4 by omega) 7
  exact h.symm

/-- C16: the fetch is big-endian and advances `PC` before the operation. For every record with
`PC = p ≤ 0xFFC`, every register `X` and all bytes `a`, `b`, if `MM[p..p+3]` holds `0x60|X`, `a`,
`0x70|X`, `b`, then two instruction steps leave `V[X] = (a + b) mod 256` and `PC = p + 4` and
change nothing else but the decoded instruction view. Instance: the bytes `60 05 70 03` give
`V0 = 8`. -/
theorem CHIP8_fetch_big_endian (rnd : Nat → Nat) (i X a b : Nat) (s : CHIP8_t) (hX : X < 16)
    (ha : a < 256) (hb : b < 256) (hp : s.PC ≤ 0xFFC) (h0 : s.MM s.PC = 0x60 ||| X)
    (h1 : s.MM (s.PC + 1) = a) (h2 : s.MM (s.PC + 2) = 0x70 ||| X)
    (h3 : s.MM (s.PC + 3) = b) :
    CHIP8_emulate_instructions rnd 2 i s = .ok { s with
      PC := s.PC + 4
      V := Function.update s.V X ((a + b) % 256)
      instruction := CHIP8_decode (0x7000 + 0x100 * X + b) } ∧
    (∃ s', CHIP8_emulate_instructions rnd 2 i load_add_example = .ok s' ∧ s'.V 0 = 8) := by
  rw [or_0x60 X hX] at h0
  rw [or_0x70 X hX] at h2
  constructor
  · have hf1 : CHIP8_fetch s = .ok (0x6000 + 0x100 * X + a) := by
      rw [CHIP8_fetch_bytes s (by omega) (by omega) (by omega), h0, h1]
      congr 1
      omega
    have hx1 : (CHIP8_decode (0x6000 + 0x100 * X + a)).X = X := by rw [CHIP8_decode_X]; omega
    have hn1 : (CHIP8_decode (0x6000 + 0x100 * X + a)).NN = a := by rw [CHIP8_decode_NN]; omega
    have hx2 : (CHIP8_decode (0x7000 + 0x100 * X + b)).X = X := by rw [CHIP8_decode_X]; omega
    have hn2 : (CHIP8_decode (0x7000 + 0x100 * X + b)).NN = b := by rw [CHIP8_decode_NN]; omega
    have hm1 : (s.PC + 2) % 65536 = s.PC + 2 := by omega
    have hf2 : CHIP8_fetch { s with
        PC := s.PC + 2
        instruction := CHIP8_decode (0x6000 + 0x100 * X + a)
        V := Function.update s.V X (a % 256) } = .ok (0x7000 + 0x100 * X + b) := by
      have h3' : s.MM (s.PC + 2 + 1) = b := by
        rw [show s.PC + 2 + 1 = s.PC + 3 by omega]
        exact h3
      rw [CHIP8_fetch_bytes _ (by simp only; omega) (by simp only; omega)
        (by simp only; omega)]
      simp only [h2, h3']
      congr 1
      omega
    have hm2 : (s.PC + 2 + 2) % 65536 = s.PC + 4 := by omega
    have hab : (a % 256 + b) % 256 = (a + b) % 256 := by omega
    simp only [CHIP8_emulate_instructions, CHIP8_emulate_instruction, hf1, ok_bind,
      CHIP8_execute_6XNN_eq (rnd i) _ s (by omega : (0x6000 + 0x100 * X + a) / 4096 % 16 = 0x6),
      CHIP8_I_6XNN, hx1, hn1, writeV_ok _ _ _ hX, hm1, hf2]
    rw [CHIP8_execute_7XNN_eq (rnd (i + 1)) _ _
      (by omega : (0x7000 + 0x100 * X + b) / 4096 % 16 = 0x7)]
    simp only [CHIP8_I_7XNN, hx2, hn2, readV_ok _ _ hX, writeV_ok _ _ _ hX, ok_bind, hm2,
      Function.update_same, Function.update_idem, hab]
  · exact ⟨_, rfl, by decide⟩

/-- Instance of the two-step program on `load_add_example`: `V0 = 8` and `PC = 0x204`. -/
theorem CHIP8_fetch_big_endian_witness :
    CHIP8_emulate_instructions (fun _ => 0) 2 0 load_add_example = .ok { load_add_example with
      PC := 0x204
      V := Function.update load_add_example.V 0 8
      instruction := CHIP8_decode 0x7003 } :=
  (CHIP8_fetch_big_endian (fun _ => 0) 0 0 5 3 load_add_example (by decide) (by decide)
    (by decide) (by decide) (by decide) (by decide) (by decide) (by decide)).1

/-! ## Clear screen -/

/-- C19: for every record, `00E0` leaves all 2048 display cells false and changes nothing else:
registers, `I`, memory, stack, `SP`, timers and keypad keep their values; the instruction step
on opcode `00E0` reaches this operation. -/
theorem CHIP8_I_00E0_clears (rnd : Nat) (s : CHIP8_t) :
    (∃ s', CHIP8_I_00E0 s = .ok s' ∧
      (∀ i, i < 2048 → s'.display i = false) ∧
      s' = { s with display := s'.display }) ∧
    CHIP8_execute_opcode rnd 0x00E0 s =
      CHIP8_I_00E0 { s with PC := (s.PC + 2) % 65536, instruction := CHIP8_decode 0x00E0 } := by
  constructor
  · refine ⟨_, rfl, ?_, rfl⟩
    intro i hi
    simp only [DISPLAY_WIDTH, DISPLAY_HEIGHT]
    rw [if_pos (by omega)]
  · have hc : (0x00E0 : Nat) / 4096 % 16 = 0 := by decide
    have hN : (CHIP8_decode 0x00E0).NNN = 0x0E0 := by decide
    simp [CHIP8_execute_opcode, CHIP8_dispatch, CHIP8_decode_opcode, opcode_class, hN]

/-! ## Clock rate -/

theorem CHIP8_I_DXYN_cols_clock_rate (X Y y : Nat) :
    ∀ (k x : Nat) (s s' : CHIP8_t), CHIP8_I_DXYN_cols X Y y k x s = .ok s' → s'.clock_rate = s.clock_rate := by
  intro k
  induction k with
  | zero =>
    intro x s s' h
    simp only [CHIP8_I_DXYN_cols, Except.ok.injEq] at h
    rw [← h]
  | succ k ih =>
    intro x s s' h
    rw [CHIP8_I_DXYN_cols] at h
    split_ifs at h with hx
    · simp only [Except.ok.injEq] at h
      rw [← h]
    · simp only [bind_eq_ok_iff, readMM_eq_ok_iff, readDisplay_eq_ok_iff,
        writeDisplay_eq_ok_iff] at h
      obtain ⟨b, -, d, -, ⟨s1, p⟩, hp, s2, ⟨-, hs2⟩, hrec⟩ := h
      have h1 : s1.clock_rate = s.clock_rate := by
        split_ifs at hp
        all_goals first
          | (simp only [pure, Except.pure, Except.ok.injEq, Prod.mk.injEq] at hp
             rw [← hp.1])
          | (simp only [bind_eq_ok_iff, writeV_eq_ok_iff] at hp
             obtain ⟨t, ⟨-, ht⟩, hp⟩ := hp
             simp only [pure, Except.pure, Except.ok.injEq, Prod.mk.injEq] at hp
             rw [← hp.1, ← ht])
      rw [ih _ _ _ hrec, ← hs2]
      exact h1

theorem CHIP8_I_DXYN_rows_clock_rate (X Y : Nat) :
    ∀ (k y : Nat) (s s' : CHIP8_t), CHIP8_I_DXYN_rows X Y k y s = .ok s' → s'.clock_rate = s.clock_rate := by
  intro k
  induction k with
  | zero =>
    intro y s s' h
    simp only [CHIP8_I_DXYN_rows, Except.ok.injEq] at h
    rw [← h]
  | succ k ih =>
    intro y s s' h
    rw [CHIP8_I_DXYN_rows] at h
    split_ifs at h with hy
    · simp only [Except.ok.injEq] at h
      rw [← h]
    · simp only [bind_eq_ok_iff] at h
      obtain ⟨s1, h1, hrec⟩ := h
      rw [ih _ _ _ hrec, CHIP8_I_DXYN_cols_clock_rate X Y y _ _ _ _ h1]

theorem CHIP8_I_FX0A_scan_clock_rate :
    ∀ (k i : Nat) (s s' : CHIP8_t), CHIP8_I_FX0A_scan k i s = .ok s' → s'.clock_rate = s.clock_rate := by
  intro k
  induction k with
  | zero =>
    intro i s s' h
    simp only [CHIP8_I_FX0A_scan, Except.ok.injEq] at h
    rw [← h]
  | succ k ih =>
    intro i s s' h
    rw [CHIP8_I_FX0A_scan] at h
    simp only [bind_eq_ok_iff, readKeypad_eq_ok_iff] at h
    obtain ⟨key, -, h⟩ := h
    split_ifs at h
    · simp only [bind_eq_ok_iff, readKeypad_eq_ok_iff, writeV_eq_ok_iff, Except.ok.injEq] at h
      obtain ⟨key1, -, s1, ⟨-, hs1⟩, h⟩ := h
      rw [← h, ← hs1]
    · exact ih _ _ _ h

theorem CHIP8_I_FX55_loop_clock_rate :
    ∀ (k i : Nat) (s s' : CHIP8_t), CHIP8_I_FX55_loop k i s = .ok s' → s'.clock_rate = s.clock_rate := by
  intro k
  induction k with
  | zero =>
    intro i s s' h
    simp only [CHIP8_I_FX55_loop, Except.ok.injEq] at h
    rw [← h]
  | succ k ih =>
    intro i s s' h
    rw [CHIP8_I_FX55_loop] at h
    simp only [bind_eq_ok_iff, readV_eq_ok_iff, writeMM_eq_ok_iff] at h
    obtain ⟨vi, -, s1, ⟨-, hs1⟩, h⟩ := h
    rw [ih _ _ _ h, ← hs1]

theorem CHIP8_I_FX65_loop_clock_rate :
    ∀ (k i : Nat) (s s' : CHIP8_t), CHIP8_I_FX65_loop k i s = .ok s' → s'.clock_rate = s.clock_rate := by
  intro k
  induction k with
  | zero =>
    intro i s s' h
    simp only [CHIP8_I_FX65_loop, Except.ok.injEq] at h
    rw [← h]
  | succ k ih =>
    intro i s s' h
    rw [CHIP8_I_FX65_loop] at h
    simp only [bind_eq_ok_iff, readMM_eq_ok_iff, writeV_eq_ok_iff] at h
    obtain ⟨b, -, s1, ⟨-, hs1⟩, h⟩ := h
    rw [ih _ _ _ h, ← hs1]

theorem CHIP8_I_DXYN_clock_rate (s s' : CHIP8_t) (h : CHIP8_I_DXYN s = .ok s') : s'.clock_rate = s.clock_rate := by
  simp only [CHIP8_I_DXYN, bind_eq_ok_iff, readV_eq_ok_iff, writeV_eq_ok_iff] at h
  obtain ⟨vx, -, vy, -, s1, ⟨-, hs1⟩, h⟩ := h
  rw [CHIP8_I_DXYN_rows_clock_rate _ _ _ _ _ _ h, ← hs1]

theorem CHIP8_I_0NNN_clock_rate (s s' : CHIP8_t) (h : CHIP8_I_0NNN s = .ok s') :
    s'.clock_rate = s.clock_rate := by
  simp only [CHIP8_I_0NNN, bind_eq_ok_iff, readV_eq_ok_iff, writeV_eq_ok_iff, writeMM_eq_ok_iff,
    readKeypad_eq_ok_iff] at h
  aesop

theorem CHIP8_I_00E0_clock_rate (s s' : CHIP8_t) (h : CHIP8_I_00E0 s = .ok s') :
    s'.clock_rate = s.clock_rate := by
  simp only [CHIP8_I_00E0, bind_eq_ok_iff, readV_eq_ok_iff, writeV_eq_ok_iff, writeMM_eq_ok_iff,
    readKeypad_eq_ok_iff] at h
  aesop

theorem CHIP8_I_1NNN_clock_rate (s s' : CHIP8_t) (h : CHIP8_I_1NNN s = .ok s') :
    s'.clock_rate = s.clock_rate := by
  simp only [CHIP8_I_1NNN, bind_eq_ok_iff, readV_eq_ok_iff, writeV_eq_ok_iff, writeMM_eq_ok_iff,
    readKeypad_eq_ok_iff] at h
  aesop

theorem CHIP8_I_3XNN_clock_rate (s s' : CHIP8_t) (h : CHIP8_I_3XNN s = .ok s') :
    s'.clock_rate = s.clock_rate := by
  simp only [CHIP8_I_3XNN, bind_eq_ok_iff, readV_eq_ok_iff, writeV_eq_ok_iff, writeMM_eq_ok_iff,
    readKeypad_eq_ok_iff] at h
  aesop

theorem CHIP8_I_4XNN_clock_rate (s s' : CHIP8_t) (h : CHIP8_I_4XNN s = .ok s') :
    s'.clock_rate = s.clock_rate := by
  simp only [CHIP8_I_4XNN, bind_eq_ok_iff, readV_eq_ok_iff, writeV_eq_ok_iff, writeMM_eq_ok_iff,
    readKeypad_eq_ok_iff] at h
  aesop

theorem CHIP8_I_5XY0_clock_rate (s s' : CHIP8_t) (h : CHIP8_I_5XY0 s = .ok s') :
    s'.clock_rate = s.clock_rate := by
  simp only [CHIP8_I_5XY0, bind_eq_ok_iff, readV_eq_ok_iff, writeV_eq_ok_iff, writeMM_eq_ok_iff,
    readKeypad_eq_ok_iff] at h
  aesop

theorem CHIP8_I_6XNN_clock_rate (s s' : CHIP8_t) (h : CHIP8_I_6XNN s = .ok s') :
    s'.clock_rate = s.clock_rate := by
  simp only [CHIP8_I_6XNN, bind_eq_ok_iff, readV_eq_ok_iff, writeV_eq_ok_iff, writeMM_eq_ok_iff,
    readKeypad_eq_ok_iff] at h
  aesop

theorem CHIP8_I_7XNN_clock_rate (s s' : CHIP8_t) (h : CHIP8_I_7XNN s = .ok s') :
    s'.clock_rate = s.clock_rate := by
  simp only [CHIP8_I_7XNN, bind_eq_ok_iff, readV_eq_ok_iff, writeV_eq_ok_iff, writeMM_eq_ok_iff,
    readKeypad_eq_ok_iff] at h
  aesop

theorem CHIP8_I_8XY0_clock_rate (s s' : CHIP8_t) (h : CHIP8_I_8XY0 s = .ok s') :
    s'.clock_rate = s.clock_rate := by
  simp only [CHIP8_I_8XY0, bind_eq_ok_iff, readV_eq_ok_iff, writeV_eq_ok_iff, writeMM_eq_ok_iff,
    readKeypad_eq_ok_iff] at h
  aesop

theorem CHIP8_I_8XY1_clock_rate (s s' : CHIP8_t) (h : CHIP8_I_8XY1 s = .ok s') :
    s'.clock_rate = s.clock_rate := by
  simp only [CHIP8_I_8XY1, bind_eq_ok_iff, readV_eq_ok_iff, writeV_eq_ok_iff, writeMM_eq_ok_iff,
    readKeypad_eq_ok_iff] at h
  aesop

theorem CHIP8_I_8XY2_clock_rate (s s' : CHIP8_t) (h : CHIP8_I_8XY2 s = .ok s') :
    s'.clock_rate = s.clock_rate := by
  simp only [CHIP8_I_8XY2, bind_eq_ok_iff, readV_eq_ok_iff, writeV_eq_ok_iff, writeMM_eq_ok_iff,
    readKeypad_eq_ok_iff] at h
  aesop

theorem CHIP8_I_8XY3_clock_rate (s s' : CHIP8_t) (h : CHIP8_I_8XY3 s = .ok s') :
    s'.clock_rate = s.clock_rate := by
  simp only [CHIP8_I_8XY3, bind_eq_ok_iff, readV_eq_ok_iff, writeV_eq_ok_iff, writeMM_eq_ok_iff,
    readKeypad_eq_ok_iff] at h
  aesop

theorem CHIP8_I_8XY4_clock_rate (s s' : CHIP8_t) (h : CHIP8_I_8XY4 s = .ok s') :
    s'.clock_rate = s.clock_rate := by
  simp only [CHIP8_I_8XY4, bind_eq_ok_iff, readV_eq_ok_iff, writeV_eq_ok_iff, writeMM_eq_ok_iff,
    readKeypad_eq_ok_iff] at h
  aesop

theorem CHIP8_I_8XY5_clock_rate (s s' : CHIP8_t) (h : CHIP8_I_8XY5 s = .ok s') :
    s'.clock_rate = s.clock_rate := by
  simp only [CHIP8_I_8XY5, bind_eq_ok_iff, readV_eq_ok_iff, writeV_eq_ok_iff, writeMM_eq_ok_iff,
    readKeypad_eq_ok_iff] at h
  aesop

theorem CHIP8_I_8XY6_clock_rate (s s' : CHIP8_t) (h : CHIP8_I_8XY6 s = .ok s') :
    s'.clock_rate = s.clock_rate := by
  simp only [CHIP8_I_8XY6, bind_eq_ok_iff, readV_eq_ok_iff, writeV_eq_ok_iff, writeMM_eq_ok_iff,
    readKeypad_eq_ok_iff] at h
  aesop

theorem CHIP8_I_8XY7_clock_rate (s s' : CHIP8_t) (h : CHIP8_I_8XY7 s = .ok s') :
    s'.clock_rate = s.clock_rate := by
  simp only [CHIP8_I_8XY7, bind_eq_ok_iff, readV_eq_ok_iff, writeV_eq_ok_iff, writeMM_eq_ok_iff,
    readKeypad_eq_ok_iff] at h
  aesop

theorem CHIP8_I_8XYE_clock_rate (s s' : CHIP8_t) (h : CHIP8_I_8XYE s = .ok s') :
    s'.clock_rate = s.clock_rate := by
  simp only [CHIP8_I_8XYE, bind_eq_ok_iff, readV_eq_ok_iff, writeV_eq_ok_iff, writeMM_eq_ok_iff,
    readKeypad_eq_ok_iff] at h
  aesop

theorem CHIP8_I_9XY0_clock_rate (s s' : CHIP8_t) (h : CHIP8_I_9XY0 s = .ok s') :
    s'.clock_rate = s.clock_rate := by
  simp only [CHIP8_I_9XY0, bind_eq_ok_iff, readV_eq_ok_iff, writeV_eq_ok_iff, writeMM_eq_ok_iff,
    readKeypad_eq_ok_iff] at h
  aesop

theorem CHIP8_I_ANNN_clock_rate (s s' : CHIP8_t) (h : CHIP8_I_ANNN s = .ok s') :
    s'.clock_rate = s.clock_rate := by
  simp only [CHIP8_I_ANNN, bind_eq_ok_iff, readV_eq_ok_iff, writeV_eq_ok_iff, writeMM_eq_ok_iff,
    readKeypad_eq_ok_iff] at h
  aesop

theorem CHIP8_I_BNNN_clock_rate (s s' : CHIP8_t) (h : CHIP8_I_BNNN s = .ok s') :
    s'.clock_rate = s.clock_rate := by
  simp only [CHIP8_I_BNNN, bind_eq_ok_iff, readV_eq_ok_iff, writeV_eq_ok_iff, writeMM_eq_ok_iff,
    readKeypad_eq_ok_iff] at h
  aesop

theorem CHIP8_I_CXNN_clock_rate (rnd : Nat) (s s' : CHIP8_t) (h : CHIP8_I_CXNN rnd s = .ok s') :
    s'.clock_rate = s.clock_rate := by
  simp only [CHIP8_I_CXNN, bind_eq_ok_iff, readV_eq_ok_iff, writeV_eq_ok_iff, writeMM_eq_ok_iff,
    readKeypad_eq_ok_iff] at h
  aesop

theorem CHIP8_I_EX9E_clock_rate (s s' : CHIP8_t) (h : CHIP8_I_EX9E s = .ok s') :
    s'.clock_rate = s.clock_rate := by
  simp only [CHIP8_I_EX9E, bind_eq_ok_iff, readV_eq_ok_iff, writeV_eq_ok_iff, writeMM_eq_ok_iff,
    readKeypad_eq_ok_iff] at h
  aesop

theorem CHIP8_I_EXA1_clock_rate (s s' : CHIP8_t) (h : CHIP8_I_EXA1 s = .ok s') :
    s'.clock_rate = s.clock_rate := by
  simp only [CHIP8_I_EXA1, bind_eq_ok_iff, readV_eq_ok_iff, writeV_eq_ok_iff, writeMM_eq_ok_iff,
    readKeypad_eq_ok_iff] at h
  aesop

theorem CHIP8_I_FX07_clock_rate (s s' : CHIP8_t) (h : CHIP8_I_FX07 s = .ok s') :
    s'.clock_rate = s.clock_rate := by
  simp only [CHIP8_I_FX07, bind_eq_ok_iff, readV_eq_ok_iff, writeV_eq_ok_iff, writeMM_eq_ok_iff,
    readKeypad_eq_ok_iff] at h
  aesop

theorem CHIP8_I_FX15_clock_rate (s s' : CHIP8_t) (h : CHIP8_I_FX15 s = .ok s') :
    s'.clock_rate = s.clock_rate := by
  simp only [CHIP8_I_FX15, bind_eq_ok_iff, readV_eq_ok_iff, writeV_eq_ok_iff, writeMM_eq_ok_iff,
    readKeypad_eq_ok_iff] at h
  aesop

theorem CHIP8_I_FX18_clock_rate (s s' : CHIP8_t) (h : CHIP8_I_FX18 s = .ok s') :
    s'.clock_rate = s.clock_rate := by
  simp only [CHIP8_I_FX18, bind_eq_ok_iff, readV_eq_ok_iff, writeV_eq_ok_iff, writeMM_eq_ok_iff,
    readKeypad_eq_ok_iff] at h
  aesop

theorem CHIP8_I_FX1E_clock_rate (s s' : CHIP8_t) (h : CHIP8_I_FX1E s = .ok s') :
    s'.clock_rate = s.clock_rate := by
  simp only [CHIP8_I_FX1E, bind_eq_ok_iff, readV_eq_ok_iff, writeV_eq_ok_iff, writeMM_eq_ok_iff,
    readKeypad_eq_ok_iff] at h
  aesop

theorem CHIP8_I_FX29_clock_rate (s s' : CHIP8_t) (h : CHIP8_I_FX29 s = .ok s') :
    s'.clock_rate = s.clock_rate := by
  simp only [CHIP8_I_FX29, bind_eq_ok_iff, readV_eq_ok_iff, writeV_eq_ok_iff, writeMM_eq_ok_iff,
    readKeypad_eq_ok_iff] at h
  aesop

theorem CHIP8_I_FX33_clock_rate (s s' : CHIP8_t) (h : CHIP8_I_FX33 s = .ok s') :
    s'.clock_rate = s.clock_rate := by
  simp only [CHIP8_I_FX33, bind_eq_ok_iff, readV_eq_ok_iff, writeV_eq_ok_iff, writeMM_eq_ok_iff,
    readKeypad_eq_ok_iff] at h
  aesop

theorem CHIP8_I_00EE_clock_rate (s s' : CHIP8_t) (h : CHIP8_I_00EE s = .ok s') :
    s'.clock_rate = s.clock_rate := by
  simp only [CHIP8_I_00EE, bind_eq_ok_iff, readStack_eq_ok_iff, Except.ok.injEq] at h
  obtain ⟨ret, -, h⟩ := h
  rw [← h]

theorem CHIP8_I_2NNN_clock_rate (s s' : CHIP8_t) (h : CHIP8_I_2NNN s = .ok s') :
    s'.clock_rate = s.clock_rate := by
  simp only [CHIP8_I_2NNN, bind_eq_ok_iff, writeStack_eq_ok_iff, Except.ok.injEq] at h
  obtain ⟨s1, ⟨-, hs1⟩, h⟩ := h
  rw [← h, ← hs1]

/-- Dispatch never writes `clock_rate`. -/
theorem CHIP8_dispatch_clock_rate (rnd : Nat) (s s' : CHIP8_t)
    (h : CHIP8_dispatch rnd s = .ok s') : s'.clock_rate = s.clock_rate := by
  have key : (fun r : Exec CHIP8_t => ∀ t, r = .ok t → t.clock_rate = s.clock_rate)
      (CHIP8_dispatch rnd s) := by
    apply CHIP8_dispatch_cases rnd s (fun r => ∀ t, r = .ok t → t.clock_rate = s.clock_rate)
    all_goals intro t ht
    · exact CHIP8_I_00E0_clock_rate s t ht
    · exact CHIP8_I_00EE_clock_rate s t ht
    · exact CHIP8_I_0NNN_clock_rate s t ht
    · exact CHIP8_I_1NNN_clock_rate s t ht
    · exact CHIP8_I_2NNN_clock_rate s t ht
    · exact CHIP8_I_3XNN_clock_rate s t ht
    · exact CHIP8_I_4XNN_clock_rate s t ht
    · exact CHIP8_I_5XY0_clock_rate s t ht
    · exact CHIP8_I_6XNN_clock_rate s t ht
    · exact CHIP8_I_7XNN_clock_rate s t ht
    · exact CHIP8_I_8XY0_clock_rate s t ht
    · exact CHIP8_I_8XY1_clock_rate s t ht
    · exact CHIP8_I_8XY2_clock_rate s t ht
    · exact CHIP8_I_8XY3_clock_rate s t ht
    · exact CHIP8_I_8XY4_clock_rate s t ht
    · exact CHIP8_I_8XY5_clock_rate s t ht
    · exact CHIP8_I_8XY6_clock_rate s t ht
    · exact CHIP8_I_8XY7_clock_rate s t ht
    · exact CHIP8_I_8XYE_clock_rate s t ht
    · exact CHIP8_I_9XY0_clock_rate s t ht
    · exact CHIP8_I_ANNN_clock_rate s t ht
    · exact CHIP8_I_BNNN_clock_rate s t ht
    · exact CHIP8_I_CXNN_clock_rate rnd s t ht
    · exact CHIP8_I_DXYN_clock_rate s t ht
    · exact CHIP8_I_EX9E_clock_rate s t ht
    · exact CHIP8_I_EXA1_clock_rate s t ht
    · exact CHIP8_I_FX07_clock_rate s t ht
    · exact CHIP8_I_FX0A_scan_clock_rate 16 0 { s with PC := wrapSub 16 s.PC 2 } t ht
    · exact CHIP8_I_FX15_clock_rate s t ht
    · exact CHIP8_I_FX18_clock_rate s t ht
    · exact CHIP8_I_FX1E_clock_rate s t ht
    · exact CHIP8_I_FX29_clock_rate s t ht
    · exact CHIP8_I_FX33_clock_rate s t ht
    · exact CHIP8_I_FX55_loop_clock_rate _ _ _ t ht
    · exact CHIP8_I_FX65_loop_clock_rate _ _ _ t ht
    · simp only [Except.ok.injEq] at ht
      rw [← ht]
  exact key s' h

/-- The instruction step never writes `clock_rate`. -/
theorem CHIP8_emulate_instruction_clock_rate (rnd : Nat) (s s' : CHIP8_t)
    (h : CHIP8_emulate_instruction rnd s = .ok s') : s'.clock_rate = s.clock_rate := by
  simp only [CHIP8_emulate_instruction, bind_eq_ok_iff] at h
  obtain ⟨opcode, -, h⟩ := h
  exact CHIP8_dispatch_clock_rate rnd
    { s with PC := (s.PC + 2) % 65536, instruction := CHIP8_decode opcode } s' h

/-! ## Cycle scheduler -/

/-- The instruction loop of a pass runs `clock_rate / 60` instruction steps, whatever fuel at
least that large it is given. -/
theorem CHIP8_main_loop_batch_steps (rnd : Nat → Nat) :
    ∀ (fuel i : Nat) (s : CHIP8_t), s.clock_rate / 60 ≤ i + fuel →
      CHIP8_main_loop_batch rnd fuel i s =
        CHIP8_emulate_instructions rnd (s.clock_rate / 60 - i) i s := by
  intro fuel
  induction fuel with
  | zero =>
    intro i s h
    rw [show s.clock_rate / 60 - i = 0 by omega]
    rfl
  | succ fuel ih =>
    intro i s h
    rw [CHIP8_main_loop_batch]
    by_cases hlt : i < s.clock_rate / 60
    · rw [if_pos hlt, show s.clock_rate / 60 - i = (s.clock_rate / 60 - (i + 1)) + 1 by omega,
        CHIP8_emulate_instructions]
      cases hstep : CHIP8_emulate_instruction (rnd i) s with
      | error e => rfl
      | ok s1 =>
        have hcr := CHIP8_emulate_instruction_clock_rate (rnd i) s s1 hstep
        simp only [ok_bind]
        rw [ih (i + 1) s1 (by rw [hcr]; omega), hcr]
    · rw [if_neg hlt, show s.clock_rate / 60 - i = 0 by omega]
      rfl

/-- C14: the pass breaks with the fatal error exactly when `PC > 0x1000` after the instruction
loop, so `PC == 0x1000` is not fatal. On `pc_edge_example` the pass ends with `PC = 0x1000`
without the fatal break, and the next pass fetches from `MM[0x1000]`, outside memory. -/
theorem CHIP8_main_loop_pass_fatal (events : List SDL_Event) (rnd : Nat → Nat)
    (s s2 : CHIP8_t) (hrun : (CHIP8_handle_input events s).run_state ≠ e_state_t.STOPPED)
    (hbatch : CHIP8_main_loop_batch rnd ((CHIP8_handle_input events s).clock_rate / 60) 0
      (CHIP8_handle_input events s) = .ok s2) :
    (s2.PC > 0x1000 → CHIP8_main_loop_pass events rnd s = .ok (.fatal s2)) ∧
    (s2.PC ≤ 0x1000 →
      CHIP8_main_loop_pass events rnd s = .ok (.again (CHIP8_update_timers s2))) ∧
    (∃ s', CHIP8_main_loop_pass [] rnd pc_edge_example = .ok (.again s') ∧
      s'.PC = 0x1000 ∧ s'.run_state = e_state_t.RUNNING ∧
      CHIP8_main_loop_pass [] rnd s' = .error (OutOfBounds.MM 0x1000)) := by
  refine ⟨?_, ?_, ⟨_, rfl, rfl, rfl, rfl⟩⟩
  · intro h
    simp only [CHIP8_main_loop_pass, if_neg hrun, hbatch, ok_bind, if_pos h]
  · intro h
    simp only [CHIP8_main_loop_pass, if_neg hrun, hbatch, ok_bind,
      if_neg (by omega : ¬ s2.PC > 0x1000)]

/-- Instance of the fatal break: with `V0 = 0x10` the jump `BFFF` leaves `PC = 0x100F` and the
pass breaks. -/
theorem CHIP8_main_loop_pass_fatal_witness :
    ∃ s2, CHIP8_main_loop_pass [] (fun _ => 0)
        { CHIP8_start (with_opcode 0xBFFF [0x10]) with clock_rate := 60 } = .ok (.fatal s2) ∧
      s2.PC = 0x100F :=
  ⟨_, (CHIP8_main_loop_pass_fatal [] (fun _ => 0)
    { CHIP8_start (with_opcode 0xBFFF [0x10]) with clock_rate := 60 } _
    (by decide) rfl).1 (by decide), rfl⟩

/-- C17: `QUIT` is not terminal inside a poll. Every event other than a `SPACE` key-down keeps
`QUIT`, and a record that reaches the loop test in state `QUIT` leaves the main loop without
another poll; but the `SPACE` key-down resumes from `QUIT`: the poll `[SDL_QUIT, SPACE down]`
ends in `RUNNING` from every record, and the main loop goes on to the following poll. -/
theorem CHIP8_handle_input_QUIT_resumed (rnd : Nat → Nat → Nat) (s : CHIP8_t)
    (polls : List (List SDL_Event)) (t : Nat) (hQ : s.run_state = e_state_t.QUIT) :
    (∀ e, e ≠ SDL_Event.SDL_KEYDOWN SDL_Keycode.SDLK_SPACE →
      (CHIP8_handle_event s e).run_state = e_state_t.QUIT) ∧
    CHIP8_main_loop rnd polls t s = .ok (.exited s) ∧
    (CHIP8_handle_event s (SDL_Event.SDL_KEYDOWN SDL_Keycode.SDLK_SPACE)).run_state
      = e_state_t.RUNNING ∧
    (∀ s0 : CHIP8_t, (CHIP8_handle_input
      [SDL_Event.SDL_QUIT, SDL_Event.SDL_KEYDOWN SDL_Keycode.SDLK_SPACE] s0).run_state
        = e_state_t.RUNNING) ∧
    (∃ s', CHIP8_main_loop rnd
        [[SDL_Event.SDL_QUIT, SDL_Event.SDL_KEYDOWN SDL_Keycode.SDLK_SPACE], []] t
        { CHIP8_start load_add_example with clock_rate := 120 } = .ok (.polling s') ∧
      s'.run_state = e_state_t.RUNNING ∧ s'.V 0 = 8) := by
  refine ⟨?_, ?_, ?_, ?_, ?_⟩
  · intro e he
    cases e with
    | SDL_QUIT => rfl
    | SDL_KEYDOWN sym =>
      cases sym <;> first | exact absurd rfl he | exact hQ
    | SDL_KEYUP sym =>
      cases sym <;> exact hQ
    | other => exact hQ
  · cases polls with
    | nil => simp only [CHIP8_main_loop, hQ, if_true]
    | cons events polls => simp only [CHIP8_main_loop, hQ, if_true]
  · simp [CHIP8_handle_event, hQ]
  · intro s0
    simp [CHIP8_handle_input, CHIP8_handle_event]
  · exact ⟨_, rfl, rfl, by decide⟩

/-- Instance on a record in state `QUIT`: a key-down of `1` keeps `QUIT`, and the main loop is
left at the test without handling the poll. -/
theorem CHIP8_handle_input_QUIT_resumed_witness :
    (CHIP8_handle_event { CHIP8_default with run_state := e_state_t.QUIT }
      (SDL_Event.SDL_KEYDOWN SDL_Keycode.SDLK_1)).run_state = e_state_t.QUIT ∧
    CHIP8_main_loop (fun _ _ => 0) [[SDL_Event.SDL_KEYDOWN SDL_Keycode.SDLK_1]] 0
      { CHIP8_default with run_state := e_state_t.QUIT } =
        .ok (.exited { CHIP8_default with run_state := e_state_t.QUIT }) := by
  obtain ⟨h1, h2, -⟩ := CHIP8_handle_input_QUIT_resumed (fun _ _ => 0)
    { CHIP8_default with run_state := e_state_t.QUIT }
    [[SDL_Event.SDL_KEYDOWN SDL_Keycode.SDLK_1]] 0 rfl
  exact ⟨h1 _ (by decide), h2⟩

theorem wrapSub_8_one (t : Nat) (h0 : 0 < t) (ht : t < 256) : wrapSub 8 t 1 = t - 1 := by
  unfold wrapSub
  have h : ((2 : Int) ^ 8) = 256 := by norm_num
  rw [h]
  omega

theorem CHIP8_update_timers_eq (s : CHIP8_t) (hD : s.D < 256) (hS : s.S < 256) :
    CHIP8_update_timers s = { s with D := s.D - 1, S := s.S - 1 } := by
  unfold CHIP8_update_timers
  by_cases h1 : s.D > 0 <;> by_cases h2 : s.S > 0
  · simp only [h1, h2, if_true, wrapSub_8_one _ h1 hD, wrapSub_8_one _ h2 hS]
  · simp only [h1, h2, if_true, if_false, wrapSub_8_one _ h1 hD]
    rw [show s.S - 1 = s.S by omega]
  · simp only [h1, h2, if_true, if_false, wrapSub_8_one _ h2 hS]
    rw [show s.D - 1 = s.D by omega]
  · simp only [h1, h2, if_false]
    rw [show s.S - 1 = s.S by omega, show s.D - 1 = s.D by omega]

theorem CHIP8_update_timers_iterate (n : Nat) :
    ∀ s : CHIP8_t, s.D < 256 → s.S < 256 →
      Nat.iterate CHIP8_update_timers n s = { s with D := s.D - n, S := s.S - n } := by
  induction n with
  | zero =>
    intro s _ _
    rfl
  | succ n ih =>
    intro s hD hS
    rw [Function.iterate_succ_apply, CHIP8_update_timers_eq s hD hS,
      ih _ (by simp only; omega) (by simp only; omega)]
    simp only [Nat.sub_sub, Nat.add_comm 1 n]

/-- C18: the timer step of a pass maps each 8-bit timer value `t`, delay and sound
independently, to `t - 1` if `t > 0` and to 0 if `t = 0`, and changes nothing else; the new
value is never greater than the old one, and `n` consecutive timer steps leave the truncated
difference `t - n`, which is `max(t - n, 0)` over the integers. -/
theorem CHIP8_update_timers_floor (s : CHIP8_t) (hD : s.D < 256) (hS : s.S < 256) :
    (CHIP8_update_timers s).D = (if s.D > 0 then s.D - 1 else 0) ∧
    (CHIP8_update_timers s).S = (if s.S > 0 then s.S - 1 else 0) ∧
    (CHIP8_update_timers s).D ≤ s.D ∧ (CHIP8_update_timers s).S ≤ s.S ∧
    CHIP8_update_timers s =
      { s with D := (CHIP8_update_timers s).D, S := (CHIP8_update_timers s).S } ∧
    (∀ n, (Nat.iterate CHIP8_update_timers n s).D = s.D - n ∧
      (Nat.iterate CHIP8_update_timers n s).S = s.S - n ∧
      ((Nat.iterate CHIP8_update_timers n s).D : Int) = max ((s.D : Int) - n) 0 ∧
      ((Nat.iterate CHIP8_update_timers n s).S : Int) = max ((s.S : Int) - n) 0) := by
  rw [CHIP8_update_timers_eq s hD hS]
  refine ⟨?_, ?_, ?_, ?_, rfl, ?_⟩
  · simp only
    split_ifs <;> omega
  · simp only
    split_ifs <;> omega
  · simp only
    omega
  · simp only
    omega
  · intro n
    rw [CHIP8_update_timers_iterate n s hD hS]
    refine ⟨rfl, rfl, ?_, ?_⟩
    · show ((s.D - n : Nat) : Int) = max ((s.D : Int) - n) 0
      omega
    · show ((s.S - n : Nat) : Int) = max ((s.S : Int) - n) 0
      omega

/-- Instance of the timer step: `D = 1`, `S = 0` give `D = 0`, `S = 0`, and three steps from
`D = 2` give `D = 0`. -/
theorem CHIP8_update_timers_floor_witness :
    (CHIP8_update_timers { CHIP8_default with D := 1 }).D = 0 ∧
    (CHIP8_update_timers { CHIP8_default with D := 1 }).S = 0 ∧
    (Nat.iterate CHIP8_update_timers 3 { CHIP8_default with D := 2 }).D = 0 := by
  have h1 := CHIP8_update_timers_floor { CHIP8_default with D := 1 } (by decide) (by decide)
  have h2 := CHIP8_update_timers_floor { CHIP8_default with D := 2 } (by decide) (by decide)
  exact ⟨h1.1, h1.2.1, (h2.2.2.2.2.2 3).1⟩

/-- C20: a pass executes exactly `clock_rate / 60` instruction steps for the `clock_rate` held
in the record, but `CHIP8_create` receives the configured rate through a `uint8_t` parameter:
the record holds `r mod 256`, or the default 700 when that is 0. The default gives 11 steps,
but `r = 700` is stored as 188 and gives 3 steps, not 11, and `r = 600` is stored as 88 and
gives 1 step, not 10. -/
theorem CHIP8_create_clock_rate_truncated (rnd : Nat → Nat) (r fuel : Nat) (s : CHIP8_t)
    (hfuel : s.clock_rate / 60 ≤ fuel) :
    CHIP8_main_loop_batch rnd fuel 0 s =
      CHIP8_emulate_instructions rnd (s.clock_rate / 60) 0 s ∧
    (CHIP8_create r).clock_rate = (if r % 256 = 0 then 700 else r % 256) ∧
    (CHIP8_create 0).clock_rate / 60 = 11 ∧
    (CHIP8_create 700).clock_rate = 188 ∧ (CHIP8_create 700).clock_rate / 60 = 3 ∧
    (CHIP8_create 600).clock_rate = 88 ∧ (CHIP8_create 600).clock_rate / 60 = 1 := by
  refine ⟨?_, ?_, by decide, by decide, by decide, by decide, by decide⟩
  · have h := CHIP8_main_loop_batch_steps rnd fuel 0 s (by omega)
    rw [h, Nat.sub_zero]
  · unfold CHIP8_create
    by_cases h : r % 256 = 0
    · simp [h, CHIP8_default]
    · simp only [h, ne_eq, not_false_eq_true, if_true, if_false]

/-- Instance of the step count: the record created for `r = 120` runs the two instructions of
`load_add_example` in one pass. -/
theorem CHIP8_create_clock_rate_truncated_witness :
    ∃ s', CHIP8_main_loop_batch (fun _ => 0) 2 0
        { load_add_example with clock_rate := (CHIP8_create 120).clock_rate } = .ok s' ∧
      s'.V 0 = 8 ∧ s'.PC = 0x204 := by
  have h := (CHIP8_create_clock_rate_truncated (fun _ => 0) 120 2
    { load_add_example with clock_rate := (CHIP8_create 120).clock_rate } (by decide)).1
  exact ⟨_, h.trans rfl, by decide, by decide⟩

/-! ## Fetch addresses -/

/-- C21: for every record with `PC < 0xFFF` both reads of the fetch are inside `MM[0x1000]` and
the fetch returns the opcode; conversely a fetch that returns has `PC < 0xFFF`, so `PC < 0x1000`
alone does not keep the read of `MM[PC+1]` inside memory. -/
theorem CHIP8_fetch_in_bounds (s : CHIP8_t) :
    (s.PC < 0xFFF →
      readMM s s.PC = .ok (s.MM s.PC) ∧ readMM s (s.PC + 1) = .ok (s.MM (s.PC + 1)) ∧
      CHIP8_fetch s = .ok (((s.MM s.PC <<< 8) ||| s.MM (s.PC + 1)) % 65536)) ∧
    ((∃ opcode, CHIP8_fetch s = .ok opcode) → s.PC < 0xFFF) := by
  constructor
  · intro hPC
    have h0 : s.PC < 4096 := by omega
    have h1 : s.PC + 1 < 4096 := by omega
    refine ⟨readMM_ok _ _ h0, readMM_ok _ _ h1, ?_⟩
    simp only [CHIP8_fetch, readMM_ok _ _ h0, readMM_ok _ _ h1, ok_bind]
  · rintro ⟨opcode, hf⟩
    have := CHIP8_fetch_PC s opcode hf
    omega

/-- Instance of the fetch inside memory: at `PC = 0xFFE` the bytes `60 00` at `0xFFE`, `0xFFF`
are fetched as the opcode `6000`. -/
theorem CHIP8_fetch_in_bounds_witness :
    pc_edge_example.PC = 0xFFE ∧ CHIP8_fetch pc_edge_example = .ok 0x6000 :=
  ⟨rfl, ((CHIP8_fetch_in_bounds pc_edge_example).1 (by decide)).2.2⟩

/-- The jump `1FFF` leaves `PC = 0xFFF`, which is below `0x1000`; the next fetch reads
`MM[0xFFF]` and then `MM[0x1000]`, one past the end of `MM[0x1000]`. -/
theorem CHIP8_fetch_at_0xFFF_out_of_bounds :
    ∃ s1, CHIP8_emulate_instruction 0 (with_opcode 0x1FFF []) = .ok s1 ∧
      s1.PC = 0xFFF ∧ s1.PC < 0x1000 ∧
      readMM s1 s1.PC = .ok 0 ∧
      readMM s1 (s1.PC + 1) = .error (OutOfBounds.MM 0x1000) ∧
      CHIP8_fetch s1 = .error (OutOfBounds.MM 0x1000) ∧
      CHIP8_emulate_instruction 0 s1 = .error (OutOfBounds.MM 0x1000) :=
  ⟨_, rfl, rfl, by decide, rfl, rfl, rfl, rfl⟩

/-! ## Sprite drawing: derived facts -/

theorem CHIP8_execute_DXYN_eq (rnd opcode : Nat) (s : CHIP8_t)
    (hc : opcode / 4096 % 16 = 0xD) :
    CHIP8_execute_opcode rnd opcode s =
      CHIP8_I_DXYN { s with PC := (s.PC + 2) % 65536, instruction := CHIP8_decode opcode } := by
  simp [CHIP8_execute_opcode, CHIP8_dispatch, CHIP8_decode_opcode, opcode_class, hc]

theorem CHIP8_execute_FX29_eq (rnd opcode : Nat) (s : CHIP8_t)
    (hc : opcode / 4096 % 16 = 0xF) (hNN : opcode % 256 = 0x29) :
    CHIP8_execute_opcode rnd opcode s =
      CHIP8_I_FX29 { s with PC := (s.PC + 2) % 65536, instruction := CHIP8_decode opcode } := by
  simp [CHIP8_execute_opcode, CHIP8_dispatch, CHIP8_decode_opcode, opcode_class,
    CHIP8_decode_NN, hc, hNN]

/-- Effect of `CHIP8_I_DXYN` when the sprite rows lie inside memory, with the instruction fields
and the draw position named: the draw returns, changes only `V` and `display`, leaves every
register but `V[0xF]`, flips exactly the on-screen cells whose sprite pixel is set, and sets
`V[0xF]` to 1 or 0 according to whether a lit cell met a set sprite pixel. -/
theorem CHIP8_I_DXYN_effect (s : CHIP8_t) (X Y N X0 Y0 : Nat)
    (hiX : s.instruction.X = X) (hiY : s.instruction.Y = Y) (hiN : s.instruction.N = N)
    (hX : X < 16) (hY : Y < 16) (hN : N < 16)
    (hX0 : s.V X % 64 = X0) (hY0 : s.V Y % 32 = Y0) (hI : s.I + N ≤ 4096) :
    ∃ s', CHIP8_I_DXYN s = .ok s' ∧
      s'.MM = s.MM ∧ s'.I = s.I ∧ s'.PC = s.PC ∧ s'.instruction = s.instruction ∧
      (∀ i, i ≠ 0xF → s'.V i = s.V i) ∧
      (∀ r c, r < N → Y0 + r < 32 → c < 8 → X0 + c < 64 →
        s'.display (X0 + c + (Y0 + r) * 64) =
          xor (s.display (X0 + c + (Y0 + r) * 64)) ((s.MM (s.I + r)).testBit (7 - c))) ∧
      (∀ idx, (∀ r c, r < N → Y0 + r < 32 → c < 8 → X0 + c < 64 →
          idx ≠ X0 + c + (Y0 + r) * 64) → s'.display idx = s.display idx) ∧
      ((∃ r c, r < N ∧ Y0 + r < 32 ∧ c < 8 ∧ X0 + c < 64 ∧
          s.display (X0 + c + (Y0 + r) * 64) = true ∧
          (s.MM (s.I + r)).testBit (7 - c) = true) → s'.V 0xF = 1) ∧
      ((¬ ∃ r c, r < N ∧ Y0 + r < 32 ∧ c < 8 ∧ X0 + c < 64 ∧
          s.display (X0 + c + (Y0 + r) * 64) = true ∧
          (s.MM (s.I + r)).testBit (7 - c) = true) → s'.V 0xF = 0) := by
  subst hiX hiY hiN hX0 hY0
  rcases CHIP8_I_DXYN_spec s hX hY (by omega) with ⟨r, hr, -, hoob, -⟩ |
    ⟨s', hok, hframe, hV, hcells, hrest, hc1, hc0⟩
  · omega
  · exact ⟨s', hok, (congrArg CHIP8_t.MM hframe : _), (congrArg CHIP8_t.I hframe : _),
      (congrArg CHIP8_t.PC hframe : _), (congrArg CHIP8_t.instruction hframe : _),
      hV, hcells, hrest, hc1, hc0⟩

theorem DXYN_opcode_fields (X Y N : Nat) (hX : X < 16) (hY : Y < 16) (hN : N < 16) :
    (0xD000 + 0x100 * X + 0x10 * Y + N) / 4096 % 16 = 0xD ∧
    (CHIP8_decode (0xD000 + 0x100 * X + 0x10 * Y + N)).X = X ∧
    (CHIP8_decode (0xD000 + 0x100 * X + 0x10 * Y + N)).Y = Y ∧
    (CHIP8_decode (0xD000 + 0x100 * X + 0x10 * Y + N)).N = N := by
  rw [CHIP8_decode_X, CHIP8_decode_Y, CHIP8_decode_N]
  omega

/-! ## Font glyphs -/

/-- After the font copy of `CHIP8_init` the bytes `MM[0..79]` are the font table. -/
theorem CHIP8_init_font_MM (s : CHIP8_t) (a : Nat) (ha : a < 80) :
    (CHIP8_init_font s).MM a = font.getD a 0 := by
  have h : a < font.length := ha
  simp only [CHIP8_init_font, if_pos h]

theorem FX29_opcode_fields (X : Nat) (hX : X < 16) :
    (0xF029 + 0x100 * X) / 4096 % 16 = 0xF ∧ (0xF029 + 0x100 * X) % 256 = 0x29 ∧
    (CHIP8_decode (0xF029 + 0x100 * X)).X = X := by
  rw [CHIP8_decode_X]
  omega

/-- C22: with the font table at `MM[0..79]`, for every digit `d` in 0..15 the step on `FX29`
with `V[X] = d` sets `I = 5 * d`, the five glyph bytes `MM[I..I+4]` lie below `0x50` and are
rows `5*d .. 5*d+4` of the font table, and a following step on `DXY5` with `V[X] = V[Y] = 0` on
a blank display leaves cell `(c, r)` for `c < 8`, `r < 5` equal to bit `7 - c` of row `r` of the
glyph, every other cell false, and `VF = 0`. -/
theorem CHIP8_FX29_glyph_draw (rnd d Xf Xd Yd : Nat) (s : CHIP8_t)
    (hfont : ∀ a, a < 80 → s.MM a = font.getD a 0) (hd : d < 16)
    (hXf : Xf < 16) (hXd : Xd < 16) (hYd : Yd < 16)
    (hVf : s.V Xf = d) (hVx : s.V Xd = 0) (hVy : s.V Yd = 0)
    (hblank : ∀ idx, idx < 2048 → s.display idx = false) :
    ∃ s1 s2, CHIP8_execute_opcode rnd (0xF029 + 0x100 * Xf) s = .ok s1 ∧
      s1.I = 5 * d ∧
      (∀ r, r < 5 → s1.I + r < 0x50 ∧ s1.MM (s1.I + r) = font.getD (5 * d + r) 0) ∧
      CHIP8_execute_opcode rnd (0xD000 + 0x100 * Xd + 0x10 * Yd + 5) s1 = .ok s2 ∧
      (∀ c r, c < 8 → r < 5 →
        s2.display (c + r * 64) = (font.getD (5 * d + r) 0).testBit (7 - c)) ∧
      (∀ col row, col < 64 → row < 32 → ¬ (col < 8 ∧ row < 5) →
        s2.display (col + row * 64) = false) ∧
      s2.V 0xF = 0 := by
  obtain ⟨hcF, hNNF, hdXf⟩ := FX29_opcode_fields Xf hXf
  obtain ⟨hc, hdX, hdY, hdN⟩ := DXYN_opcode_fields Xd Yd 5 hXd hYd (by omega)
  have hI5 : (s.V Xf * 5) % 65536 = 5 * d := by rw [hVf]; omega
  have hstep1 : CHIP8_execute_opcode rnd (0xF029 + 0x100 * Xf) s =
      .ok { s with PC := (s.PC + 2) % 65536,
                   instruction := CHIP8_decode (0xF029 + 0x100 * Xf), I := 5 * d } := by
    rw [CHIP8_execute_FX29_eq rnd _ s hcF hNNF]
    simp only [CHIP8_I_FX29, hdXf, readV_ok _ _ hXf, ok_bind, hI5]
  obtain ⟨s2, hok2, -, -, -, -, -, hcells2, hrest2, -, hc0⟩ :=
    CHIP8_I_DXYN_effect
      { s with PC := ((s.PC + 2) % 65536 + 2) % 65536,
               instruction := CHIP8_decode (0xD000 + 0x100 * Xd + 0x10 * Yd + 5), I := 5 * d }
      Xd Yd 5 0 0 hdX hdY hdN hXd hYd (by omega)
      (by show s.V Xd % 64 = 0; rw [hVx]) (by show s.V Yd % 32 = 0; rw [hVy])
      (by show 5 * d + 5 ≤ 4096; omega)
  simp only [Nat.zero_add] at hcells2 hrest2 hc0
  refine ⟨_, s2, hstep1, rfl, ?_, ?_, ?_, ?_, ?_⟩
  · intro r hr
    refine ⟨?_, ?_⟩
    · show 5 * d + r < 0x50
      omega
    · show s.MM (5 * d + r) = font.getD (5 * d + r) 0
      exact hfont (5 * d + r) (by omega)
  · rw [CHIP8_execute_DXYN_eq rnd _ _ hc]
    exact hok2
  · intro c r hc8 hr5
    rw [hcells2 r c hr5 (by omega) hc8 (by omega), hblank _ (by omega), hfont _ (by omega)]
    simp only [Bool.false_xor]
  · intro col row hcol hrow hout
    rw [hrest2 (col + row * 64) (by intro r c hr _ hc8 _; omega)]
    exact hblank _ (by omega)
  · apply hc0
    rintro ⟨r, c, hr, -, hc8, -, hlit, -⟩
    rw [hblank _ (by omega)] at hlit
    exact Bool.noConfusion hlit

/-- Instances of the glyph draw on `font_example`: digit 0 gives `I = 0x000` and rows
`F0 90 90 90 F0`; digit 7 gives `I = 35` and rows `F0 10 20 40 40`. -/
theorem CHIP8_FX29_glyph_draw_witness :
    (∃ s1 s2, CHIP8_execute_opcode 0 0xF229 (font_example 0) = .ok s1 ∧ s1.I = 0x000 ∧
      CHIP8_execute_opcode 0 0xD015 s1 = .ok s2 ∧
      (∀ c r, c < 8 → r < 5 → s2.display (c + r * 64) =
        ([0xF0, 0x90, 0x90, 0x90, 0xF0].getD r 0).testBit (7 - c)) ∧ s2.V 0xF = 0) ∧
    (∃ s1 s2, CHIP8_execute_opcode 0 0xF229 (font_example 7) = .ok s1 ∧ s1.I = 35 ∧
      CHIP8_execute_opcode 0 0xD015 s1 = .ok s2 ∧
      (∀ c r, c < 8 → r < 5 → s2.display (c + r * 64) =
        ([0xF0, 0x10, 0x20, 0x40, 0x40].getD r 0).testBit (7 - c)) ∧ s2.V 0xF = 0) := by
  constructor
  · obtain ⟨s1, s2, h1, hI, -, h2, hcells, -, hVF⟩ :=
      CHIP8_FX29_glyph_draw 0 0 2 0 1 (font_example 0)
        (fun a ha => CHIP8_init_font_MM _ a ha) (by decide) (by decide) (by decide) (by decide)
        rfl rfl rfl (fun _ _ => rfl)
    refine ⟨s1, s2, h1, hI, h2, ?_, hVF⟩
    intro c r hc hr
    rw [hcells c r hc hr]
    interval_cases r <;> rfl
  · obtain ⟨s1, s2, h1, hI, -, h2, hcells, -, hVF⟩ :=
      CHIP8_FX29_glyph_draw 0 7 2 0 1 (font_example 7)
        (fun a ha => CHIP8_init_font_MM _ a ha) (by decide) (by decide) (by decide) (by decide)
        rfl rfl rfl (fun _ _ => rfl)
    refine ⟨s1, s2, h1, hI, h2, ?_, hVF⟩
    intro c r hc hr
    rw [hcells c r hc hr]
    interval_cases r <;> rfl

/-! ## Drawing twice -/

/-- C23: for every record with `I + N ≤ 4096` and every `X`, `Y` in 0..14, the step on `DXYN`
followed by the step on the same `DXYN` returns, and every display cell has the value it had
before the first draw. -/
theorem CHIP8_DXYN_twice_restores (rnd X Y N : Nat) (s : CHIP8_t) (hX : X < 16) (hY : Y < 16)
    (hN : N < 16) (hXF : X ≠ 0xF) (hYF : Y ≠ 0xF) (hI : s.I + N ≤ 4096) :
    ∃ s1 s2, CHIP8_execute_opcode rnd (0xD000 + 0x100 * X + 0x10 * Y + N) s = .ok s1 ∧
      CHIP8_execute_opcode rnd (0xD000 + 0x100 * X + 0x10 * Y + N) s1 = .ok s2 ∧
      (∀ idx, idx < 2048 → s2.display idx = s.display idx) ∧ s2.display = s.display := by
  obtain ⟨hc, hdX, hdY, hdN⟩ := DXYN_opcode_fields X Y N hX hY hN
  obtain ⟨s1, hok1, hMM1, hI1, -, -, hV1, hcells1, hrest1, -, -⟩ :=
    CHIP8_I_DXYN_effect
      { s with PC := (s.PC + 2) % 65536,
               instruction := CHIP8_decode (0xD000 + 0x100 * X + 0x10 * Y + N) }
      X Y N (s.V X % 64) (s.V Y % 32) hdX hdY hdN hX hY hN rfl rfl hI
  obtain ⟨s2, hok2, -, -, -, -, -, hcells2, hrest2, -, -⟩ :=
    CHIP8_I_DXYN_effect
      { s1 with PC := (s1.PC + 2) % 65536,
                instruction := CHIP8_decode (0xD000 + 0x100 * X + 0x10 * Y + N) }
      X Y N (s.V X % 64) (s.V Y % 32) hdX hdY hdN hX hY hN
      (by show s1.V X % 64 = s.V X % 64; rw [hV1 X hXF])
      (by show s1.V Y % 32 = s.V Y % 32; rw [hV1 Y hYF])
      (by show s1.I + N ≤ 4096; rw [hI1]; exact hI)
  simp only at hMM1 hI1 hcells1 hrest1 hcells2 hrest2
  have hall : ∀ idx, s2.display idx = s.display idx := by
    intro idx
    by_cases h : ∃ r c, r < N ∧ s.V Y % 32 + r < 32 ∧ c < 8 ∧ s.V X % 64 + c < 64 ∧
        idx = s.V X % 64 + c + (s.V Y % 32 + r) * 64
    · obtain ⟨r, c, hr, hr32, hc8, hc64, rfl⟩ := h
      rw [hcells2 r c hr hr32 hc8 hc64, hcells1 r c hr hr32 hc8 hc64, hMM1, hI1]
      cases s.display (s.V X % 64 + c + (s.V Y % 32 + r) * 64) <;>
        cases (s.MM (s.I + r)).testBit (7 - c) <;> rfl
    · have hne : ∀ r c, r < N → s.V Y % 32 + r < 32 → c < 8 → s.V X % 64 + c < 64 →
          idx ≠ s.V X % 64 + c + (s.V Y % 32 + r) * 64 :=
        fun r c hr hr32 hc8 hc64 heq => h ⟨r, c, hr, hr32, hc8, hc64, heq⟩
      rw [hrest2 idx hne, hrest1 idx hne]
  refine ⟨s1, s2, ?_, ?_, fun idx _ => hall idx, funext hall⟩
  · rw [CHIP8_execute_DXYN_eq rnd _ s hc, hok1]
  · rw [CHIP8_execute_DXYN_eq rnd _ s1 hc, hok2]
/-- Instance of the double draw on `draw_example` (`D015` with `V0 = 62`, `V1 = 30`, one lit
cell at `(62, 30)`): the first draw turns `(62, 30)` off and `(63, 30)` on, the second draw
turns them back. -/
theorem CHIP8_DXYN_twice_restores_witness :
    ∃ s1 s2, CHIP8_execute_opcode 0 0xD015 draw_example = .ok s1 ∧
      CHIP8_execute_opcode 0 0xD015 s1 = .ok s2 ∧
      draw_example.display (62 + 30 * 64) = true ∧ draw_example.display (63 + 30 * 64) = false ∧
      s1.display (62 + 30 * 64) = false ∧ s1.display (63 + 30 * 64) = true ∧
      s2.display (62 + 30 * 64) = true ∧ s2.display (63 + 30 * 64) = false := by
  obtain ⟨s1, s2, h1, h2, hall, -⟩ :=
    CHIP8_DXYN_twice_restores 0 0 1 5 draw_example (by decide) (by decide) (by decide)
      (by decide) (by decide) (by decide)
  have e1 : s1.display (62 + 30 * 64) = false ∧ s1.display (63 + 30 * 64) = true := by
    cases h1
    exact ⟨by decide, by decide⟩
  exact ⟨s1, s2, h1, h2, by decide, by decide, e1.1, e1.2,
    (hall _ (by decide)).trans (by decide), (hall _ (by decide)).trans (by decide)⟩

/-! ## Register-compare skips -/

/-- C24: a fetched opcode `5XYN` with `N ≠ 0` only advances `PC` by 2 (and sets the decoded
instruction view) whatever the registers hold; a fetched opcode `9XYN` with any `N` runs
`CHIP8_I_9XY0`, leaving `PC` advanced by 4 when `V[X] ≠ V[Y]` and by 2 otherwise. -/
theorem CHIP8_skip_low_nibble (rnd opcode : Nat) (s : CHIP8_t)
    (hf : CHIP8_fetch s = .ok opcode) :
    (opcode / 4096 % 16 = 0x5 → opcode % 16 ≠ 0 →
      CHIP8_emulate_instruction rnd s =
        .ok { s with PC := s.PC + 2, instruction := CHIP8_decode opcode }) ∧
    (opcode / 4096 % 16 = 0x9 →
      CHIP8_emulate_instruction rnd s =
        .ok { s with
          PC := if s.V (opcode / 256 % 16) ≠ s.V (opcode / 16 % 16) then s.PC + 4 else s.PC + 2
          instruction := CHIP8_decode opcode }) := by
  have hPC := CHIP8_fetch_PC s opcode hf
  have hmod : (s.PC + 2) % 65536 = s.PC + 2 := by omega
  have hmod4 : (s.PC + 2 + 2) % 65536 = s.PC + 4 := by omega
  have hX : opcode / 256 % 16 < 16 := Nat.mod_lt _ (by decide)
  have hY : opcode / 16 % 16 < 16 := Nat.mod_lt _ (by decide)
  constructor
  · intro hc hN
    simp [CHIP8_emulate_instruction, hf, ok_bind, CHIP8_execute_opcode, CHIP8_dispatch,
      CHIP8_decode_opcode, opcode_class, CHIP8_decode_N, hc, hN, hmod]
  · intro hc
    by_cases hne : s.V (opcode / 256 % 16) = s.V (opcode / 16 % 16)
    · simp [CHIP8_emulate_instruction, hf, ok_bind, CHIP8_execute_opcode, CHIP8_dispatch,
        CHIP8_decode_opcode, opcode_class, hc, hmod, CHIP8_I_9XY0, CHIP8_decode_X,
        CHIP8_decode_Y, readV_ok _ _ hX, readV_ok _ _ hY, hne]
    · simp [CHIP8_emulate_instruction, hf, ok_bind, CHIP8_execute_opcode, CHIP8_dispatch,
        CHIP8_decode_opcode, opcode_class, hc, hmod, hmod4, CHIP8_I_9XY0, CHIP8_decode_X,
        CHIP8_decode_Y, readV_ok _ _ hX, readV_ok _ _ hY, hne]

/-- Instances of the two skips: `5011` with `V0 = V1 = 7` does not skip, `9011` with `V0 = 7`,
`V1 = 8` skips, and `9011` with `V0 = V1 = 7` does not. -/
theorem CHIP8_skip_low_nibble_witness :
    CHIP8_emulate_instruction 0 (with_opcode 0x5011 [7, 7]) =
      .ok { with_opcode 0x5011 [7, 7] with PC := 0x202, instruction := CHIP8_decode 0x5011 } ∧
    CHIP8_emulate_instruction 0 (with_opcode 0x9011 [7, 8]) =
      .ok { with_opcode 0x9011 [7, 8] with PC := 0x204, instruction := CHIP8_decode 0x9011 } ∧
    CHIP8_emulate_instruction 0 (with_opcode 0x9011 [7, 7]) =
      .ok { with_opcode 0x9011 [7, 7] with PC := 0x202, instruction := CHIP8_decode 0x9011 } :=
  ⟨(CHIP8_skip_low_nibble 0 0x5011 (with_opcode 0x5011 [7, 7]) rfl).1 (by decide) (by decide),
   (CHIP8_skip_low_nibble 0 0x9011 (with_opcode 0x9011 [7, 8]) rfl).2 (by decide),
   (CHIP8_skip_low_nibble 0 0x9011 (with_opcode 0x9011 [7, 7]) rfl).2 (by decide)⟩

end CHIP8
